import Mathlib

/-!
# Spirographs: the aloGameEngine decal / layer pipeline and pixel buffers

A shallow embedding of the parts of `src/aloGameEngine.h` and of the `Palette`
class of `src/Spirograph.cpp` that the specification talks about, followed by
the theorems that settle its claims.

Conventions of the embedding

* `float` and `double` values are exact rationals (`ℚ`): the specification states its
  coordinate contract in exact arithmetic, and rounding is out of reach of a
  shallow embedding.
* `int32_t` values are `Int`; `std::vector<T>` is `List T`.
* Reading a vector outside its bounds is undefined behaviour in the source.
  Reads of pixel data are modelled as `Option` (`none` = read outside the
  vector); reads of caller-supplied vertex arrays fall back to a zero element.
* The rendering backend (`renderer->...`) is an external collaborator; it is
  modelled by the trace of calls it receives.
-/

namespace alo

/-! ## Pixels and 2D vectors -/

/-- Pixel of `alo::Pixel`: the four 8-bit channels of the 32-bit RGBA word. -/
structure Pixel where
  r : Nat
  g : Nat
  b : Nat
  a : Nat
deriving DecidableEq, Repr

/-- Constant `nDefaultAlpha = 0xFF`. -/
def nDefaultAlpha : Nat := 255

/-- Constant `nDefaultPixel = (nDefaultAlpha << 24)`: channels 0,0,0 and alpha 255. -/
def nDefaultPixel : Pixel := ⟨0, 0, 0, nDefaultAlpha⟩

/-- Colour constant `RED(255, 0, 0)` (alpha defaults to `nDefaultAlpha`). -/
def RED : Pixel := ⟨255, 0, 0, nDefaultAlpha⟩

/-- Colour constant `WHITE(255, 255, 255)`. -/
def WHITE : Pixel := ⟨255, 255, 255, nDefaultAlpha⟩

/-- Colour constant `BLACK(0, 0, 0)`. -/
def BLACK : Pixel := ⟨0, 0, 0, nDefaultAlpha⟩

/-- Colour constant `BLANK(0, 0, 0, 0)`. -/
def BLANK : Pixel := ⟨0, 0, 0, 0⟩

/-- Vector `alo::vf2d` (`v2d_generic<float>`), with exact rational components. -/
structure vf2d where
  x : ℚ
  y : ℚ
deriving DecidableEq

/-- Vector `alo::vi2d` (`v2d_generic<int32_t>`). -/
structure vi2d where
  x : Int
  y : Int
deriving DecidableEq, Repr

namespace vf2d

/-- Default constructor `v2d_generic() : x(0), y(0)`. -/
def zero : vf2d := ⟨0, 0⟩

/-- Operator `+` of `v2d_generic`. -/
def add (a b : vf2d) : vf2d := ⟨a.x + b.x, a.y + b.y⟩

/-- Operator `-` of `v2d_generic`. -/
def sub (a b : vf2d) : vf2d := ⟨a.x - b.x, a.y - b.y⟩

/-- Operator `*` of `v2d_generic` with a scalar on the right. -/
def smul (a : vf2d) (k : ℚ) : vf2d := ⟨a.x * k, a.y * k⟩

/-- Operator `*` of `v2d_generic`, component-wise. -/
def mul (a b : vf2d) : vf2d := ⟨a.x * b.x, a.y * b.y⟩

/-- Operator `/` of `v2d_generic`, component-wise. -/
def div (a b : vf2d) : vf2d := ⟨a.x / b.x, a.y / b.y⟩

/-- Free operator `float * v2d_generic`. -/
def lsmul (k : ℚ) (a : vf2d) : vf2d := ⟨k * a.x, k * a.y⟩

/-- Member `floor()`. -/
def floor (a : vf2d) : vf2d := ⟨(⌊a.x⌋ : Int), (⌊a.y⌋ : Int)⟩

/-- Member `ceil()`. -/
def ceil (a : vf2d) : vf2d := ⟨(⌈a.x⌉ : Int), (⌈a.y⌉ : Int)⟩

/-- Member `cross()`: `x * rhs.y - y * rhs.x`. -/
def cross (a b : vf2d) : ℚ := a.x * b.y - a.y * b.x

/-- Member `mag()`: `sqrt(x*x + y*y)`, with the square root supplied by the caller. -/
def mag (fsqrt : ℚ → ℚ) (a : vf2d) : ℚ := fsqrt (a.x * a.x + a.y * a.y)

end vf2d

/-! ## Sprite (the pixel buffer) -/

/-- Enumeration `Sprite::Mode`. -/
inductive SpriteMode where
  | NORMAL
  | PERIODIC
  | CLAMP
deriving DecidableEq, Repr

/-- Class `alo::Sprite`: dimensions, pixel data and the sampling mode. -/
structure Sprite where
  width : Int := 0
  height : Int := 0
  pColData : List Pixel := []
  modeSample : SpriteMode := SpriteMode.NORMAL
deriving DecidableEq, Repr

namespace Sprite

/-- Constructor `Sprite(int32_t w, int32_t h)`: `w*h` pixels, each `nDefaultPixel`
(the first `resize` value-initialises, and `Pixel` value-initialises to `nDefaultPixel`). -/
def create (w h : Int) : Sprite :=
  { width := w, height := h, pColData := List.replicate (w * h).toNat nDefaultPixel }

/-- Read `pColData[i]` for an `int` index; `none` when the index is outside the vector. -/
def readData (s : Sprite) (i : Int) : Option Pixel :=
  if i < 0 then none else s.pColData[i.toNat]?

/-- Method `Sprite::SetSampleMode`. -/
def SetSampleMode (s : Sprite) (mode : SpriteMode) : Sprite :=
  { s with modeSample := mode }

/-- Method `Sprite::GetPixel(int32_t x, int32_t y)`. C++ `%` truncates towards zero
(`Int.tmod`), `abs` is the absolute value. -/
def GetPixel (s : Sprite) (x y : Int) : Option Pixel :=
  if s.modeSample = SpriteMode.NORMAL then
    if x ≥ 0 ∧ x < s.width ∧ y ≥ 0 ∧ y < s.height then
      s.readData (y * s.width + x)
    else
      some ⟨0, 0, 0, 0⟩
  else
    if s.modeSample = SpriteMode.PERIODIC then
      s.readData (|Int.tmod y s.height| * s.width + |Int.tmod x s.width|)
    else
      s.readData (max 0 (min y (s.height - 1)) * s.width + max 0 (min x (s.width - 1)))

/-- Method `Sprite::SetPixel(int32_t x, int32_t y, Pixel p)`: the returned flag and the
sprite afterwards. -/
def SetPixel (s : Sprite) (x y : Int) (p : Pixel) : Bool × Sprite :=
  if x ≥ 0 ∧ x < s.width ∧ y ≥ 0 ∧ y < s.height then
    (true, { s with pColData := s.pColData.set (y * s.width + x).toNat p })
  else
    (false, s)

/-- Class invariant of a pixel buffer: `pColData.size() == width * height`. -/
def WellFormed (s : Sprite) : Prop :=
  0 ≤ s.width ∧ 0 ≤ s.height ∧ (s.pColData.length : Int) = s.width * s.height

end Sprite

/-! ## Decals, draw instances and layers -/

/-- Enumeration `alo::rcode`. -/
inductive rcode where
  | FAIL
  | OK
  | NO_FILE
deriving DecidableEq, Repr

/-- Integer value of an `rcode`: `FAIL = 0, OK = 1, NO_FILE = -1`. -/
def rcode.toInt : rcode → Int
  | rcode.FAIL => 0
  | rcode.OK => 1
  | rcode.NO_FILE => -1

/-- Enumeration `alo::DecalMode`. -/
inductive DecalMode where
  | NORMAL
  | ADDITIVE
  | MULTIPLICATIVE
  | STENCIL
  | ILLUMINATE
  | WIREFRAME
  | MODEL3D
deriving DecidableEq, Repr

/-- Enumeration `alo::DecalStructure`. -/
inductive DecalStructure where
  | LINE
  | FAN
  | STRIP
  | LIST
deriving DecidableEq, Repr

/-- Class `alo::Decal`: the backend texture id, the size of the sprite it points to
(`sprite->width`, `sprite->height`) and the UV scale. -/
structure Decal where
  id : Int := -1
  spriteWidth : Int := 0
  spriteHeight : Int := 0
  vUVScale : vf2d := ⟨1, 1⟩
deriving DecidableEq

/-- Struct `alo::DecalInstance`. A null `decal` pointer is `none`; the field
`structure` of the source is called `decalStructure` here. -/
structure DecalInstance where
  decal : Option Decal := none
  pos : List vf2d := []
  uv : List vf2d := []
  w : List ℚ := []
  tint : List Pixel := []
  mode : DecalMode := DecalMode.NORMAL
  decalStructure : DecalStructure := DecalStructure.FAN
  points : Nat := 0
deriving DecidableEq

/-- Class `alo::Renderable` once `Create` has run: a sprite and the decal made from it. -/
structure Renderable where
  pSprite : Sprite
  pDecal : Decal
deriving DecidableEq

/-- Struct `alo::LayerDesc`. The custom render function `funcHook` is kept as an
identifier of the function (`none` = `nullptr`). -/
structure LayerDesc where
  vOffset : vf2d := ⟨0, 0⟩
  vScale : vf2d := ⟨1, 1⟩
  bShow : Bool := false
  bUpdate : Bool := false
  pDrawTarget : Renderable
  nResID : Nat := 0
  vecDecalInstance : List DecalInstance := []
  tint : Pixel := WHITE
  funcHook : Option Nat := none
deriving DecidableEq

/-- Calls received by the rendering backend (`alo::Renderer`), plus the invocation of a
layer's custom render function, in the order they happen. -/
inductive RenderCall where
  | UpdateViewport (pos size : vi2d)
  | ClearBuffer (p : Pixel) (bDepth : Bool)
  | PrepareDrawing
  | CreateTexture (width height : Int) (filtered clamp : Bool)
  | ApplyTexture (id : Int)
  | UpdateTexture (id : Int) (spr : Sprite)
  | DrawLayerQuad (offset scale : vf2d) (tint : Pixel)
  | DrawDecal (decal : DecalInstance)
  | DisplayFrame
  | funcHook (hook : Nat)
deriving DecidableEq

/-- The `float` routines of the C library used by the draw calls. -/
structure FloatLib where
  sqrt : ℚ → ℚ
  cos : ℚ → ℚ
  sin : ℚ → ℚ

/-- Selection held by the `pDrawTarget` pointer: the sprite of a layer, or a sprite
owned by the user. -/
inductive DrawTarget where
  | null
  | layer (i : Nat)
  | user (handle : Nat)
deriving DecidableEq, Repr

/-- Class `alo::GameEngine`: the members used by the decal and layer pipeline, with
their in-class initialisers; `renderer` is the trace of backend calls so far. -/
structure GameEngine where
  pDrawTarget : DrawTarget := DrawTarget.null
  vScreenSize : vi2d := ⟨256, 240⟩
  vInvScreenSize : vf2d := ⟨1 / 256, 1 / 240⟩
  vPixelSize : vi2d := ⟨4, 4⟩
  vScreenPixelSize : vi2d := ⟨4, 4⟩
  vWindowSize : vi2d := ⟨0, 0⟩
  vViewPos : vi2d := ⟨0, 0⟩
  vViewSize : vi2d := ⟨0, 0⟩
  bFullScreen : Bool := false
  vPixel : vf2d := ⟨1, 1⟩
  bEnableVSYNC : Bool := false
  bSuspendTextureTransfer : Bool := false
  vLayers : List LayerDesc := []
  nTargetLayer : Nat := 0
  bPixelCohesion : Bool := false
  nDecalMode : DecalMode := DecalMode.NORMAL
  nDecalStructure : DecalStructure := DecalStructure.FAN
  bAtomActive : Bool := false
  renderer : List RenderCall := []
deriving DecidableEq

/-- Conversion `(int32_t)` of a `float`: truncation towards zero. -/
def truncToInt (q : ℚ) : Int := if 0 ≤ q then ⌊q⌋ else ⌈q⌉

/-- Apply `f` to element `n` of a vector (`v[n] = f(v[n])`); an index outside the
vector, undefined behaviour in the source, leaves the vector as it is. -/
def modifyAt {α : Type} (f : α → α) : Nat → List α → List α
  | _, [] => []
  | 0, a :: as => f a :: as
  | n + 1, a :: as => a :: modifyAt f n as

namespace GameEngine

/-- Method `GameEngine::Construct`. -/
def Construct (e : GameEngine) (screen_w screen_h pixel_w pixel_h : Int)
    (full_screen vsync cohesion : Bool) : rcode × GameEngine :=
  let e1 : GameEngine :=
    { e with
      bPixelCohesion := cohesion
      vScreenSize := ⟨screen_w, screen_h⟩
      vInvScreenSize := ⟨1 / (screen_w : ℚ), 1 / (screen_h : ℚ)⟩
      vPixelSize := ⟨pixel_w, pixel_h⟩
      vWindowSize := ⟨screen_w * pixel_w, screen_h * pixel_h⟩
      bFullScreen := full_screen
      bEnableVSYNC := vsync
      vPixel := ⟨(truncToInt (2 / (screen_w : ℚ)) : Int), (truncToInt (2 / (screen_h : ℚ)) : Int)⟩ }
  if e1.vPixelSize.x ≤ 0 ∨ e1.vPixelSize.y ≤ 0 ∨ e1.vScreenSize.x ≤ 0 ∨ e1.vScreenSize.y ≤ 0 then
    (rcode.FAIL, e1)
  else
    (rcode.OK, e1)

/-- Method `GameEngine::SetDrawTarget(Sprite* target)`; `none` is `nullptr`. -/
def SetDrawTargetSprite (e : GameEngine) (target : Option Nat) : GameEngine :=
  match target with
  | some h => { e with pDrawTarget := DrawTarget.user h }
  | none => { e with nTargetLayer := 0, pDrawTarget := DrawTarget.layer 0 }

/-- Method `GameEngine::SetDrawTarget(uint8_t layer, bool bDirty)`. -/
def SetDrawTarget (e : GameEngine) (layer : Nat) (bDirty : Bool) : GameEngine :=
  if layer < e.vLayers.length then
    { e with
      pDrawTarget := DrawTarget.layer layer
      vLayers := modifyAt (fun l => { l with bUpdate := bDirty }) layer e.vLayers
      nTargetLayer := layer }
  else e

/-- Method `GameEngine::EnableLayer`. -/
def EnableLayer (e : GameEngine) (layer : Nat) (b : Bool) : GameEngine :=
  if layer < e.vLayers.length then
    { e with vLayers := modifyAt (fun l => { l with bShow := b }) layer e.vLayers }
  else e

/-- Method `GameEngine::SetLayerOffset`. -/
def SetLayerOffset (e : GameEngine) (layer : Nat) (x y : ℚ) : GameEngine :=
  if layer < e.vLayers.length then
    { e with vLayers := modifyAt (fun l => { l with vOffset := ⟨x, y⟩ }) layer e.vLayers }
  else e

/-- Method `GameEngine::SetLayerScale`. -/
def SetLayerScale (e : GameEngine) (layer : Nat) (x y : ℚ) : GameEngine :=
  if layer < e.vLayers.length then
    { e with vLayers := modifyAt (fun l => { l with vScale := ⟨x, y⟩ }) layer e.vLayers }
  else e

/-- Method `GameEngine::SetLayerTint`. -/
def SetLayerTint (e : GameEngine) (layer : Nat) (tint : Pixel) : GameEngine :=
  if layer < e.vLayers.length then
    { e with vLayers := modifyAt (fun l => { l with tint := tint }) layer e.vLayers }
  else e

/-- Method `GameEngine::SetLayerCustomRenderFunction`; `none` is `nullptr`. -/
def SetLayerCustomRenderFunction (e : GameEngine) (layer : Nat) (f : Option Nat) : GameEngine :=
  if layer < e.vLayers.length then
    { e with vLayers := modifyAt (fun l => { l with funcHook := f }) layer e.vLayers }
  else e

/-- Method `GameEngine::CreateLayer`, through `Renderable::Create`, the `Sprite(w, h)` and
`Decal(spr, filter, clamp)` constructors and `Decal::Update`. The texture id returned by
the backend's `CreateTexture` is the argument `texId`. Returns the new layer's index. -/
def CreateLayer (e : GameEngine) (texId : Int) : Nat × GameEngine :=
  let spr := Sprite.create e.vScreenSize.x e.vScreenSize.y
  let dec : Decal :=
    { id := texId, spriteWidth := spr.width, spriteHeight := spr.height
      vUVScale := ⟨1 / (spr.width : ℚ), 1 / (spr.height : ℚ)⟩ }
  let ld : LayerDesc := { pDrawTarget := ⟨spr, dec⟩ }
  let e1 : GameEngine :=
    { e with
      vLayers := e.vLayers ++ [ld]
      renderer := e.renderer ++
        [RenderCall.CreateTexture spr.width spr.height false true,
         RenderCall.ApplyTexture texId, RenderCall.UpdateTexture texId spr] }
  (e1.vLayers.length - 1, e1)

/-- Method `GameEngine::SetDecalMode`. -/
def SetDecalMode (e : GameEngine) (mode : DecalMode) : GameEngine :=
  { e with nDecalMode := mode }

/-- Method `GameEngine::SetDecalStructure`. -/
def SetDecalStructure (e : GameEngine) (s : DecalStructure) : GameEngine :=
  { e with nDecalStructure := s }

/-! ## Decal draw calls -/

/-- The per-vertex expression of the draw calls,
`{ (p.x * vInvScreenSize.x) * 2.0f - 1.0f, ((p.y * vInvScreenSize.y) * 2.0f - 1.0f) * -1.0f }`. -/
def toClip (e : GameEngine) (p : vf2d) : vf2d :=
  ⟨(p.x * e.vInvScreenSize.x) * 2 - 1, ((p.y * e.vInvScreenSize.y) * 2 - 1) * -1⟩

/-- Statement `vLayers[nTargetLayer].vecDecalInstance.push_back(di)`. -/
def pushDecalInstance (e : GameEngine) (di : DecalInstance) : GameEngine :=
  { e with
    vLayers :=
      modifyAt (fun l => { l with vecDecalInstance := l.vecDecalInstance ++ [di] })
        e.nTargetLayer e.vLayers }

/-- Method `GameEngine::DrawPartialDecal(pos, decal, source_pos, source_size, scale, tint)`. -/
def DrawPartialDecal (e : GameEngine) (pos : vf2d) (decal : Decal)
    (source_pos source_size scale : vf2d) (tint : Pixel) : GameEngine :=
  let vScreenSpacePos : vf2d :=
    ⟨(pos.x * e.vInvScreenSize.x) * 2 - 1, -((pos.y * e.vInvScreenSize.y) * 2 - 1)⟩
  let vScreenSpaceDim : vf2d :=
    ⟨((pos.x + source_size.x * scale.x) * e.vInvScreenSize.x) * 2 - 1,
     -(((pos.y + source_size.y * scale.y) * e.vInvScreenSize.y) * 2 - 1)⟩
  let vWindow : vf2d := ⟨e.vViewSize.x, e.vViewSize.y⟩
  let vQuantisedPos := (((vScreenSpacePos.mul vWindow).add ⟨1 / 2, 1 / 2⟩).floor).div vWindow
  let vQuantisedDim := (((vScreenSpaceDim.mul vWindow).add ⟨1 / 2, -(1 / 2)⟩).ceil).div vWindow
  let uvtl := (source_pos.add ⟨1 / 10000, 1 / 10000⟩).mul decal.vUVScale
  let uvbr := ((source_pos.add source_size).sub ⟨1 / 10000, 1 / 10000⟩).mul decal.vUVScale
  let di : DecalInstance :=
    { points := 4
      decal := some decal
      tint := [tint, tint, tint, tint]
      pos := [⟨vQuantisedPos.x, vQuantisedPos.y⟩, ⟨vQuantisedPos.x, vQuantisedDim.y⟩,
              ⟨vQuantisedDim.x, vQuantisedDim.y⟩, ⟨vQuantisedDim.x, vQuantisedPos.y⟩]
      uv := [⟨uvtl.x, uvtl.y⟩, ⟨uvtl.x, uvbr.y⟩, ⟨uvbr.x, uvbr.y⟩, ⟨uvbr.x, uvtl.y⟩]
      w := [1, 1, 1, 1]
      mode := e.nDecalMode
      decalStructure := e.nDecalStructure }
  pushDecalInstance e di

/-- Method `GameEngine::DrawPartialDecal(pos, size, decal, source_pos, source_size, tint)`. -/
def DrawPartialDecalSized (e : GameEngine) (pos size : vf2d) (decal : Decal)
    (source_pos source_size : vf2d) (tint : Pixel) : GameEngine :=
  let vScreenSpacePos : vf2d :=
    ⟨(pos.x * e.vInvScreenSize.x) * 2 - 1, ((pos.y * e.vInvScreenSize.y) * 2 - 1) * -1⟩
  let vScreenSpaceDim : vf2d :=
    ⟨vScreenSpacePos.x + (2 * size.x * e.vInvScreenSize.x),
     vScreenSpacePos.y - (2 * size.y * e.vInvScreenSize.y)⟩
  let uvtl := source_pos.mul decal.vUVScale
  let uvbr := uvtl.add (source_size.mul decal.vUVScale)
  let di : DecalInstance :=
    { points := 4
      decal := some decal
      tint := [tint, tint, tint, tint]
      pos := [⟨vScreenSpacePos.x, vScreenSpacePos.y⟩, ⟨vScreenSpacePos.x, vScreenSpaceDim.y⟩,
              ⟨vScreenSpaceDim.x, vScreenSpaceDim.y⟩, ⟨vScreenSpaceDim.x, vScreenSpacePos.y⟩]
      uv := [⟨uvtl.x, uvtl.y⟩, ⟨uvtl.x, uvbr.y⟩, ⟨uvbr.x, uvbr.y⟩, ⟨uvbr.x, uvtl.y⟩]
      w := [1, 1, 1, 1]
      mode := e.nDecalMode
      decalStructure := e.nDecalStructure }
  pushDecalInstance e di

/-- Method `GameEngine::DrawDecal(pos, decal, scale, tint)`. -/
def DrawDecal (e : GameEngine) (pos : vf2d) (decal : Decal) (scale : vf2d) (tint : Pixel) :
    GameEngine :=
  let vScreenSpacePos : vf2d :=
    ⟨(pos.x * e.vInvScreenSize.x) * 2 - 1, ((pos.y * e.vInvScreenSize.y) * 2 - 1) * -1⟩
  let vScreenSpaceDim : vf2d :=
    ⟨vScreenSpacePos.x + (2 * ((decal.spriteWidth : ℚ) * e.vInvScreenSize.x)) * scale.x,
     vScreenSpacePos.y - (2 * ((decal.spriteHeight : ℚ) * e.vInvScreenSize.y)) * scale.y⟩
  let di : DecalInstance :=
    { decal := some decal
      points := 4
      tint := [tint, tint, tint, tint]
      pos := [⟨vScreenSpacePos.x, vScreenSpacePos.y⟩, ⟨vScreenSpacePos.x, vScreenSpaceDim.y⟩,
              ⟨vScreenSpaceDim.x, vScreenSpaceDim.y⟩, ⟨vScreenSpaceDim.x, vScreenSpacePos.y⟩]
      uv := [⟨0, 0⟩, ⟨0, 1⟩, ⟨1, 1⟩, ⟨1, 0⟩]
      w := [1, 1, 1, 1]
      mode := e.nDecalMode
      decalStructure := e.nDecalStructure }
  pushDecalInstance e di

/-- Method `GameEngine::DrawExplicitDecal(decal, pos, uv, col, elements)`; the three
pointers are the arrays they point to. -/
def DrawExplicitDecal (e : GameEngine) (decal : Option Decal) (pos uv : List vf2d)
    (col : List Pixel) (elements : Nat) : GameEngine :=
  let di : DecalInstance :=
    { decal := decal
      points := elements
      pos := (List.range elements).map (fun i => toClip e (pos.getD i vf2d.zero))
      uv := (List.range elements).map (fun i => uv.getD i vf2d.zero)
      tint := (List.range elements).map (fun i => col.getD i nDefaultPixel)
      w := (List.range elements).map (fun _ => 1)
      mode := e.nDecalMode
      decalStructure := e.nDecalStructure }
  pushDecalInstance e di

/-- Method `GameEngine::DrawPolygonDecal(decal, pos, uv, tint)` with a single tint. -/
def DrawPolygonDecal (e : GameEngine) (decal : Option Decal) (pos uv : List vf2d)
    (tint : Pixel) : GameEngine :=
  let points := pos.length
  let di : DecalInstance :=
    { decal := decal
      points := points
      pos := (List.range points).map (fun i => toClip e (pos.getD i vf2d.zero))
      uv := (List.range points).map (fun i => uv.getD i vf2d.zero)
      tint := (List.range points).map (fun _ => tint)
      w := (List.range points).map (fun _ => 1)
      mode := e.nDecalMode
      decalStructure := e.nDecalStructure }
  pushDecalInstance e di

/-- Method `GameEngine::DrawPolygonDecal(decal, pos, uv, tint)` with one tint per vertex. -/
def DrawPolygonDecalTints (e : GameEngine) (decal : Option Decal) (pos uv : List vf2d)
    (tint : List Pixel) : GameEngine :=
  let points := pos.length
  let di : DecalInstance :=
    { decal := decal
      points := points
      pos := (List.range points).map (fun i => toClip e (pos.getD i vf2d.zero))
      uv := (List.range points).map (fun i => uv.getD i vf2d.zero)
      tint := (List.range points).map (fun i => tint.getD i nDefaultPixel)
      w := (List.range points).map (fun _ => 1)
      mode := e.nDecalMode
      decalStructure := e.nDecalStructure }
  pushDecalInstance e di

/-- Method `GameEngine::DrawPolygonDecal(decal, pos, depth, uv, tint)`. -/
def DrawPolygonDecalDepth (e : GameEngine) (decal : Option Decal) (pos : List vf2d)
    (_depth : List ℚ) (uv : List vf2d) (tint : Pixel) : GameEngine :=
  let points := pos.length
  let di : DecalInstance :=
    { decal := decal
      points := points
      pos := (List.range points).map (fun i => toClip e (pos.getD i vf2d.zero))
      uv := (List.range points).map (fun i => uv.getD i vf2d.zero)
      tint := (List.range points).map (fun _ => tint)
      w := (List.range points).map (fun _ => 1)
      mode := e.nDecalMode
      decalStructure := e.nDecalStructure }
  pushDecalInstance e di

/-- Method `GameEngine::DrawLineDecal`. -/
def DrawLineDecal (e : GameEngine) (pos1 pos2 : vf2d) (p : Pixel) : GameEngine :=
  let m := e.nDecalMode
  let e1 := { e with nDecalMode := DecalMode.WIREFRAME }
  let e2 := DrawPolygonDecal e1 none [pos1, pos2] [⟨0, 0⟩, ⟨0, 0⟩] p
  { e2 with nDecalMode := m }

/-- Method `GameEngine::DrawRectDecal`. -/
def DrawRectDecal (e : GameEngine) (pos size : vf2d) (col : Pixel) : GameEngine :=
  let m := e.nDecalMode
  let e1 := SetDecalMode e DecalMode.WIREFRAME
  let vNewSize := size
  let points : List vf2d :=
    [pos, ⟨pos.x, pos.y + vNewSize.y⟩, pos.add vNewSize, ⟨pos.x + vNewSize.x, pos.y⟩]
  let uvs : List vf2d := [⟨0, 0⟩, ⟨0, 0⟩, ⟨0, 0⟩, ⟨0, 0⟩]
  let cols : List Pixel := [col, col, col, col]
  let e2 := DrawExplicitDecal e1 none points uvs cols 4
  SetDecalMode e2 m

/-- Method `GameEngine::FillRectDecal`. -/
def FillRectDecal (e : GameEngine) (pos size : vf2d) (col : Pixel) : GameEngine :=
  let vNewSize := size
  let points : List vf2d :=
    [pos, ⟨pos.x, pos.y + vNewSize.y⟩, pos.add vNewSize, ⟨pos.x + vNewSize.x, pos.y⟩]
  let uvs : List vf2d := [⟨0, 0⟩, ⟨0, 0⟩, ⟨0, 0⟩, ⟨0, 0⟩]
  let cols : List Pixel := [col, col, col, col]
  DrawExplicitDecal e none points uvs cols 4

/-- Method `GameEngine::GradientFillRectDecal`. -/
def GradientFillRectDecal (e : GameEngine) (pos size : vf2d)
    (colTL colBL colBR colTR : Pixel) : GameEngine :=
  let points : List vf2d :=
    [pos, ⟨pos.x, pos.y + size.y⟩, pos.add size, ⟨pos.x + size.x, pos.y⟩]
  let uvs : List vf2d := [⟨0, 0⟩, ⟨0, 0⟩, ⟨0, 0⟩, ⟨0, 0⟩]
  let cols : List Pixel := [colTL, colBL, colBR, colTR]
  DrawExplicitDecal e none points uvs cols 4

/-- The loop body shared by the rotated draw calls: rotate by `(c, s)`, translate by
`pos`, scale by `vInvScreenSize * 2`, shift by `(1, 1)` and negate `y`. -/
def rotateToClip (e : GameEngine) (pos : vf2d) (c s : ℚ) (p : vf2d) : vf2d :=
  let p1 := pos.add ⟨p.x * c - p.y * s, p.x * s + p.y * c⟩
  let p2 := ((p1.mul e.vInvScreenSize).smul 2).sub ⟨1, 1⟩
  ⟨p2.x, p2.y * -1⟩

/-- Method `GameEngine::DrawRotatedDecal`. -/
def DrawRotatedDecal (fl : FloatLib) (e : GameEngine) (pos : vf2d) (decal : Decal)
    (fAngle : ℚ) (center scale : vf2d) (tint : Pixel) : GameEngine :=
  let pos0 : List vf2d :=
    [((⟨0, 0⟩ : vf2d).sub center).mul scale,
     ((⟨0, (decal.spriteHeight : ℚ)⟩ : vf2d).sub center).mul scale,
     ((⟨(decal.spriteWidth : ℚ), (decal.spriteHeight : ℚ)⟩ : vf2d).sub center).mul scale,
     ((⟨(decal.spriteWidth : ℚ), 0⟩ : vf2d).sub center).mul scale]
  let c := fl.cos fAngle
  let s := fl.sin fAngle
  let di : DecalInstance :=
    { decal := some decal
      pos := pos0.map (rotateToClip e pos c s)
      uv := [⟨0, 0⟩, ⟨0, 1⟩, ⟨1, 1⟩, ⟨1, 0⟩]
      w := [1, 1, 1, 1]
      tint := [tint, tint, tint, tint]
      points := 4
      mode := e.nDecalMode
      decalStructure := e.nDecalStructure }
  pushDecalInstance e di

/-- Method `GameEngine::DrawPartialRotatedDecal`. -/
def DrawPartialRotatedDecal (fl : FloatLib) (e : GameEngine) (pos : vf2d) (decal : Decal)
    (fAngle : ℚ) (center source_pos source_size scale : vf2d) (tint : Pixel) : GameEngine :=
  let pos0 : List vf2d :=
    [((⟨0, 0⟩ : vf2d).sub center).mul scale,
     ((⟨0, source_size.y⟩ : vf2d).sub center).mul scale,
     ((⟨source_size.x, source_size.y⟩ : vf2d).sub center).mul scale,
     ((⟨source_size.x, 0⟩ : vf2d).sub center).mul scale]
  let c := fl.cos fAngle
  let s := fl.sin fAngle
  let uvtl := source_pos.mul decal.vUVScale
  let uvbr := uvtl.add (source_size.mul decal.vUVScale)
  let di : DecalInstance :=
    { decal := some decal
      points := 4
      tint := [tint, tint, tint, tint]
      w := [1, 1, 1, 1]
      pos := pos0.map (rotateToClip e pos c s)
      uv := [⟨uvtl.x, uvtl.y⟩, ⟨uvtl.x, uvbr.y⟩, ⟨uvbr.x, uvbr.y⟩, ⟨uvbr.x, uvtl.y⟩]
      mode := e.nDecalMode
      decalStructure := e.nDecalStructure }
  pushDecalInstance e di

/-- Local `rd` of the warped draw calls as first computed, before `if (rd != 0)`:
`(pos[2].x - pos[0].x) * (pos[3].y - pos[1].y) - (pos[3].x - pos[1].x) * (pos[2].y - pos[0].y)`. -/
def warpRd (pos : List vf2d) : ℚ :=
  let p := fun (i : Nat) => pos.getD i vf2d.zero
  (((p 2).x - (p 0).x) * ((p 3).y - (p 1).y) - ((p 3).x - (p 1).x) * ((p 2).y - (p 0).y))

/-- Local `center` of the warped draw calls, as it stands when the distances `d[i]` are
taken: default-constructed `(0, 0)`, overwritten only when `rn` and `sn` lie in `[0, 1]`. -/
def warpCenter (pos : List vf2d) : vf2d :=
  let p := fun (i : Nat) => pos.getD i vf2d.zero
  let rd := 1 / warpRd pos
  let rn := (((p 3).x - (p 1).x) * ((p 0).y - (p 1).y) - ((p 3).y - (p 1).y) * ((p 0).x - (p 1).x)) * rd
  let sn := (((p 2).x - (p 0).x) * ((p 0).y - (p 1).y) - ((p 2).y - (p 0).y) * ((p 0).x - (p 1).x)) * rd
  if ¬ (rn < 0 ∨ rn > 1 ∨ sn < 0 ∨ sn > 1) then
    (p 0).add (vf2d.lsmul rn ((p 2).sub (p 0)))
  else vf2d.zero

/-- Local array `d` of the warped draw calls: `d[i] = (pos[i] - center).mag()`. -/
def warpD (fl : FloatLib) (pos : List vf2d) (i : Nat) : ℚ :=
  ((pos.getD i vf2d.zero).sub (warpCenter pos)).mag fl.sqrt

/-- Local `q` of the warped draw calls:
`d[i] == 0.0f ? 1.0f : (d[i] + d[(i + 2) & 3]) / d[(i + 2) & 3]`. -/
def warpQ (fl : FloatLib) (pos : List vf2d) (i : Nat) : ℚ :=
  if warpD fl pos i = 0 then 1
  else (warpD fl pos i + warpD fl pos ((i + 2) &&& 3)) / warpD fl pos ((i + 2) &&& 3)

/-- The last loop of the warped draw calls and the two assignments after it, applied to
the instance `di` built so far. -/
def warpFinish (fl : FloatLib) (e : GameEngine) (pos : List vf2d) (di : DecalInstance) :
    DecalInstance :=
  { di with
    uv := (List.range 4).map (fun i => (di.uv.getD i vf2d.zero).smul (warpQ fl pos i))
    w := (List.range 4).map (fun i => di.w.getD i 0 * warpQ fl pos i)
    pos := (List.range 4).map (fun i => toClip e (pos.getD i vf2d.zero))
    mode := e.nDecalMode
    decalStructure := e.nDecalStructure }

/-- Method `GameEngine::DrawPartialWarpedDecal(decal, pos, source_pos, source_size, tint)`;
`pos` points to four corners. -/
def DrawPartialWarpedDecal (fl : FloatLib) (e : GameEngine) (decal : Decal) (pos : List vf2d)
    (source_pos source_size : vf2d) (tint : Pixel) : GameEngine :=
  let di : DecalInstance :=
    { points := 4
      decal := some decal
      tint := [tint, tint, tint, tint]
      w := [1, 1, 1, 1]
      pos := [vf2d.zero, vf2d.zero, vf2d.zero, vf2d.zero]
      uv := [⟨0, 0⟩, ⟨0, 1⟩, ⟨1, 1⟩, ⟨1, 0⟩] }
  let rd := warpRd pos
  if rd ≠ 0 then
    let uvtl := source_pos.mul decal.vUVScale
    let uvbr := uvtl.add (source_size.mul decal.vUVScale)
    let di1 : DecalInstance :=
      { di with uv := [⟨uvtl.x, uvtl.y⟩, ⟨uvtl.x, uvbr.y⟩, ⟨uvbr.x, uvbr.y⟩, ⟨uvbr.x, uvtl.y⟩] }
    pushDecalInstance e (warpFinish fl e pos di1)
  else e

/-- Method `GameEngine::DrawWarpedDecal(decal, pos, tint)`; `pos` points to four corners. -/
def DrawWarpedDecal (fl : FloatLib) (e : GameEngine) (decal : Option Decal) (pos : List vf2d)
    (tint : Pixel) : GameEngine :=
  let di : DecalInstance :=
    { points := 4
      decal := decal
      tint := [tint, tint, tint, tint]
      w := [1, 1, 1, 1]
      pos := [vf2d.zero, vf2d.zero, vf2d.zero, vf2d.zero]
      uv := [⟨0, 0⟩, ⟨0, 1⟩, ⟨1, 1⟩, ⟨1, 0⟩] }
  let rd := warpRd pos
  if rd ≠ 0 then
    pushDecalInstance e (warpFinish fl e pos di)
  else e

end GameEngine

/-- A decal draw call of the engine's public interface, with its arguments. -/
inductive DrawCall where
  | DrawPartialDecal (pos : vf2d) (decal : Decal) (source_pos source_size scale : vf2d)
      (tint : Pixel)
  | DrawPartialDecalSized (pos size : vf2d) (decal : Decal) (source_pos source_size : vf2d)
      (tint : Pixel)
  | DrawDecal (pos : vf2d) (decal : Decal) (scale : vf2d) (tint : Pixel)
  | DrawExplicitDecal (decal : Option Decal) (pos uv : List vf2d) (col : List Pixel)
      (elements : Nat)
  | DrawPolygonDecal (decal : Option Decal) (pos uv : List vf2d) (tint : Pixel)
  | DrawPolygonDecalTints (decal : Option Decal) (pos uv : List vf2d) (tint : List Pixel)
  | DrawPolygonDecalDepth (decal : Option Decal) (pos : List vf2d) (depth : List ℚ)
      (uv : List vf2d) (tint : Pixel)
  | DrawLineDecal (pos1 pos2 : vf2d) (p : Pixel)
  | DrawRectDecal (pos size : vf2d) (col : Pixel)
  | FillRectDecal (pos size : vf2d) (col : Pixel)
  | GradientFillRectDecal (pos size : vf2d) (colTL colBL colBR colTR : Pixel)
  | DrawRotatedDecal (pos : vf2d) (decal : Decal) (fAngle : ℚ) (center scale : vf2d)
      (tint : Pixel)
  | DrawPartialRotatedDecal (pos : vf2d) (decal : Decal) (fAngle : ℚ)
      (center source_pos source_size scale : vf2d) (tint : Pixel)
  | DrawPartialWarpedDecal (decal : Decal) (pos : List vf2d) (source_pos source_size : vf2d)
      (tint : Pixel)
  | DrawWarpedDecal (decal : Option Decal) (pos : List vf2d) (tint : Pixel)

namespace GameEngine

/-- Issue one decal draw call on the engine. -/
def draw (fl : FloatLib) (e : GameEngine) : DrawCall → GameEngine
  | DrawCall.DrawPartialDecal pos decal sp ss scale tint =>
      e.DrawPartialDecal pos decal sp ss scale tint
  | DrawCall.DrawPartialDecalSized pos size decal sp ss tint =>
      e.DrawPartialDecalSized pos size decal sp ss tint
  | DrawCall.DrawDecal pos decal scale tint => e.DrawDecal pos decal scale tint
  | DrawCall.DrawExplicitDecal decal pos uv col elements =>
      e.DrawExplicitDecal decal pos uv col elements
  | DrawCall.DrawPolygonDecal decal pos uv tint => e.DrawPolygonDecal decal pos uv tint
  | DrawCall.DrawPolygonDecalTints decal pos uv tint => e.DrawPolygonDecalTints decal pos uv tint
  | DrawCall.DrawPolygonDecalDepth decal pos depth uv tint =>
      e.DrawPolygonDecalDepth decal pos depth uv tint
  | DrawCall.DrawLineDecal pos1 pos2 p => e.DrawLineDecal pos1 pos2 p
  | DrawCall.DrawRectDecal pos size col => e.DrawRectDecal pos size col
  | DrawCall.FillRectDecal pos size col => e.FillRectDecal pos size col
  | DrawCall.GradientFillRectDecal pos size c1 c2 c3 c4 =>
      e.GradientFillRectDecal pos size c1 c2 c3 c4
  | DrawCall.DrawRotatedDecal pos decal fAngle center scale tint =>
      DrawRotatedDecal fl e pos decal fAngle center scale tint
  | DrawCall.DrawPartialRotatedDecal pos decal fAngle center sp ss scale tint =>
      DrawPartialRotatedDecal fl e pos decal fAngle center sp ss scale tint
  | DrawCall.DrawPartialWarpedDecal decal pos sp ss tint =>
      DrawPartialWarpedDecal fl e decal pos sp ss tint
  | DrawCall.DrawWarpedDecal decal pos tint => DrawWarpedDecal fl e decal pos tint

/-- Issue a sequence of decal draw calls, first to last. -/
def drawAll (fl : FloatLib) (e : GameEngine) (cs : List DrawCall) : GameEngine :=
  cs.foldl (draw fl) e

/-- The pending batch `vLayers[layer].vecDecalInstance` (empty for a layer that does
not exist). -/
def batch (e : GameEngine) (layer : Nat) : List DecalInstance :=
  match e.vLayers[layer]? with
  | some l => l.vecDecalInstance
  | none => []

end GameEngine

/-! ## Per-frame compositing (`alo_CoreUpdate`) -/

/-- Method `Decal::Update` on the decal of a layer's render target (its `sprite` pointer
is the render target's sprite, never null): the target afterwards and the backend calls. -/
def Renderable.UpdateDecal (r : Renderable) : Renderable × List RenderCall :=
  ({ r with
     pDecal :=
       { r.pDecal with
         vUVScale := ⟨1 / (r.pSprite.width : ℚ), 1 / (r.pSprite.height : ℚ)⟩ } },
   [RenderCall.ApplyTexture r.pDecal.id, RenderCall.UpdateTexture r.pDecal.id r.pSprite])

/-- Body of the layer loop of `alo_CoreUpdate` for one layer: the layer afterwards and
the backend calls issued for it. A custom render function is recorded as one
`RenderCall.funcHook` event; it is taken not to touch the layer stack. -/
def compositeLayer (bSuspendTextureTransfer : Bool) (layer : LayerDesc) :
    LayerDesc × List RenderCall :=
  if layer.bShow then
    match layer.funcHook with
    | none =>
      let t1 := [RenderCall.ApplyTexture layer.pDrawTarget.pDecal.id]
      let up : LayerDesc × List RenderCall :=
        if !bSuspendTextureTransfer && layer.bUpdate then
          ({ layer with pDrawTarget := layer.pDrawTarget.UpdateDecal.1, bUpdate := false },
           layer.pDrawTarget.UpdateDecal.2)
        else (layer, [])
      let t3 := [RenderCall.DrawLayerQuad up.1.vOffset up.1.vScale up.1.tint]
      let t4 := up.1.vecDecalInstance.map RenderCall.DrawDecal
      ({ up.1 with vecDecalInstance := [] }, t1 ++ up.2 ++ t3 ++ t4)
    | some hook => (layer, [RenderCall.funcHook hook])
  else (layer, [])

/-- One iteration of `for (auto layer = vLayers.rbegin(); layer != vLayers.rend(); ++layer)`:
`acc` holds the layers already visited (in storage order) and the calls issued so far. -/
def compositeStep (bSuspendTextureTransfer : Bool) (acc : List LayerDesc × List RenderCall)
    (layer : LayerDesc) : List LayerDesc × List RenderCall :=
  ((compositeLayer bSuspendTextureTransfer layer).1 :: acc.1,
   acc.2 ++ (compositeLayer bSuspendTextureTransfer layer).2)

/-- The whole layer loop of `alo_CoreUpdate`: layers are visited from the last created
to layer 0. Returns the layer stack afterwards and the backend calls in order. -/
def compositeLayers (bSuspendTextureTransfer : Bool) (vLayers : List LayerDesc) :
    List LayerDesc × List RenderCall :=
  vLayers.reverse.foldl (compositeStep bSuspendTextureTransfer) ([], [])

namespace GameEngine

/-- Part of `alo_CoreUpdate` from `// Display Frame` up to the layer loop: viewport and
clear, layer 0 forced dirty and visible, decal mode reset, `PrepareDrawing`. -/
def alo_CoreUpdate_prepare (e : GameEngine) : GameEngine :=
  let e1 : GameEngine :=
    { e with
      renderer := e.renderer ++
        [RenderCall.UpdateViewport e.vViewPos e.vViewSize, RenderCall.ClearBuffer BLACK true] }
  let e2 : GameEngine :=
    { e1 with vLayers := modifyAt (fun l => { l with bUpdate := true }) 0 e1.vLayers }
  let e3 : GameEngine :=
    { e2 with vLayers := modifyAt (fun l => { l with bShow := true }) 0 e2.vLayers }
  let e4 := SetDecalMode e3 DecalMode.NORMAL
  { e4 with renderer := e4.renderer ++ [RenderCall.PrepareDrawing] }

/-- Part of `alo_CoreUpdate` from the layer loop to `renderer->DisplayFrame()`. -/
def alo_CoreUpdate_layers (e : GameEngine) : GameEngine :=
  let r := compositeLayers e.bSuspendTextureTransfer e.vLayers
  { e with vLayers := r.1, renderer := e.renderer ++ r.2 ++ [RenderCall.DisplayFrame] }

/-- The display half of `alo_CoreUpdate` (one compositing pass). -/
def alo_CoreUpdate_display (e : GameEngine) : GameEngine :=
  alo_CoreUpdate_layers (alo_CoreUpdate_prepare e)

end GameEngine

/-! ## Window size and engine start-up -/

namespace GameEngine

/-- Method `GameEngine::alo_UpdateViewport`. Integer division is C++ `/` on `int32_t`
(`Int.tdiv`), `(int32_t)` of a `float` truncates. -/
def alo_UpdateViewport (e : GameEngine) : GameEngine :=
  let ww : Int := e.vScreenSize.x * e.vPixelSize.x
  let wh : Int := e.vScreenSize.y * e.vPixelSize.y
  let wasp : ℚ := (ww : ℚ) / (wh : ℚ)
  let e1 : GameEngine :=
    if e.bPixelCohesion then
      { e with
        vScreenPixelSize :=
          ⟨Int.tdiv e.vWindowSize.x e.vScreenSize.x, Int.tdiv e.vWindowSize.y e.vScreenSize.y⟩
        vViewSize :=
          ⟨Int.tdiv e.vWindowSize.x e.vScreenSize.x * e.vScreenSize.x,
           Int.tdiv e.vWindowSize.y e.vScreenSize.y * e.vScreenSize.y⟩ }
    else
      let vx : Int := e.vWindowSize.x
      let vy : Int := truncToInt ((vx : ℚ) / wasp)
      if vy > e.vWindowSize.y then
        { e with
          vViewSize := ⟨truncToInt ((e.vWindowSize.y : ℚ) * wasp), e.vWindowSize.y⟩ }
      else
        { e with vViewSize := ⟨vx, vy⟩ }
  { e1 with
    vViewPos :=
      ⟨Int.tdiv (e1.vWindowSize.x - e1.vViewSize.x) 2,
       Int.tdiv (e1.vWindowSize.y - e1.vViewSize.y) 2⟩ }

/-- Method `GameEngine::alo_UpdateWindowSize`. -/
def alo_UpdateWindowSize (e : GameEngine) (x y : Int) : GameEngine :=
  alo_UpdateViewport { e with vWindowSize := ⟨x, y⟩ }

/-- Method `GameEngine::alo_ConstructFontSheet`, as far as the backend sees it: the font
render target is created (128x48), its pixels are set from the packed font data, and the
texture is updated again. `fontSprite` is the sprite holding the decoded font pixels;
`texId` is the id returned by the backend's `CreateTexture`. -/
def alo_ConstructFontSheet (e : GameEngine) (texId : Int) (fontSprite : Sprite) : GameEngine :=
  { e with
    renderer := e.renderer ++
      [RenderCall.CreateTexture 128 48 false true,
       RenderCall.ApplyTexture texId, RenderCall.UpdateTexture texId (Sprite.create 128 48),
       RenderCall.ApplyTexture texId, RenderCall.UpdateTexture texId fontSprite] }

/-- Method `GameEngine::alo_PrepareEngine`. `CreateGraphics` is the code returned by
`platform->CreateGraphics(...)`; `fontTexId` and `layerTexId` are the texture ids the
backend returns for the font sheet and for layer 0. -/
def alo_PrepareEngine (e : GameEngine) (CreateGraphics : rcode) (fontTexId layerTexId : Int)
    (fontSprite : Sprite) : GameEngine :=
  if CreateGraphics = rcode.FAIL then e
  else
    let e1 := e.alo_ConstructFontSheet fontTexId fontSprite
    let e2 := (e1.CreateLayer layerTexId).2
    let e3 : GameEngine :=
      { e2 with vLayers := modifyAt (fun l => { l with bUpdate := true }) 0 e2.vLayers }
    let e4 : GameEngine :=
      { e3 with vLayers := modifyAt (fun l => { l with bShow := true }) 0 e3.vLayers }
    e4.SetDrawTargetSprite none

/-- Method `GameEngine::EngineThread` from its start up to the frame loop
`while (bAtomActive)`: `ThreadStartUp` is the code returned by `platform->ThreadStartUp()`
(on `FAIL` the thread returns at once: `none`), then `alo_PrepareEngine`, then the user's
`OnUserCreate`, whose `false` clears `bAtomActive`. No extension is registered. -/
def EngineThread_init (e : GameEngine) (ThreadStartUp CreateGraphics : rcode)
    (fontTexId layerTexId : Int) (fontSprite : Sprite)
    (OnUserCreate : GameEngine → Bool × GameEngine) : Option GameEngine :=
  if ThreadStartUp = rcode.FAIL then none
  else
    let e1 := e.alo_PrepareEngine CreateGraphics fontTexId layerTexId fontSprite
    let r := OnUserCreate e1
    some (if !r.1 then { r.2 with bAtomActive := false } else r.2)

/-- The engine state on which `EngineThread` makes its first call of `alo_CoreUpdate`:
the state after `EngineThread_init` when `bAtomActive` is set there, `none` when the
thread never enters the frame loop. -/
def EngineThread_firstFrameState (e : GameEngine) (ThreadStartUp CreateGraphics : rcode)
    (fontTexId layerTexId : Int) (fontSprite : Sprite)
    (OnUserCreate : GameEngine → Bool × GameEngine) : Option GameEngine :=
  match e.EngineThread_init ThreadStartUp CreateGraphics fontTexId layerTexId fontSprite
      OnUserCreate with
  | some e1 => if e1.bAtomActive then some e1 else none
  | none => none

end GameEngine

/-- The decal instances handed to the backend's `DrawDecal` in a trace, in order. -/
def submitted (tr : List RenderCall) : List DecalInstance :=
  tr.filterMap (fun c => match c with
    | RenderCall.DrawDecal d => some d
    | _ => none)

/-- A call a user's `OnUserUpdate` can make on the engine's layer and decal interface. -/
inductive UserCall where
  | EnableLayer (layer : Nat) (b : Bool)
  | SetDrawTarget (layer : Nat) (bDirty : Bool)
  | SetDrawTargetSprite (target : Option Nat)
  | SetLayerOffset (layer : Nat) (x y : ℚ)
  | SetLayerScale (layer : Nat) (x y : ℚ)
  | SetLayerTint (layer : Nat) (tint : Pixel)
  | SetLayerCustomRenderFunction (layer : Nat) (f : Option Nat)
  | CreateLayer (texId : Int)
  | SetDecalMode (mode : DecalMode)
  | SetDecalStructure (s : DecalStructure)
  | draw (c : DrawCall)

namespace GameEngine

/-- Perform one user call. -/
def call (fl : FloatLib) (e : GameEngine) : UserCall → GameEngine
  | UserCall.EnableLayer layer b => e.EnableLayer layer b
  | UserCall.SetDrawTarget layer bDirty => e.SetDrawTarget layer bDirty
  | UserCall.SetDrawTargetSprite target => e.SetDrawTargetSprite target
  | UserCall.SetLayerOffset layer x y => e.SetLayerOffset layer x y
  | UserCall.SetLayerScale layer x y => e.SetLayerScale layer x y
  | UserCall.SetLayerTint layer tint => e.SetLayerTint layer tint
  | UserCall.SetLayerCustomRenderFunction layer f => e.SetLayerCustomRenderFunction layer f
  | UserCall.CreateLayer texId => (e.CreateLayer texId).2
  | UserCall.SetDecalMode mode => e.SetDecalMode mode
  | UserCall.SetDecalStructure s => e.SetDecalStructure s
  | UserCall.draw c => e.draw fl c

/-- Perform a sequence of user calls, first to last. -/
def callAll (fl : FloatLib) (e : GameEngine) (cs : List UserCall) : GameEngine :=
  cs.foldl (call fl) e

end GameEngine

/-! ## Pixel arithmetic and the demo's `Palette` (`src/Spirograph.cpp`) -/

/-- Colour constant `CYAN(0, 255, 255)`. -/
def CYAN : Pixel := ⟨0, 255, 255, nDefaultAlpha⟩

/-- Colour constant `YELLOW(255, 255, 0)`. -/
def YELLOW : Pixel := ⟨255, 255, 0, nDefaultAlpha⟩

/-- Colour constant `GREEN(0, 255, 0)`. -/
def GREEN : Pixel := ⟨0, 255, 0, nDefaultAlpha⟩

/-- Colour constant `DARK_GREEN(0, 128, 0)`. -/
def DARK_GREEN : Pixel := ⟨0, 128, 0, nDefaultAlpha⟩

/-- Colour constant `BLUE(0, 0, 255)`. -/
def BLUE : Pixel := ⟨0, 0, 255, nDefaultAlpha⟩

/-- Colour constant `DARK_BLUE(0, 0, 128)`. -/
def DARK_BLUE : Pixel := ⟨0, 0, 128, nDefaultAlpha⟩

/-- Colour constant `VERY_DARK_BLUE(0, 0, 64)`. -/
def VERY_DARK_BLUE : Pixel := ⟨0, 0, 64, nDefaultAlpha⟩

/-- Conversion `uint8_t(f)` of a `float`: truncation towards zero, kept to 8 bits. -/
def toUInt8 (q : ℚ) : Nat := (truncToInt q).toNat % 256

namespace Pixel

/-- The channels of a pixel are 8-bit values. -/
def Valid (p : Pixel) : Prop := p.r < 256 ∧ p.g < 256 ∧ p.b < 256 ∧ p.a < 256

instance (p : Pixel) : Decidable p.Valid := by
  unfold Valid
  infer_instance

/-- Operator `Pixel::operator * (const float i)`: each colour channel is scaled, clamped
to `[0, 255]` and converted back to `uint8_t`; alpha is kept. -/
def mulF (p : Pixel) (i : ℚ) : Pixel :=
  let fR : ℚ := min 255 (max 0 ((p.r : ℚ) * i))
  let fG : ℚ := min 255 (max 0 ((p.g : ℚ) * i))
  let fB : ℚ := min 255 (max 0 ((p.b : ℚ) * i))
  ⟨toUInt8 fR, toUInt8 fG, toUInt8 fB, p.a⟩

/-- Operator `Pixel::operator + (const Pixel& p)`: channel sums in `int`, clamped to
`[0, 255]`; alpha is that of the left operand. -/
def add (p q : Pixel) : Pixel :=
  let nR : Int := min 255 (max 0 ((p.r : Int) + (q.r : Int)))
  let nG : Int := min 255 (max 0 ((p.g : Int) + (q.g : Int)))
  let nB : Int := min 255 (max 0 ((p.b : Int) + (q.b : Int)))
  ⟨nR.toNat, nG.toNat, nB.toNat, p.a⟩

end Pixel

/-- Function `PixelLerp(p1, p2, t)`: `(p2 * t) + p1 * (1.0f - t)`. -/
def PixelLerp (p1 p2 : Pixel) (t : ℚ) : Pixel :=
  (p2.mulF t).add (p1.mulF (1 - t))

/-- Function `std::fmod(t, 1.0)`: `t` minus its integer part (truncated towards zero),
so the result has the sign of `t`. -/
def fmod1 (t : ℚ) : ℚ := t - (truncToInt t : ℚ)

/-- Function `std::clamp(d, 0.0, 1.0)`: `(d < lo) ? lo : (hi < d) ? hi : d`. -/
def clamp01 (d : ℚ) : ℚ := if d < 0 then 0 else if 1 < d then 1 else d

/-- Class `alo::Palette`: the control points `vColors`, pairs of location and colour. -/
structure Palette where
  vColors : List (ℚ × Pixel) := []
deriving DecidableEq

/-- Enumeration `Palette::Stock`. -/
inductive PaletteStock where
  | Empty
  | Greyscale
  | ColdHot
  | Spectrum
deriving DecidableEq, Repr

namespace Palette

/-- Constructor `Palette(const Stock stock)`. -/
def ofStock : PaletteStock → Palette
  | PaletteStock.Empty => ⟨[]⟩
  | PaletteStock.Greyscale => ⟨[(0, BLACK), (1, WHITE)]⟩
  | PaletteStock.ColdHot => ⟨[(0, CYAN), (1 / 2, BLACK), (1, YELLOW)]⟩
  | PaletteStock.Spectrum =>
    ⟨[(0 / 6, DARK_BLUE), (1 / 6, BLUE), (2 / 6, CYAN), (3 / 6, WHITE), (4 / 6, GREEN),
      (5 / 6, DARK_GREEN), (6 / 6, VERY_DARK_BLUE)]⟩

/-- The scan `while (i > it->first) ++it;` of `Sample`, started with `it` at the head of
the list given and `prev` the entry before it (`none` when `it == begin`). Returns the
entry the scan stops at together with its predecessor, or `none` when the scan runs past
the last entry (undefined behaviour in the source). -/
def scan (i : ℚ) : Option (ℚ × Pixel) → List (ℚ × Pixel) →
    Option (Option (ℚ × Pixel) × (ℚ × Pixel))
  | _, [] => none
  | prev, e :: rest => if i > e.1 then scan i (some e) rest else some (prev, e)

/-- Method `Palette::Sample(const double t)`; `none` when the scan leaves the vector. -/
def Sample (p : Palette) (t : ℚ) : Option Pixel :=
  match p.vColors with
  | [] => some BLACK
  | [e] => some e.2
  | vColors =>
    let i := fmod1 t
    match scan i none vColors with
    | none => none
    | some (none, it) => some it.2
    | some (some it_p, it) =>
      some (PixelLerp it_p.2 it.2 ((i - it_p.1) / (it.1 - it_p.1)))

/-- The assignment `it->second = col` at the first entry whose location is `i`
(`std::find_if` returns the first match). -/
def replaceFirst (i : ℚ) (col : Pixel) : List (ℚ × Pixel) → List (ℚ × Pixel)
  | [] => []
  | e :: rest => if e.1 = i then (e.1, col) :: rest else e :: replaceFirst i col rest

/-- Method `Palette::SetColour(const double d, const alo::Pixel col)`. The `std::sort` by
location is an insertion sort here; it acts on entries with pairwise different locations
whenever the palette had them, and then every sort gives the same vector. -/
def SetColour (p : Palette) (d : ℚ) (col : Pixel) : Palette :=
  let i := clamp01 d
  if p.vColors.any (fun e => decide (e.1 = i)) then
    ⟨replaceFirst i col p.vColors⟩
  else
    ⟨(p.vColors ++ [(i, col)]).insertionSort (fun p1 p2 => p1.1 ≤ p2.1)⟩

end Palette

/-! ## Specification-side definitions -/

/-- The forward transform as the specification writes it:
`ndc.x = (x / W) * 2 - 1`, `ndc.y = -((y / H) * 2 - 1)`. -/
def specNdc (W H : ℚ) (p : vf2d) : vf2d :=
  ⟨(p.x / W) * 2 - 1, -((p.y / H) * 2 - 1)⟩

/-- The inverse transform as the specification writes it:
`x = (ndc.x + 1) / 2 * W`, `y = (1 - ndc.y) / 2 * H`. -/
def specNdcInverse (W H : ℚ) (n : vf2d) : vf2d :=
  ⟨(n.x + 1) / 2 * W, (1 - n.y) / 2 * H⟩

/-- Whether a draw call is dropped without emitting an instance: a warped call whose
corners give `rd == 0`. -/
def DrawCall.dropped : DrawCall → Bool
  | DrawCall.DrawPartialWarpedDecal _ pos _ _ _ => decide (GameEngine.warpRd pos = 0)
  | DrawCall.DrawWarpedDecal _ pos _ => decide (GameEngine.warpRd pos = 0)
  | _ => false

/-- The instances the layer loop hands to `DrawDecal` for one layer: its batch when the
layer is shown and has no custom render function, nothing otherwise. -/
def layerSubmits (l : LayerDesc) : List DecalInstance :=
  if l.bShow = true ∧ l.funcHook = none then l.vecDecalInstance else []

/-- Whether layer `i` exists and has `bShow` set. -/
def GameEngine.layerShown (e : GameEngine) (i : Nat) : Bool :=
  match e.vLayers[i]? with
  | some l => l.bShow
  | none => false

/-- Whether layer `i` exists and has a custom render function (`funcHook != nullptr`). -/
def GameEngine.layerHooked (e : GameEngine) (i : Nat) : Bool :=
  match e.vLayers[i]? with
  | some l => l.funcHook.isSome
  | none => false

/-- Point `x` lies on the line through `a` and `b`: `x = a + r * (b - a)` for some `r`. -/
def onLine (a b x : vf2d) : Prop :=
  ∃ r : ℚ, x = a.add (vf2d.lsmul r (b.sub a))

/-- Point `x` lies on the segment from `a` to `b`: `x = a + r * (b - a)` with
`0 <= r <= 1`. -/
def onSegment (a b x : vf2d) : Prop :=
  ∃ r : ℚ, 0 ≤ r ∧ r ≤ 1 ∧ x = a.add (vf2d.lsmul r (b.sub a))

/-! ## Concrete inputs used by the worked examples -/

/-- A fixed-precision square root on the rationals (three decimal digits). -/
def approxSqrt (q : ℚ) : ℚ :=
  (Nat.sqrt (q.num.toNat * q.den * 1000000) : ℚ) / ((q.den : ℚ) * 1000)

/-- A `FloatLib` for the examples: `approxSqrt`, and cosine and sine as at angle 0. -/
def exampleFloatLib : FloatLib := ⟨approxSqrt, fun _ => 1, fun _ => 0⟩

/-- An engine constructed for a 1920x1080 screen, with layer 0 created. -/
def hdEngine : GameEngine :=
  ((({} : GameEngine).Construct 1920 1080 1 1 false false false).2.CreateLayer 1).2

/-- An engine constructed for a 100x100 screen, with layer 0 created. -/
def smallEngine : GameEngine :=
  ((({} : GameEngine).Construct 100 100 1 1 false false false).2.CreateLayer 1).2

/-- The 100x100 engine with a second layer (never enabled, so hidden) selected as draw
target. -/
def hiddenTargetEngine : GameEngine :=
  (smallEngine.CreateLayer 2).2.SetDrawTarget 1 true

/-- The engine `hiddenTargetEngine` after `FillRectDecal((10,10),(20,20),RED)`. -/
def hiddenDrawnEngine : GameEngine :=
  hiddenTargetEngine.FillRectDecal ⟨10, 10⟩ ⟨20, 20⟩ RED

/-- The engine `hiddenDrawnEngine` after layer 0 is selected again and
`FillRectDecal((0,0),(5,5),WHITE)` is issued on it. -/
def bothDrawnEngine : GameEngine :=
  (hiddenDrawnEngine.SetDrawTarget 0 true).FillRectDecal ⟨0, 0⟩ ⟨5, 5⟩ WHITE

/-- Three draw calls: a filled rectangle, a line, and a warped decal whose four corners
lie on one line. -/
def exampleCalls : List DrawCall :=
  [DrawCall.FillRectDecal ⟨10, 10⟩ ⟨20, 20⟩ RED,
   DrawCall.DrawLineDecal ⟨0, 0⟩ ⟨50, 50⟩ WHITE,
   DrawCall.DrawWarpedDecal none [⟨0, 0⟩, ⟨1, 1⟩, ⟨2, 2⟩, ⟨3, 3⟩] RED]

/-- A 3x1 sprite with three different pixels, sampled in `PERIODIC` mode. -/
def stripSprite : Sprite :=
  { width := 3, height := 1
    pColData := [⟨10, 0, 0, 255⟩, ⟨20, 0, 0, 255⟩, ⟨30, 0, 0, 255⟩]
    modeSample := SpriteMode.PERIODIC }

/-- A 2x2 sprite sampled in the default `NORMAL` mode. -/
def quadSprite : Sprite :=
  { width := 2, height := 2
    pColData := [⟨1, 0, 0, 255⟩, ⟨2, 0, 0, 255⟩, ⟨3, 0, 0, 255⟩, ⟨4, 0, 0, 255⟩] }


/-- Invariant of a `DecalInstance` as the specification states it: positions, uvs, tints
and per-vertex depths all have `points` elements. -/
def DecalInstance.WellFormed (di : DecalInstance) : Prop :=
  di.pos.length = di.points ∧ di.uv.length = di.points ∧ di.tint.length = di.points ∧
    di.w.length = di.points

/-- The number of vertices a draw call is handed by its caller: the length of the vertex
list for the polygon calls, `elements` for `DrawExplicitDecal`, 2 for a line and 4 for
every quad call. -/
def DrawCall.vertices : DrawCall → Nat
  | DrawCall.DrawExplicitDecal _ _ _ _ elements => elements
  | DrawCall.DrawPolygonDecal _ pos _ _ => pos.length
  | DrawCall.DrawPolygonDecalTints _ pos _ _ => pos.length
  | DrawCall.DrawPolygonDecalDepth _ pos _ _ _ => pos.length
  | DrawCall.DrawLineDecal _ _ _ => 2
  | _ => 4

/-- Whether the vertex count of a draw call is chosen by its caller: `DrawExplicitDecal`
(`elements`) and the three `DrawPolygonDecal` overloads (`pos.size()`). -/
def DrawCall.callerSized : DrawCall → Bool
  | DrawCall.DrawExplicitDecal _ _ _ _ _ => true
  | DrawCall.DrawPolygonDecal _ _ _ _ => true
  | DrawCall.DrawPolygonDecalTints _ _ _ _ => true
  | DrawCall.DrawPolygonDecalDepth _ _ _ _ _ => true
  | _ => false

/-- The engine `bothDrawnEngine` with layer 1 enabled: both layers shown, each with one
queued instance, layer 1 drawn on first. -/
def bothShownEngine : GameEngine :=
  bothDrawnEngine.EnableLayer 1 true

/-- The engine as `Start` hands it to the engine thread for a 100x100 screen with 1x1
pixels: constructed, window size applied (so the view is 100x100), `bAtomActive` set. -/
def startedEngine : GameEngine :=
  { ((({} : GameEngine).Construct 100 100 1 1 false false false).2.alo_UpdateWindowSize
      100 100) with bAtomActive := true }

/-- The engine `startedEngine` with layer 0 created: screen and view both 100x100. -/
def viewEngine : GameEngine :=
  (startedEngine.CreateLayer 1).2

/-- An 128x48 decal like the font sheet, with texture id 7. -/
def fontDecal : Decal :=
  { id := 7, spriteWidth := 128, spriteHeight := 48, vUVScale := ⟨1 / 128, 1 / 48⟩ }

/-- A run of `SetColour` calls, in order, each given as `(d, col)`. -/
def Palette.SetColours (p : Palette) (calls : List (ℚ × Pixel)) : Palette :=
  calls.foldl (fun q c => q.SetColour c.1 c.2) p

/-- The palette built by `Palette p; p.SetColour(0.2, RED); p.SetColour(0.5, BLUE);`. -/
def lowPalette : Palette :=
  ((Palette.ofStock PaletteStock.Empty).SetColour (1 / 5) RED).SetColour (1 / 2) BLUE

/-! ## Input latching (`ScanHardware` in `alo_CoreUpdate`) -/

/-- Structure `alo::HWButton`. -/
structure HWButton where
  bPressed : Bool := false
  bReleased : Bool := false
  bHeld : Bool := false
deriving DecidableEq, Repr

/-- Colour constant `DARK_GREY(128, 128, 128)`. -/
def DARK_GREY : Pixel := ⟨128, 128, 128, nDefaultAlpha⟩

/-- Conversion `operator v2d_generic<int32_t>()` of a `vf2d`. -/
def vf2d.toVi2d (v : vf2d) : vi2d := ⟨truncToInt v.x, truncToInt v.y⟩

/-- Conversion `operator v2d_generic<float>()` of a `vi2d`. -/
def vi2d.toVf2d (v : vi2d) : vf2d := ⟨(v.x : ℚ), (v.y : ℚ)⟩

namespace QuickGUI

/-- Enumeration `BaseControl::State`. -/
inductive State where
  | Disabled
  | Normal
  | Hover
  | Click
deriving DecidableEq, Repr

/-- Class `QuickGUI::Manager`: the theme colours read by the draw methods. -/
structure Manager where
  colNormal : Pixel := DARK_BLUE
  colHover : Pixel := BLUE
  colClick : Pixel := CYAN
  colDisable : Pixel := DARK_GREY
  colBorder : Pixel := WHITE
  colText : Pixel := WHITE
deriving DecidableEq, Repr

/-- A call a control's draw method makes on the engine, with the arguments as the engine
method receives them. -/
inductive GuiCall where
  | FillRect (pos size : vi2d) (p : Pixel)
  | DrawRect (pos size : vi2d) (p : Pixel)
  | DrawStringProp (pos : vi2d) (sText : String) (col : Pixel)
  | FillRectDecal (pos size : vf2d) (col : Pixel)
  | SetDecalMode (mode : DecalMode)
  | DrawStringPropDecal (pos : vf2d) (sText : String) (col : Pixel)
deriving DecidableEq

/-- Class `QuickGUI::Button` with the members of `BaseControl` its draw methods read. -/
structure Button where
  bVisible : Bool := true
  m_state : State := State.Normal
  m_fTransition : ℚ := 0
  vPos : vf2d
  vSize : vf2d
  sText : String
deriving DecidableEq

/-- Class `QuickGUI::CheckBox`. -/
structure CheckBox extends Button where
  bChecked : Bool := false
deriving DecidableEq

/-- Method `Button::Draw`: the engine calls it makes, in order. `GetTextSizeProp` is the
engine method of that name. -/
def Button.Draw (b : Button) (m_manager : Manager) (GetTextSizeProp : String → vi2d) :
    List GuiCall :=
  if !b.bVisible then []
  else
    let fill : List GuiCall :=
      match b.m_state with
      | State.Disabled => [GuiCall.FillRect b.vPos.toVi2d b.vSize.toVi2d m_manager.colDisable]
      | State.Normal | State.Hover =>
        [GuiCall.FillRect b.vPos.toVi2d b.vSize.toVi2d
          (PixelLerp m_manager.colNormal m_manager.colHover b.m_fTransition)]
      | State.Click => [GuiCall.FillRect b.vPos.toVi2d b.vSize.toVi2d m_manager.colClick]
    let vText : vf2d := (GetTextSizeProp b.sText).toVf2d
    fill ++
      [GuiCall.DrawRect b.vPos.toVi2d (b.vSize.sub ⟨1, 1⟩).toVi2d m_manager.colBorder,
       GuiCall.DrawStringProp (b.vPos.add ((b.vSize.sub vText).smul (1 / 2))).toVi2d b.sText
         m_manager.colText]

/-- Method `Button::DrawDecal`: the engine calls it makes, in order. -/
def Button.DrawDecal (b : Button) (m_manager : Manager) (GetTextSizeProp : String → vi2d) :
    List GuiCall :=
  if !b.bVisible then []
  else
    let fill : List GuiCall :=
      match b.m_state with
      | State.Disabled =>
        [GuiCall.FillRectDecal (b.vPos.add ⟨1, 1⟩) (b.vSize.sub ⟨2, 2⟩) m_manager.colDisable]
      | State.Normal | State.Hover =>
        [GuiCall.FillRectDecal (b.vPos.add ⟨1, 1⟩) (b.vSize.sub ⟨2, 2⟩)
          (PixelLerp m_manager.colNormal m_manager.colHover b.m_fTransition)]
      | State.Click =>
        [GuiCall.FillRectDecal (b.vPos.add ⟨1, 1⟩) (b.vSize.sub ⟨2, 2⟩) m_manager.colClick]
    let vText : vf2d := (GetTextSizeProp b.sText).toVf2d
    fill ++
      [GuiCall.SetDecalMode DecalMode.WIREFRAME,
       GuiCall.FillRectDecal (b.vPos.add ⟨1, 1⟩) (b.vSize.sub ⟨2, 2⟩) m_manager.colBorder,
       GuiCall.SetDecalMode DecalMode.NORMAL,
       GuiCall.DrawStringPropDecal (b.vPos.add ((b.vSize.sub vText).smul (1 / 2))) b.sText
         m_manager.colText]

/-- Method `CheckBox::Draw`. -/
def CheckBox.Draw (c : CheckBox) (m_manager : Manager) (GetTextSizeProp : String → vi2d) :
    List GuiCall :=
  if !c.bVisible then []
  else
    c.toButton.Draw m_manager GetTextSizeProp ++
      (if c.bChecked then
        [GuiCall.DrawRect (c.vPos.add ⟨2, 2⟩).toVi2d
          (c.vSize.sub (vi2d.toVf2d ⟨5, 5⟩)).toVi2d m_manager.colBorder]
       else [])

/-- Method `CheckBox::DrawDecal`. -/
def CheckBox.DrawDecal (c : CheckBox) (m_manager : Manager)
    (GetTextSizeProp : String → vi2d) : List GuiCall :=
  if !c.bVisible then []
  else
    let vText : vf2d := (GetTextSizeProp c.sText).toVf2d
    c.toButton.DrawDecal m_manager GetTextSizeProp ++
      [GuiCall.SetDecalMode DecalMode.WIREFRAME,
       GuiCall.FillRectDecal (c.vPos.add ⟨2, 2⟩) (c.vSize.sub ⟨4, 4⟩) m_manager.colBorder,
       GuiCall.SetDecalMode DecalMode.NORMAL,
       GuiCall.DrawStringPropDecal (c.vPos.add ((c.vSize.sub vText).smul (1 / 2))) c.sText
         m_manager.colText]

/-- The demo's check box, `CheckBox(guiManager, "Show Gears", check, { 1810.0f, 80.0f },
{ 90.0f, 16.0f })`, with `bChecked` as given. -/
def showGears (check : Bool) : CheckBox :=
  { vPos := ⟨1810, 80⟩, vSize := ⟨90, 16⟩, sText := "Show Gears", bChecked := check }

end QuickGUI

/-! ## Text entry (`TextEntryEnable`, `UpdateTextEntry`) -/

/-- Enumeration `alo::Key`. -/
inductive Key where
  | NONE
  | A | B | C | D | E | F | G | H | I | J | K | L | M | N | O | P | Q | R | S | T | U | V
  | W | X | Y | Z
  | K0 | K1 | K2 | K3 | K4 | K5 | K6 | K7 | K8 | K9
  | F1 | F2 | F3 | F4 | F5 | F6 | F7 | F8 | F9 | F10 | F11 | F12
  | UP | DOWN | LEFT | RIGHT
  | SPACE | TAB | SHIFT | CTRL | INS | DEL | HOME | END | PGUP | PGDN
  | BACK | ESCAPE | RETURN | ENTER | PAUSE | SCROLL
  | NP0 | NP1 | NP2 | NP3 | NP4 | NP5 | NP6 | NP7 | NP8 | NP9
  | NP_MUL | NP_DIV | NP_ADD | NP_SUB | NP_DECIMAL | PERIOD
  | EQUALS | COMMA | MINUS
  | OEM_1 | OEM_2 | OEM_3 | OEM_4 | OEM_5 | OEM_6 | OEM_7 | OEM_8
  | CAPS_LOCK | ENUM_END
deriving DecidableEq, Repr

/-- Member `vKeyboardMap` as `alo_ConstructFontSheet` fills it (`ALO_KEYBOARD_UK` is
always defined): key, text without shift, text with shift. -/
def vKeyboardMap : List (Key × String × String) :=
  [(Key.A, "a", "A"), (Key.B, "b", "B"), (Key.C, "c", "C"), (Key.D, "d", "D"),
   (Key.E, "e", "E"), (Key.F, "f", "F"), (Key.G, "g", "G"), (Key.H, "h", "H"),
   (Key.I, "i", "I"), (Key.J, "j", "J"), (Key.K, "k", "K"), (Key.L, "l", "L"),
   (Key.M, "m", "M"), (Key.N, "n", "N"), (Key.O, "o", "O"), (Key.P, "p", "P"),
   (Key.Q, "q", "Q"), (Key.R, "r", "R"), (Key.S, "s", "S"), (Key.T, "t", "T"),
   (Key.U, "u", "U"), (Key.V, "v", "V"), (Key.W, "w", "W"), (Key.X, "x", "X"),
   (Key.Y, "y", "Y"), (Key.Z, "z", "Z"),
   (Key.K0, "0", ")"), (Key.K1, "1", "!"), (Key.K2, "2", "\x22"), (Key.K3, "3", "#"),
   (Key.K4, "4", "$"), (Key.K5, "5", "%"), (Key.K6, "6", "^"), (Key.K7, "7", "&"),
   (Key.K8, "8", "*"), (Key.K9, "9", "("),
   (Key.NP0, "0", "0"), (Key.NP1, "1", "1"), (Key.NP2, "2", "2"), (Key.NP3, "3", "3"),
   (Key.NP4, "4", "4"), (Key.NP5, "5", "5"), (Key.NP6, "6", "6"), (Key.NP7, "7", "7"),
   (Key.NP8, "8", "8"), (Key.NP9, "9", "9"),
   (Key.NP_MUL, "*", "*"), (Key.NP_DIV, "/", "/"), (Key.NP_ADD, "+", "+"),
   (Key.NP_SUB, "-", "-"), (Key.NP_DECIMAL, ".", "."),
   (Key.PERIOD, ".", ">"), (Key.EQUALS, "=", "+"), (Key.COMMA, ",", "<"),
   (Key.MINUS, "-", "_"), (Key.SPACE, " ", " "),
   (Key.OEM_1, ";", ":"), (Key.OEM_2, "/", "?"), (Key.OEM_3, "\x27", "@"),
   (Key.OEM_4, "[", "\x7b"), (Key.OEM_5, "\x5c", "|"), (Key.OEM_6, "]", "\x7d"),
   (Key.OEM_7, "#", "~")]

/-- The members of `GameEngine` that text entry reads and writes. `sCommandHistoryIt` is
the position of the iterator in `sCommandHistory`, `end()` being the length of the list. -/
structure TextEntry where
  bConsoleShow : Bool := false
  sCommandHistory : List String := []
  sCommandHistoryIt : Nat := 0
  bTextEntryEnable : Bool := false
  sTextEntryString : String := ""
  nTextEntryCursor : Int := 0
deriving DecidableEq, Repr

/-- Call `s.insert(pos, t)` of `std::string` with an `int32_t` position: the position is
converted to `size_t`, a negative one to a value beyond every string, and a position
beyond `s.size()` throws `std::out_of_range` (`none`). -/
def strInsert (s : String) (pos : Int) (t : String) : Option String :=
  if 0 ≤ pos ∧ pos ≤ (s.length : Int) then
    some ⟨s.data.take pos.toNat ++ t.data ++ s.data.drop pos.toNat⟩
  else none

/-- Call `s.erase(pos, 1)` of `std::string` with an `int32_t` position; a position beyond
`s.size()` throws `std::out_of_range` (`none`). -/
def strErase (s : String) (pos : Int) : Option String :=
  if 0 ≤ pos ∧ pos ≤ (s.length : Int) then
    some ⟨s.data.take pos.toNat ++ s.data.drop (pos.toNat + 1)⟩
  else none

namespace TextEntry

/-- Method `GameEngine::TextEntryEnable(bEnable, sText)`. -/
def TextEntryEnable (st : TextEntry) (bEnable : Bool) (sText : String) : TextEntry :=
  if bEnable then
    { st with
      nTextEntryCursor := (sText.length : Int)
      sTextEntryString := sText
      bTextEntryEnable := true }
  else { st with bTextEntryEnable := false }

/-- Body of the loop `for (const auto& key : vKeyboardMap)` of `UpdateTextEntry`. -/
def typeKey (GetKey : Key → HWButton) (st : TextEntry) (key : Key × String × String) :
    Option TextEntry :=
  if (GetKey key.1).bPressed then
    match strInsert st.sTextEntryString st.nTextEntryCursor
        (if (GetKey Key.SHIFT).bHeld then key.2.2 else key.2.1) with
    | some s =>
      some { st with sTextEntryString := s, nTextEntryCursor := st.nTextEntryCursor + 1 }
    | none => none
  else some st

/-- Statement `if (GetKey(LEFT).bPressed) ...` of `UpdateTextEntry`. -/
def keyLEFT (GetKey : Key → HWButton) (st : TextEntry) : TextEntry :=
  if (GetKey Key.LEFT).bPressed then
    { st with nTextEntryCursor := max 0 (st.nTextEntryCursor - 1) }
  else st

/-- Statement `if (GetKey(RIGHT).bPressed) ...` of `UpdateTextEntry`. -/
def keyRIGHT (GetKey : Key → HWButton) (st : TextEntry) : TextEntry :=
  if (GetKey Key.RIGHT).bPressed then
    { st with
      nTextEntryCursor := min (st.sTextEntryString.length : Int) (st.nTextEntryCursor + 1) }
  else st

/-- Statement `if (GetKey(BACK).bPressed && nTextEntryCursor > 0) ...`. -/
def keyBACK (GetKey : Key → HWButton) (st : TextEntry) : Option TextEntry :=
  if (GetKey Key.BACK).bPressed ∧ st.nTextEntryCursor > 0 then
    match strErase st.sTextEntryString (st.nTextEntryCursor - 1) with
    | some s =>
      some { st with
             sTextEntryString := s
             nTextEntryCursor := max 0 (st.nTextEntryCursor - 1) }
    | none => none
  else some st

/-- Statement `if (GetKey(DEL).bPressed && nTextEntryCursor < sTextEntryString.size())
...`; in the comparison the cursor is converted to `size_t`, so a negative cursor
compares as larger than every size. -/
def keyDEL (GetKey : Key → HWButton) (st : TextEntry) : Option TextEntry :=
  if (GetKey Key.DEL).bPressed ∧ 0 ≤ st.nTextEntryCursor
      ∧ st.nTextEntryCursor < (st.sTextEntryString.length : Int) then
    match strErase st.sTextEntryString st.nTextEntryCursor with
    | some s => some { st with sTextEntryString := s }
    | none => none
  else some st

/-- Statement `if (GetKey(UP).bPressed) ...`; dereferencing the iterator at `end()` is
undefined (`none`). -/
def keyUP (GetKey : Key → HWButton) (st : TextEntry) : Option TextEntry :=
  if (GetKey Key.UP).bPressed then
    if !st.sCommandHistory.isEmpty then
      let it := if st.sCommandHistoryIt ≠ 0 then st.sCommandHistoryIt - 1
        else st.sCommandHistoryIt
      match st.sCommandHistory[it]? with
      | some h =>
        some { st with
               sCommandHistoryIt := it
               nTextEntryCursor := (h.length : Int)
               sTextEntryString := h }
      | none => none
    else some st
  else some st

/-- Statement `if (GetKey(DOWN).bPressed) ...`. -/
def keyDOWN (GetKey : Key → HWButton) (st : TextEntry) : Option TextEntry :=
  if (GetKey Key.DOWN).bPressed then
    if !st.sCommandHistory.isEmpty then
      if st.sCommandHistoryIt ≠ st.sCommandHistory.length then
        let it := st.sCommandHistoryIt + 1
        if it ≠ st.sCommandHistory.length then
          match st.sCommandHistory[it]? with
          | some h =>
            some { st with
                   sCommandHistoryIt := it
                   nTextEntryCursor := (h.length : Int)
                   sTextEntryString := h }
          | none => none
        else
          some { st with sCommandHistoryIt := it, nTextEntryCursor := 0, sTextEntryString := "" }
      else some st
    else some st
  else some st

/-- Statement `if (GetKey(ENTER).bPressed) ...`; `OnConsoleCommand` is the user's
override, `OnTextEntryComplete` has no effect on these members. -/
def keyENTER (GetKey : Key → HWButton) (OnConsoleCommand : String → Bool) (st : TextEntry) :
    TextEntry :=
  if (GetKey Key.ENTER).bPressed then
    if st.bConsoleShow then
      let st1 : TextEntry :=
        if OnConsoleCommand st.sTextEntryString then
          { st with
            sCommandHistory := st.sCommandHistory ++ [st.sTextEntryString]
            sCommandHistoryIt := (st.sCommandHistory ++ [st.sTextEntryString]).length }
        else st
      { st1 with sTextEntryString := "", nTextEntryCursor := 0 }
    else st.TextEntryEnable false ""
  else st

/-- Method `GameEngine::UpdateTextEntry`, `GetKey` giving the latched key states of the
frame; `none` when a string operation throws or an iterator is misused. -/
def UpdateTextEntry (GetKey : Key → HWButton) (OnConsoleCommand : String → Bool)
    (st : TextEntry) : Option TextEntry :=
  (vKeyboardMap.foldlM (typeKey GetKey) st).bind fun s1 =>
  (keyBACK GetKey (keyRIGHT GetKey (keyLEFT GetKey s1))).bind fun s4 =>
  (keyDEL GetKey s4).bind fun s5 =>
  (keyUP GetKey s5).bind fun s6 =>
  (keyDOWN GetKey s6).bind fun s7 =>
  some (keyENTER GetKey OnConsoleCommand s7)

/-- The cursor lies inside the text: `0 <= nTextEntryCursor <= sTextEntryString.size()`. -/
def CursorValid (st : TextEntry) : Prop :=
  0 ≤ st.nTextEntryCursor ∧ st.nTextEntryCursor ≤ (st.sTextEntryString.length : Int)

/-- The history iterator is at an entry of the history or at `end()`. -/
def HistoryValid (st : TextEntry) : Prop :=
  st.sCommandHistoryIt ≤ st.sCommandHistory.length

end TextEntry

/-- Key states with exactly the keys of `pressed` pressed and `SHIFT` held or not. -/
def keysPressed (pressed : List Key) (shift : Bool) : Key → HWButton :=
  fun k =>
    { bPressed := decide (k ∈ pressed)
      bReleased := false
      bHeld := decide (k ∈ pressed) || (shift && decide (k = Key.SHIFT)) }

/-- The `int` (32-bit two's complement) value of an operation whose mathematical result
is `z`: a result outside `[-2^31, 2^31)` wraps around (signed overflow, which the C++
standard leaves undefined, behaves so on the usual targets). -/
def wrap32 (z : Int) : Int := (z + 2147483648) % 4294967296 - 2147483648

/-- Lambda `rol` of `DrawLine` on the `uint32_t` pattern:
`pattern = (pattern << 1) | (pattern >> 31); return pattern & 1;`. Gives the new pattern
and whether the returned bit is set. -/
def rol (pattern : Nat) : Nat × Bool :=
  (((pattern <<< 1) % 2 ^ 32) ||| (pattern >>> 31),
   (((pattern <<< 1) % 2 ^ 32) ||| (pattern >>> 31)) &&& 1 != 0)

/-- Loop `for (y = y1; y <= y2; y++) if (rol()) Draw(x1, y, p);` of `DrawLine`, entered
with `y` at its current value: the positions handed to `Draw`, in order. `fuel` bounds
the number of loop tests; `none` when the loop has not ended within it. -/
def DrawLine_vertical (x1 y2 : Int) : Nat → Int → Nat → Option (List vi2d)
  | 0, _, _ => none
  | fuel + 1, y, pattern =>
    if y ≤ y2 then
      (DrawLine_vertical x1 y2 fuel (wrap32 (y + 1)) (rol pattern).1).map
        (fun rest => (if (rol pattern).2 then [(⟨x1, y⟩ : vi2d)] else []) ++ rest)
    else some []

/-- Loop `for (x = x1; x <= x2; x++) if (rol()) Draw(x, y1, p);` of `DrawLine`. -/
def DrawLine_horizontal (y1 x2 : Int) : Nat → Int → Nat → Option (List vi2d)
  | 0, _, _ => none
  | fuel + 1, x, pattern =>
    if x ≤ x2 then
      (DrawLine_horizontal y1 x2 fuel (wrap32 (x + 1)) (rol pattern).1).map
        (fun rest => (if (rol pattern).2 then [(⟨x, y1⟩ : vi2d)] else []) ++ rest)
    else some []

/-- Loop `for (i = 0; x < xe; i++) { ... }` of the branch `dy1 <= dx1` of `DrawLine`,
entered with `x`, `y`, `px` at their current values. -/
def DrawLine_shallow (dx dy dx1 dy1 xe : Int) :
    Nat → Int → Int → Int → Nat → Option (List vi2d)
  | 0, _, _, _, _ => none
  | fuel + 1, x, y, px, pattern =>
    if x < xe then
      (DrawLine_shallow dx dy dx1 dy1 xe fuel (wrap32 (x + 1))
          (if px < 0 then y
           else if (dx < 0 ∧ dy < 0) ∨ (dx > 0 ∧ dy > 0) then wrap32 (y + 1)
           else wrap32 (y - 1))
          (if px < 0 then wrap32 (px + wrap32 (2 * dy1))
           else wrap32 (px + wrap32 (2 * wrap32 (dy1 - dx1))))
          (rol pattern).1).map
        (fun rest =>
          (if (rol pattern).2 then
              [(⟨wrap32 (x + 1),
                 if px < 0 then y
                 else if (dx < 0 ∧ dy < 0) ∨ (dx > 0 ∧ dy > 0) then wrap32 (y + 1)
                 else wrap32 (y - 1)⟩ : vi2d)]
            else []) ++ rest)
    else some []

/-- Loop `for (i = 0; y < ye; i++) { ... }` of the branch `dy1 > dx1` of `DrawLine`. -/
def DrawLine_steep (dx dy dx1 dy1 ye : Int) :
    Nat → Int → Int → Int → Nat → Option (List vi2d)
  | 0, _, _, _, _ => none
  | fuel + 1, x, y, py, pattern =>
    if y < ye then
      (DrawLine_steep dx dy dx1 dy1 ye fuel
          (if py ≤ 0 then x
           else if (dx < 0 ∧ dy < 0) ∨ (dx > 0 ∧ dy > 0) then wrap32 (x + 1)
           else wrap32 (x - 1))
          (wrap32 (y + 1))
          (if py ≤ 0 then wrap32 (py + wrap32 (2 * dx1))
           else wrap32 (py + wrap32 (2 * wrap32 (dx1 - dy1))))
          (rol pattern).1).map
        (fun rest =>
          (if (rol pattern).2 then
              [(⟨if py ≤ 0 then x
                 else if (dx < 0 ∧ dy < 0) ∨ (dx > 0 ∧ dy > 0) then wrap32 (x + 1)
                 else wrap32 (x - 1),
                 wrap32 (y + 1)⟩ : vi2d)]
            else []) ++ rest)
    else some []

/-- Method `GameEngine::DrawLine(x1, y1, x2, y2, p, pattern)` on `int32_t` arguments: the
positions of its `Draw(x, y, p)` calls, in order (every call passes the same `p`), or
`none` when a loop has not ended within `fuel` tests. -/
def DrawLine (fuel : Nat) (x1 y1 x2 y2 : Int) (pattern : Nat) : Option (List vi2d) :=
  let dx := wrap32 (x2 - x1)
  let dy := wrap32 (y2 - y1)
  if dx = 0 then
    if y2 < y1 then DrawLine_vertical x1 y1 fuel y2 pattern
    else DrawLine_vertical x1 y2 fuel y1 pattern
  else if dy = 0 then
    if x2 < x1 then DrawLine_horizontal y1 x1 fuel x2 pattern
    else DrawLine_horizontal y1 x2 fuel x1 pattern
  else
    let dx1 := wrap32 |dx|
    let dy1 := wrap32 |dy|
    let px := wrap32 (wrap32 (2 * dy1) - dx1)
    let py := wrap32 (wrap32 (2 * dx1) - dy1)
    if dy1 ≤ dx1 then
      let x := if dx ≥ 0 then x1 else x2
      let y := if dx ≥ 0 then y1 else y2
      let xe := if dx ≥ 0 then x2 else x1
      (DrawLine_shallow dx dy dx1 dy1 xe fuel x y px (rol pattern).1).map
        (fun rest => (if (rol pattern).2 then [(⟨x, y⟩ : vi2d)] else []) ++ rest)
    else
      let x := if dy ≥ 0 then x1 else x2
      let y := if dy ≥ 0 then y1 else y2
      let ye := if dy ≥ 0 then y2 else y1
      (DrawLine_steep dx dy dx1 dy1 ye fuel x y py (rol pattern).1).map
        (fun rest => (if (rol pattern).2 then [(⟨x, y⟩ : vi2d)] else []) ++ rest)

/-- Two pixels differ by at most 1 in each coordinate. -/
def adjacent (a b : vi2d) : Prop := |b.x - a.x| ≤ 1 ∧ |b.y - a.y| ≤ 1

/-- The step of the minor coordinate in the main loops of `DrawLine`: `+1` when
`(dx < 0 && dy < 0) || (dx > 0 && dy > 0)`, else `-1`. -/
def lineStep (dx dy : Int) : Int :=
  if (dx < 0 ∧ dy < 0) ∨ (dx > 0 ∧ dy > 0) then 1 else -1

/-- A list of pixels is a connected run of `n + 1` pixels from `a` to `b`. -/
def IsPixelPath (l : List vi2d) (a b : vi2d) (n : Int) : Prop :=
  (l.length : Int) = n + 1 ∧ l.head? = some a ∧ l.getLast? = some b ∧ l.Chain' adjacent

/-- The endpoints are `int32_t` values below `INT_MAX` that lie less than `2^30` apart
in each coordinate. -/
def lineInRange (x1 y1 x2 y2 : Int) : Prop :=
  (-2147483648 ≤ x1 ∧ x1 ≤ 2147483646) ∧ (-2147483648 ≤ y1 ∧ y1 ≤ 2147483646) ∧
  (-2147483648 ≤ x2 ∧ x2 ≤ 2147483646) ∧ (-2147483648 ≤ y2 ∧ y2 ≤ 2147483646) ∧
  |x2 - x1| ≤ 1073741823 ∧ |y2 - y1| ≤ 1073741823

instance (x1 y1 x2 y2 : Int) : Decidable (lineInRange x1 y1 x2 y2) := by
  unfold lineInRange
  infer_instance

/-! ## Auxiliary lemmas -/

theorem modifyAt_length {α : Type} (f : α → α) (n : Nat) (l : List α) :
    (modifyAt f n l).length = l.length := by
  induction l generalizing n with
  | nil => cases n <;> rfl
  | cons a as ih =>
    cases n with
    | zero => rfl
    | succ n => simp [modifyAt, ih]

theorem modifyAt_getElem? {α : Type} (f : α → α) (n m : Nat) (l : List α) :
    (modifyAt f n l)[m]? = if m = n then l[m]?.map f else l[m]? := by
  induction l generalizing n m with
  | nil => cases n <;> simp [modifyAt]
  | cons a as ih =>
    cases n with
    | zero =>
      cases m with
      | zero => simp [modifyAt]
      | succ m => simp [modifyAt]
    | succ n =>
      cases m with
      | zero => simp [modifyAt]
      | succ m => simp [modifyAt, ih]

theorem map_range_getD {α β : Type} (f : α → β) (d : α) (l : List α) (n : Nat)
    (hn : n ≤ l.length) :
    (List.range n).map (fun i => f (l.getD i d)) = (l.take n).map f := by
  apply List.ext_getElem
  · simp [hn]
  · intro i h1 h2
    simp at h1 h2
    have : i < l.length := by omega
    simp [List.getD, this]

namespace GameEngine

theorem batch_pushDecalInstance (e : GameEngine) (di : DecalInstance) (t : Nat) :
    (e.pushDecalInstance di).batch t =
      if t = e.nTargetLayer ∧ t < e.vLayers.length then e.batch t ++ [di] else e.batch t := by
  unfold batch pushDecalInstance
  simp only [modifyAt_getElem?]
  by_cases ht : t = e.nTargetLayer
  · by_cases hl : t < e.vLayers.length
    · have hs : e.vLayers[t]? = some e.vLayers[t] := by simp [hl]
      simp [ht.symm, hl, hs]
    · have hs : e.vLayers[t]? = none := by simp at hl; simp [hl]
      simp [ht.symm, hl, hs]
  · simp [ht]

end GameEngine

theorem toClip_eq_specNdc (e0 e : GameEngine) (W H pw ph : Int) (fs vs co : Bool)
    (hinv : e.vInvScreenSize = (e0.Construct W H pw ph fs vs co).2.vInvScreenSize) (p : vf2d) :
    e.toClip p = specNdc (W : ℚ) (H : ℚ) p := by
  have h : e.vInvScreenSize = ⟨1 / (W : ℚ), 1 / (H : ℚ)⟩ := by
    rw [hinv]; simp only [GameEngine.Construct]; split_ifs <;> rfl
  unfold GameEngine.toClip specNdc
  rw [h]
  simp only [vf2d.mk.injEq]
  constructor <;> ring

theorem abs_tmod_eq (a b : Int) : |a.tmod b| = ((a.natAbs % b.natAbs : Nat) : Int) := by
  rw [Int.abs_eq_natAbs]
  congr 1
  cases a <;> cases b <;> simp only [Int.tmod, Int.natAbs_neg, Int.natAbs_ofNat,
    Int.natAbs_negSucc, Nat.succ_eq_add_one] <;> rfl

/-- In `PERIODIC` mode sampling does wrap with period `(width, height)` as long as the
shift does not cross zero: for `x >= 0` or `x + width <= 0` (and likewise for `y`). -/
theorem GetPixel_periodic_same_sign (s : Sprite) (x y : Int)
    (hmode : s.modeSample = SpriteMode.PERIODIC) (hw : 1 ≤ s.width) (hh : 1 ≤ s.height) :
    ((0 ≤ x ∨ x + s.width ≤ 0) → s.GetPixel (x + s.width) y = s.GetPixel x y) ∧
    ((0 ≤ y ∨ y + s.height ≤ 0) → s.GetPixel x (y + s.height) = s.GetPixel x y) := by
  have key : ∀ a w : Int, 1 ≤ w → (0 ≤ a ∨ a + w ≤ 0) → |(a + w).tmod w| = |a.tmod w| := by
    intro a w hw1 ha
    rw [abs_tmod_eq, abs_tmod_eq]
    congr 1
    rcases ha with ha | ha
    · have : (a + w).natAbs = a.natAbs + w.natAbs := by omega
      rw [this, Nat.add_mod_right]
    · have : a.natAbs = (a + w).natAbs + w.natAbs := by omega
      rw [this, Nat.add_mod_right]
  have hne : s.modeSample ≠ SpriteMode.NORMAL := by rw [hmode]; decide
  constructor
  · intro hx
    unfold Sprite.GetPixel
    rw [if_neg hne, if_neg hne, if_pos hmode, if_pos hmode, key x s.width hw hx]
  · intro hy
    unfold Sprite.GetPixel
    rw [if_neg hne, if_neg hne, if_pos hmode, if_pos hmode, key y s.height hh hy]

theorem modifyAt_eq_self {α : Type} (f : α → α) (hf : ∀ a, f a = a) (n : Nat) (l : List α) :
    modifyAt f n l = l := by
  induction l generalizing n with
  | nil => cases n <;> rfl
  | cons a as ih =>
    cases n with
    | zero => simp [modifyAt, hf]
    | succ n => simp [modifyAt, ih]

theorem compositeLayers_foldl (s : Bool) (R : List LayerDesc)
    (acc : List LayerDesc × List RenderCall) :
    R.foldl (compositeStep s) acc =
      ((R.map (fun l => (compositeLayer s l).1)).reverse ++ acc.1,
       acc.2 ++ (R.map (fun l => (compositeLayer s l).2)).flatten) := by
  induction R generalizing acc with
  | nil => simp
  | cons l R ih =>
    rw [List.foldl_cons, ih]
    simp [compositeStep]

theorem compositeLayers_eq (s : Bool) (L : List LayerDesc) :
    compositeLayers s L =
      (L.map (fun l => (compositeLayer s l).1),
       (L.reverse.map (fun l => (compositeLayer s l).2)).flatten) := by
  unfold compositeLayers
  rw [compositeLayers_foldl]
  simp [List.map_reverse]

theorem submitted_append (a b : List RenderCall) :
    submitted (a ++ b) = submitted a ++ submitted b := by
  simp [submitted]

theorem submitted_map_DrawDecal (ds : List DecalInstance) :
    submitted (ds.map RenderCall.DrawDecal) = ds := by
  induction ds with
  | nil => rfl
  | cons d ds ih =>
    simp only [List.map_cons, submitted, List.filterMap_cons] at ih ⊢
    rw [ih]

theorem compositeLayer_submitted (s : Bool) (l : LayerDesc) :
    submitted (compositeLayer s l).2 = layerSubmits l := by
  unfold compositeLayer layerSubmits
  cases hshow : l.bShow
  · simp [submitted]
  · cases hhook : l.funcHook with
    | some h => simp [submitted]
    | none =>
      simp only [if_true, true_and]
      rw [submitted_append, submitted_append, submitted_append, submitted_map_DrawDecal]
      by_cases hu : (!s && l.bUpdate) = true
      · rw [if_pos hu]; simp [submitted, Renderable.UpdateDecal]
      · rw [if_neg hu]; simp [submitted]

theorem compositeLayer_layer (s : Bool) (l : LayerDesc) :
    (compositeLayer s l).1.bShow = l.bShow ∧ (compositeLayer s l).1.funcHook = l.funcHook ∧
    (compositeLayer s l).1.vecDecalInstance =
      if l.bShow = true ∧ l.funcHook = none then [] else l.vecDecalInstance := by
  unfold compositeLayer
  cases hshow : l.bShow
  · simp [hshow]
  · cases hhook : l.funcHook with
    | some h => simp [hshow, hhook]
    | none =>
      by_cases hu : (!s && l.bUpdate) = true
      · simp only [if_true, hu]; simp [hshow, hhook]
      · simp only [if_true, hu]; simp [hshow, hhook]

theorem compositeLayers_submitted (s : Bool) (L : List LayerDesc) :
    submitted (compositeLayers s L).2 = (L.reverse.map layerSubmits).flatten := by
  rw [compositeLayers_eq]
  show submitted (List.flatten _) = _
  induction L.reverse with
  | nil => rfl
  | cons l R ih =>
    simp only [List.map_cons, List.flatten_cons, submitted_append, compositeLayer_submitted]
    rw [ih]

namespace GameEngine

theorem draw_appends (fl : FloatLib) (e : GameEngine) (c : DrawCall) :
    ∃ new : List DecalInstance,
      new.length = (if c.dropped = true then 0 else 1) ∧
      e.draw fl c =
        { e with
          vLayers :=
            modifyAt (fun l => { l with vecDecalInstance := l.vecDecalInstance ++ new })
              e.nTargetLayer e.vLayers } := by
  have hnil : e = { e with
      vLayers :=
        modifyAt (fun l => { l with vecDecalInstance := l.vecDecalInstance ++ [] })
          e.nTargetLayer e.vLayers } := by
    rw [modifyAt_eq_self _ (fun a => by simp)]
  cases c with
  | DrawPartialDecal pos decal sp ss scale tint => exact ⟨[_], rfl, rfl⟩
  | DrawPartialDecalSized pos size decal sp ss tint => exact ⟨[_], rfl, rfl⟩
  | DrawDecal pos decal scale tint => exact ⟨[_], rfl, rfl⟩
  | DrawExplicitDecal decal pos uv col elements => exact ⟨[_], rfl, rfl⟩
  | DrawPolygonDecal decal pos uv tint => exact ⟨[_], rfl, rfl⟩
  | DrawPolygonDecalTints decal pos uv tint => exact ⟨[_], rfl, rfl⟩
  | DrawPolygonDecalDepth decal pos depth uv tint => exact ⟨[_], rfl, rfl⟩
  | DrawLineDecal pos1 pos2 p => exact ⟨[_], rfl, rfl⟩
  | DrawRectDecal pos size col => exact ⟨[_], rfl, rfl⟩
  | FillRectDecal pos size col => exact ⟨[_], rfl, rfl⟩
  | GradientFillRectDecal pos size c1 c2 c3 c4 => exact ⟨[_], rfl, rfl⟩
  | DrawRotatedDecal pos decal fAngle center scale tint => exact ⟨[_], rfl, rfl⟩
  | DrawPartialRotatedDecal pos decal fAngle center sp ss scale tint => exact ⟨[_], rfl, rfl⟩
  | DrawPartialWarpedDecal decal pos sp ss tint =>
    by_cases h : warpRd pos = 0
    · refine ⟨[], by simp [DrawCall.dropped, h], ?_⟩
      have : e.draw fl (DrawCall.DrawPartialWarpedDecal decal pos sp ss tint) = e := by
        simp [draw, GameEngine.DrawPartialWarpedDecal, h]
      rw [this]; exact hnil
    · refine ⟨[?dp], ?h1, ?h2⟩
      case h2 =>
        simp only [draw, GameEngine.DrawPartialWarpedDecal, ne_eq, h, not_false_eq_true, if_true]
        exact rfl
      case h1 => simp [DrawCall.dropped, h]
  | DrawWarpedDecal decal pos tint =>
    by_cases h : warpRd pos = 0
    · refine ⟨[], by simp [DrawCall.dropped, h], ?_⟩
      have : e.draw fl (DrawCall.DrawWarpedDecal decal pos tint) = e := by
        simp [draw, GameEngine.DrawWarpedDecal, h]
      rw [this]; exact hnil
    · refine ⟨[?di], ?h1, ?h2⟩
      case h2 =>
        simp only [draw, GameEngine.DrawWarpedDecal, ne_eq, h, not_false_eq_true, if_true]
        exact rfl
      case h1 => simp [DrawCall.dropped, h]

end GameEngine

theorem modifyAt_modifyAt {α : Type} (f g : α → α) (n : Nat) (l : List α) :
    modifyAt g n (modifyAt f n l) = modifyAt (fun a => g (f a)) n l := by
  induction l generalizing n with
  | nil => cases n <;> rfl
  | cons a as ih =>
    cases n with
    | zero => rfl
    | succ n => simp [modifyAt, ih]

theorem flatten_reverse_infix (L : List LayerDesc) (i : Nat) (x : LayerDesc)
    (hx : L[i]? = some x) :
    ∃ pre post, (L.reverse.map layerSubmits).flatten = pre ++ layerSubmits x ++ post := by
  have hmem : x ∈ L := List.getElem?_mem hx
  obtain ⟨A, B, hAB⟩ := List.append_of_mem hmem
  refine ⟨(B.reverse.map layerSubmits).flatten, (A.reverse.map layerSubmits).flatten, ?_⟩
  rw [hAB]
  simp

namespace GameEngine

/-- The engine with `new` appended to the batch of the target layer. -/
theorem batch_append_new (e : GameEngine) (new : List DecalInstance) (t : Nat) :
    GameEngine.batch
        { e with
          vLayers :=
            modifyAt (fun l => { l with vecDecalInstance := l.vecDecalInstance ++ new })
              e.nTargetLayer e.vLayers } t
      = if t = e.nTargetLayer ∧ t < e.vLayers.length then e.batch t ++ new else e.batch t := by
  unfold batch
  simp only [modifyAt_getElem?]
  by_cases ht : t = e.nTargetLayer
  · by_cases hl : t < e.vLayers.length
    · have hs : e.vLayers[t]? = some e.vLayers[t] := by simp [hl]
      simp [ht.symm, hl, hs]
    · have hs : e.vLayers[t]? = none := by simp at hl; simp [hl]
      simp [ht.symm, hl, hs]
  · simp [ht]

theorem drawAll_appends (fl : FloatLib) (cs : List DrawCall) (e : GameEngine) :
    ∃ news : List (List DecalInstance),
      List.Forall₂ (fun c n => n.length = (if c.dropped = true then 0 else 1)) cs news ∧
      ∀ k, e.drawAll fl (cs.take k) =
        { e with
          vLayers :=
            modifyAt
              (fun l => { l with vecDecalInstance := l.vecDecalInstance ++ (news.take k).flatten })
              e.nTargetLayer e.vLayers } := by
  have hnil : ∀ e : GameEngine, e = { e with
      vLayers :=
        modifyAt (fun l => { l with vecDecalInstance := l.vecDecalInstance ++ [] })
          e.nTargetLayer e.vLayers } := by
    intro e
    rw [modifyAt_eq_self _ (fun a => by simp)]
  induction cs generalizing e with
  | nil =>
    refine ⟨[], List.Forall₂.nil, ?_⟩
    intro k
    simp only [List.take_nil, List.flatten_nil]
    exact hnil e
  | cons c cs ih =>
    obtain ⟨new, hlen, hdraw⟩ := draw_appends fl e c
    obtain ⟨news, hall, hk⟩ := ih (e.draw fl c)
    refine ⟨new :: news, List.Forall₂.cons hlen hall, ?_⟩
    intro k
    cases k with
    | zero =>
      simp only [List.take_zero, List.flatten_nil]
      exact hnil e
    | succ k =>
      have h1 : e.drawAll fl ((c :: cs).take (k + 1)) = (e.draw fl c).drawAll fl (cs.take k) := by
        simp [drawAll]
      rw [h1, hk k, hdraw]
      simp only [List.take_succ_cons, List.flatten_cons, modifyAt_modifyAt, List.append_assoc]

theorem call_layers_length (fl : FloatLib) (e : GameEngine) (c : UserCall) :
    e.vLayers.length ≤ (e.call fl c).vLayers.length := by
  cases c with
  | EnableLayer layer b =>
    simp only [call, GameEngine.EnableLayer]; split_ifs <;> simp [modifyAt_length]
  | SetDrawTarget layer bDirty =>
    simp only [call, GameEngine.SetDrawTarget]; split_ifs <;> simp [modifyAt_length]
  | SetDrawTargetSprite target =>
    cases target <;> simp [call, GameEngine.SetDrawTargetSprite]
  | SetLayerOffset layer x y =>
    simp only [call, GameEngine.SetLayerOffset]; split_ifs <;> simp [modifyAt_length]
  | SetLayerScale layer x y =>
    simp only [call, GameEngine.SetLayerScale]; split_ifs <;> simp [modifyAt_length]
  | SetLayerTint layer tint =>
    simp only [call, GameEngine.SetLayerTint]; split_ifs <;> simp [modifyAt_length]
  | SetLayerCustomRenderFunction layer f =>
    simp only [call, GameEngine.SetLayerCustomRenderFunction]
    split_ifs <;> simp [modifyAt_length]
  | CreateLayer texId => simp [call, GameEngine.CreateLayer]
  | SetDecalMode mode => simp [call, GameEngine.SetDecalMode]
  | SetDecalStructure s => simp [call, GameEngine.SetDecalStructure]
  | draw c =>
    obtain ⟨new, _, h⟩ := draw_appends fl e c
    simp only [call]
    rw [h]
    simp [modifyAt_length]

theorem callAll_layers_length (fl : FloatLib) (cs : List UserCall) (e : GameEngine) :
    e.vLayers.length ≤ (e.callAll fl cs).vLayers.length := by
  induction cs generalizing e with
  | nil => exact le_refl _
  | cons c cs ih =>
    have h1 : e.callAll fl (c :: cs) = (e.call fl c).callAll fl cs := rfl
    rw [h1]
    exact le_trans (call_layers_length fl e c) (ih _)

theorem call_target_valid (fl : FloatLib) (e : GameEngine) (c : UserCall)
    (h : e.nTargetLayer < e.vLayers.length) :
    (e.call fl c).nTargetLayer < (e.call fl c).vLayers.length := by
  cases c with
  | EnableLayer layer b =>
    simp only [call, GameEngine.EnableLayer]; split_ifs <;> simp [modifyAt_length, h]
  | SetDrawTarget layer bDirty =>
    simp only [call, GameEngine.SetDrawTarget]
    split_ifs with hl
    · simp [modifyAt_length, hl]
    · exact h
  | SetDrawTargetSprite target =>
    cases target with
    | none => simp only [call, GameEngine.SetDrawTargetSprite]; omega
    | some t => simpa [call, GameEngine.SetDrawTargetSprite] using h
  | SetLayerOffset layer x y =>
    simp only [call, GameEngine.SetLayerOffset]; split_ifs <;> simp [modifyAt_length, h]
  | SetLayerScale layer x y =>
    simp only [call, GameEngine.SetLayerScale]; split_ifs <;> simp [modifyAt_length, h]
  | SetLayerTint layer tint =>
    simp only [call, GameEngine.SetLayerTint]; split_ifs <;> simp [modifyAt_length, h]
  | SetLayerCustomRenderFunction layer f =>
    simp only [call, GameEngine.SetLayerCustomRenderFunction]
    split_ifs <;> simp [modifyAt_length, h]
  | CreateLayer texId => simp only [call, GameEngine.CreateLayer, List.length_append]; omega
  | SetDecalMode mode => simpa [call, GameEngine.SetDecalMode] using h
  | SetDecalStructure s => simpa [call, GameEngine.SetDecalStructure] using h
  | draw c =>
    obtain ⟨new, _, hd⟩ := draw_appends fl e c
    simp only [call]
    rw [hd]
    simpa [modifyAt_length] using h

/-- The target layer exists in every state reached by user calls from a state where it
exists, so `vLayers[nTargetLayer]` in the draw calls is always a valid access. -/
theorem callAll_target_valid (fl : FloatLib) (cs : List UserCall) (e : GameEngine)
    (h : e.nTargetLayer < e.vLayers.length) :
    (e.callAll fl cs).nTargetLayer < (e.callAll fl cs).vLayers.length := by
  induction cs generalizing e with
  | nil => exact h
  | cons c cs ih =>
    have h1 : e.callAll fl (c :: cs) = (e.call fl c).callAll fl cs := rfl
    rw [h1]
    exact ih _ (call_target_valid fl e c h)

theorem prepare_layers (e : GameEngine) :
    (alo_CoreUpdate_prepare e).vLayers =
      modifyAt (fun l => { l with bUpdate := true, bShow := true }) 0 e.vLayers := by
  unfold alo_CoreUpdate_prepare SetDecalMode
  simp only [modifyAt_modifyAt]

theorem display_layers (e : GameEngine) :
    (alo_CoreUpdate_display e).vLayers =
      (alo_CoreUpdate_prepare e).vLayers.map
        (fun l => (compositeLayer (alo_CoreUpdate_prepare e).bSuspendTextureTransfer l).1) := by
  unfold alo_CoreUpdate_display alo_CoreUpdate_layers
  simp only [compositeLayers_eq]

theorem display_renderer (e : GameEngine) :
    ∃ tr, (alo_CoreUpdate_display e).renderer = e.renderer ++ tr ∧
      submitted tr = ((alo_CoreUpdate_prepare e).vLayers.reverse.map layerSubmits).flatten := by
  refine ⟨[RenderCall.UpdateViewport e.vViewPos e.vViewSize, RenderCall.ClearBuffer BLACK true]
      ++ [RenderCall.PrepareDrawing]
      ++ (compositeLayers (alo_CoreUpdate_prepare e).bSuspendTextureTransfer
            (alo_CoreUpdate_prepare e).vLayers).2
      ++ [RenderCall.DisplayFrame], ?_, ?_⟩
  · simp [alo_CoreUpdate_display, alo_CoreUpdate_layers, alo_CoreUpdate_prepare, SetDecalMode]
  · rw [submitted_append, submitted_append, compositeLayers_submitted]
    simp [submitted]

theorem prepare_batch (e : GameEngine) (i : Nat) :
    (alo_CoreUpdate_prepare e).batch i = e.batch i := by
  unfold batch
  rw [prepare_layers, modifyAt_getElem?]
  by_cases hi : i = 0
  · cases h : e.vLayers[i]? <;> simp [hi, h]
  · simp [hi]

theorem prepare_layerShown (e : GameEngine) (i : Nat) (hi : i < e.vLayers.length) :
    (alo_CoreUpdate_prepare e).layerShown i = (decide (i = 0) || e.layerShown i) := by
  unfold layerShown
  rw [prepare_layers, modifyAt_getElem?]
  have hs : e.vLayers[i]? = some e.vLayers[i] := by simp [hi]
  by_cases h0 : i = 0
  · subst h0
    simp [hs]
  · simp [h0]

theorem prepare_layerHooked (e : GameEngine) (i : Nat) :
    (alo_CoreUpdate_prepare e).layerHooked i = e.layerHooked i := by
  unfold layerHooked
  rw [prepare_layers, modifyAt_getElem?]
  by_cases hi : i = 0
  · cases h : e.vLayers[i]? <;> simp [hi, h]
  · simp [hi]

theorem display_batch (e : GameEngine) (i : Nat) :
    (alo_CoreUpdate_display e).batch i =
      if (alo_CoreUpdate_prepare e).layerShown i = true
          ∧ (alo_CoreUpdate_prepare e).layerHooked i = false
      then [] else (alo_CoreUpdate_prepare e).batch i := by
  unfold batch layerShown layerHooked
  rw [display_layers, List.getElem?_map]
  cases h : (alo_CoreUpdate_prepare e).vLayers[i]? with
  | none => simp
  | some l =>
    simp only [Option.map_some']
    rw [(compositeLayer_layer _ l).2.2]
    cases hh : l.funcHook <;> simp

end GameEngine

theorem truncToInt_of_nonneg (q : ℚ) (h : 0 ≤ q) : truncToInt q = ⌊q⌋ := by
  unfold truncToInt
  rw [if_pos h]

theorem toUInt8_eq (q : ℚ) (n : Nat) (hn : n < 256) (h1 : (n : ℚ) ≤ q) (h2 : q < (n : ℚ) + 1) :
    toUInt8 q = n := by
  have h0 : 0 ≤ q := le_trans (Nat.cast_nonneg n) h1
  have hf : ⌊q⌋ = (n : Int) := by
    rw [Int.floor_eq_iff]
    exact ⟨by exact_mod_cast h1, by exact_mod_cast h2⟩
  unfold toUInt8
  rw [truncToInt_of_nonneg q h0, hf, Int.toNat_ofNat, Nat.mod_eq_of_lt hn]

theorem fmod1_of_unit (t : ℚ) (h0 : 0 ≤ t) (h1 : t < 1) : fmod1 t = t := by
  unfold fmod1
  rw [truncToInt_of_nonneg t h0]
  have : ⌊t⌋ = 0 := by
    rw [Int.floor_eq_iff]
    exact ⟨by simpa using h0, by simpa using h1⟩
  rw [this]
  simp

theorem fmod1_add_one (t : ℚ) (h0 : 0 ≤ t) : fmod1 (t + 1) = fmod1 t := by
  unfold fmod1
  rw [truncToInt_of_nonneg t h0, truncToInt_of_nonneg (t + 1) (by linarith), Int.floor_add_one]
  push_cast
  ring

theorem fmod1_one : fmod1 1 = 0 := by
  have h := fmod1_add_one 0 (le_refl _)
  rw [zero_add] at h
  rw [h, fmod1_of_unit 0 (le_refl _) (by norm_num)]

theorem fmod1_neg_unit (t : ℚ) (h0 : -1 < t) (h1 : t < 0) : fmod1 t = t := by
  unfold fmod1 truncToInt
  rw [if_neg (not_le.mpr h1)]
  have : ⌈t⌉ = 0 := by
    rw [Int.ceil_eq_iff]
    exact ⟨by simpa using h0, by simpa using h1.le⟩
  rw [this]
  simp

namespace Palette

theorem Sample_two_point_at_or_below_zero (C0 C1 : Pixel) (t : ℚ) (h : fmod1 t ≤ 0) :
    (⟨[(0, C0), (1, C1)]⟩ : Palette).Sample t = some C0 := by
  simp [Sample, scan, not_lt.mpr h]

theorem Sample_two_point_inside (C0 C1 : Pixel) (t : ℚ) (h0 : 0 < fmod1 t) (h1 : fmod1 t < 1) :
    (⟨[(0, C0), (1, C1)]⟩ : Palette).Sample t = some (PixelLerp C0 C1 (fmod1 t)) := by
  simp [Sample, scan, h0, not_lt.mpr h1.le]

theorem Sample_add_one (p : Palette) (t : ℚ) (h0 : 0 ≤ t) : p.Sample (t + 1) = p.Sample t := by
  unfold Sample
  rw [fmod1_add_one t h0]

end Palette

theorem mulF_half (p : Pixel) (hp : p.Valid) :
    p.mulF (1 / 2) = ⟨p.r / 2, p.g / 2, p.b / 2, p.a⟩ := by
  have key : ∀ n : Nat, n < 256 → toUInt8 (min 255 (max 0 ((n : ℚ) * (1 / 2)))) = n / 2 := by
    intro n hn
    have hq : (0 : ℚ) ≤ (n : ℚ) * (1 / 2) := by positivity
    have hle : (n : ℚ) * (1 / 2) ≤ 255 := by
      have : (n : ℚ) ≤ 255 := by exact_mod_cast Nat.lt_succ_iff.mp hn
      linarith
    rw [max_eq_right hq, min_eq_right hle]
    have hdm := Nat.div_add_mod n 2
    have hm := Nat.mod_lt n (by decide : 0 < 2)
    have hc : (n : ℚ) = 2 * ((n / 2 : Nat) : ℚ) + ((n % 2 : Nat) : ℚ) := by exact_mod_cast hdm.symm
    have hm0 : (0 : ℚ) ≤ ((n % 2 : Nat) : ℚ) := Nat.cast_nonneg _
    have hm1 : ((n % 2 : Nat) : ℚ) ≤ 1 := by exact_mod_cast Nat.lt_succ_iff.mp hm
    apply toUInt8_eq _ _ (by omega)
    · linarith
    · linarith
  obtain ⟨hr, hg, hb, _⟩ := hp
  unfold Pixel.mulF
  simp only [key p.r hr, key p.g hg, key p.b hb]

theorem PixelLerp_half (C0 C1 : Pixel) (h0 : C0.Valid) (h1 : C1.Valid) :
    PixelLerp C0 C1 (1 / 2) =
      ⟨C1.r / 2 + C0.r / 2, C1.g / 2 + C0.g / 2, C1.b / 2 + C0.b / 2, C1.a⟩ := by
  unfold PixelLerp
  have h12 : (1 : ℚ) - 1 / 2 = 1 / 2 := by norm_num
  rw [h12, mulF_half C0 h0, mulF_half C1 h1]
  obtain ⟨a1, a2, a3, _⟩ := h0
  obtain ⟨b1, b2, b3, _⟩ := h1
  unfold Pixel.add
  simp only [Pixel.mk.injEq, and_true]
  refine ⟨?_, ?_, ?_⟩ <;> omega

namespace GameEngine

theorem draw_emits (fl : FloatLib) (e : GameEngine) (c : DrawCall) :
    ∃ new : List DecalInstance,
      new.length = (if c.dropped = true then 0 else 1) ∧
      (∀ di ∈ new, di.WellFormed ∧ di.points = c.vertices) ∧
      e.draw fl c =
        { e with
          vLayers :=
            modifyAt (fun l => { l with vecDecalInstance := l.vecDecalInstance ++ new })
              e.nTargetLayer e.vLayers } := by
  have hnil : e = { e with
      vLayers :=
        modifyAt (fun l => { l with vecDecalInstance := l.vecDecalInstance ++ [] })
          e.nTargetLayer e.vLayers } := by
    rw [modifyAt_eq_self _ (fun a => by simp)]
  cases c with
  | DrawPartialDecal pos decal sp ss scale tint =>
    refine ⟨[_], rfl, ?_, rfl⟩
    intro di hdi; rw [List.mem_singleton] at hdi; subst hdi
    exact ⟨⟨rfl, rfl, rfl, rfl⟩, rfl⟩
  | DrawPartialDecalSized pos size decal sp ss tint =>
    refine ⟨[_], rfl, ?_, rfl⟩
    intro di hdi; rw [List.mem_singleton] at hdi; subst hdi
    exact ⟨⟨rfl, rfl, rfl, rfl⟩, rfl⟩
  | DrawDecal pos decal scale tint =>
    refine ⟨[_], rfl, ?_, rfl⟩
    intro di hdi; rw [List.mem_singleton] at hdi; subst hdi
    exact ⟨⟨rfl, rfl, rfl, rfl⟩, rfl⟩
  | DrawExplicitDecal decal pos uv col elements =>
    refine ⟨[_], rfl, ?_, rfl⟩
    intro di hdi; rw [List.mem_singleton] at hdi; subst hdi
    simp [DecalInstance.WellFormed, DrawCall.vertices]
  | DrawPolygonDecal decal pos uv tint =>
    refine ⟨[_], rfl, ?_, rfl⟩
    intro di hdi; rw [List.mem_singleton] at hdi; subst hdi
    simp [DecalInstance.WellFormed, DrawCall.vertices]
  | DrawPolygonDecalTints decal pos uv tint =>
    refine ⟨[_], rfl, ?_, rfl⟩
    intro di hdi; rw [List.mem_singleton] at hdi; subst hdi
    simp [DecalInstance.WellFormed, DrawCall.vertices]
  | DrawPolygonDecalDepth decal pos depth uv tint =>
    refine ⟨[_], rfl, ?_, rfl⟩
    intro di hdi; rw [List.mem_singleton] at hdi; subst hdi
    simp [DecalInstance.WellFormed, DrawCall.vertices]
  | DrawLineDecal pos1 pos2 p =>
    refine ⟨[_], rfl, ?_, rfl⟩
    intro di hdi; rw [List.mem_singleton] at hdi; subst hdi
    exact ⟨⟨rfl, rfl, rfl, rfl⟩, rfl⟩
  | DrawRectDecal pos size col =>
    refine ⟨[_], rfl, ?_, rfl⟩
    intro di hdi; rw [List.mem_singleton] at hdi; subst hdi
    exact ⟨⟨rfl, rfl, rfl, rfl⟩, rfl⟩
  | FillRectDecal pos size col =>
    refine ⟨[_], rfl, ?_, rfl⟩
    intro di hdi; rw [List.mem_singleton] at hdi; subst hdi
    exact ⟨⟨rfl, rfl, rfl, rfl⟩, rfl⟩
  | GradientFillRectDecal pos size c1 c2 c3 c4 =>
    refine ⟨[_], rfl, ?_, rfl⟩
    intro di hdi; rw [List.mem_singleton] at hdi; subst hdi
    exact ⟨⟨rfl, rfl, rfl, rfl⟩, rfl⟩
  | DrawRotatedDecal pos decal fAngle center scale tint =>
    refine ⟨[_], rfl, ?_, rfl⟩
    intro di hdi; rw [List.mem_singleton] at hdi; subst hdi
    exact ⟨⟨rfl, rfl, rfl, rfl⟩, rfl⟩
  | DrawPartialRotatedDecal pos decal fAngle center sp ss scale tint =>
    refine ⟨[_], rfl, ?_, rfl⟩
    intro di hdi; rw [List.mem_singleton] at hdi; subst hdi
    exact ⟨⟨rfl, rfl, rfl, rfl⟩, rfl⟩
  | DrawPartialWarpedDecal decal pos sp ss tint =>
    by_cases h : warpRd pos = 0
    · refine ⟨[], by simp [DrawCall.dropped, h], by simp, ?_⟩
      have : e.draw fl (DrawCall.DrawPartialWarpedDecal decal pos sp ss tint) = e := by
        simp [draw, GameEngine.DrawPartialWarpedDecal, h]
      rw [this]; exact hnil
    · have hd : e.draw fl (DrawCall.DrawPartialWarpedDecal decal pos sp ss tint)
          = GameEngine.DrawPartialWarpedDecal fl e decal pos sp ss tint := rfl
      rw [hd]
      simp only [GameEngine.DrawPartialWarpedDecal, ne_eq, h, not_false_eq_true, if_true]
      refine ⟨[_], by simp [DrawCall.dropped, h], ?_, rfl⟩
      intro di hdi; rw [List.mem_singleton] at hdi; subst hdi
      exact ⟨⟨rfl, rfl, rfl, rfl⟩, rfl⟩
  | DrawWarpedDecal decal pos tint =>
    by_cases h : warpRd pos = 0
    · refine ⟨[], by simp [DrawCall.dropped, h], by simp, ?_⟩
      have : e.draw fl (DrawCall.DrawWarpedDecal decal pos tint) = e := by
        simp [draw, GameEngine.DrawWarpedDecal, h]
      rw [this]; exact hnil
    · have hd : e.draw fl (DrawCall.DrawWarpedDecal decal pos tint)
          = GameEngine.DrawWarpedDecal fl e decal pos tint := rfl
      rw [hd]
      simp only [GameEngine.DrawWarpedDecal, ne_eq, h, not_false_eq_true, if_true]
      refine ⟨[_], by simp [DrawCall.dropped, h], ?_, rfl⟩
      intro di hdi; rw [List.mem_singleton] at hdi; subst hdi
      exact ⟨⟨rfl, rfl, rfl, rfl⟩, rfl⟩

end GameEngine

theorem map_eq_map_range {β : Type} (L : List LayerDesc) (f : LayerDesc → List β) :
    L.map f = (List.range L.length).map (fun i => match L[i]? with
      | some l => f l
      | none => []) := by
  apply List.ext_getElem
  · simp
  · intro i h1 h2
    simp only [List.length_map] at h1
    simp [h1]

namespace GameEngine

theorem layerSubmits_at (e : GameEngine) (i : Nat) :
    (match e.vLayers[i]? with
      | some l => layerSubmits l
      | none => []) =
    if e.layerShown i = true ∧ e.layerHooked i = false then e.batch i else [] := by
  unfold layerShown layerHooked batch layerSubmits
  cases h : e.vLayers[i]? with
  | none => simp
  | some l => cases hf : l.funcHook <;> simp [hf]

theorem display_submitted_by_index (e : GameEngine) :
    ∃ tr, (alo_CoreUpdate_display e).renderer = e.renderer ++ tr ∧
      submitted tr =
        ((List.range e.vLayers.length).reverse.map (fun i =>
          if (i = 0 ∨ e.layerShown i = true) ∧ e.layerHooked i = false
          then e.batch i else [])).flatten := by
  obtain ⟨tr, h1, h2⟩ := display_renderer e
  refine ⟨tr, h1, ?_⟩
  rw [h2, List.map_reverse, map_eq_map_range, ← List.map_reverse]
  have hlen : (alo_CoreUpdate_prepare e).vLayers.length = e.vLayers.length := by
    rw [prepare_layers, modifyAt_length]
  rw [hlen]
  congr 1
  apply List.map_congr_left
  intro i hi
  rw [List.mem_reverse, List.mem_range] at hi
  rw [layerSubmits_at, prepare_layerShown e i hi, prepare_layerHooked, prepare_batch]
  simp only [Bool.or_eq_true, decide_eq_true_eq]

end GameEngine

theorem snap_floor_half (a V : ℚ) (hV : 0 < V) :
    |((⌊a * V + 1 / 2⌋ : Int) : ℚ) / V - a| ≤ 1 / (2 * V) := by
  have h1 := Int.floor_le (a * V + 1 / 2)
  have h2 := Int.lt_floor_add_one (a * V + 1 / 2)
  have he : ((⌊a * V + 1 / 2⌋ : Int) : ℚ) / V - a
      = (((⌊a * V + 1 / 2⌋ : Int) : ℚ) - a * V) / V := by
    field_simp
    ring
  have hr : 1 / (2 * V) = (1 / 2) / V := by field_simp
  have hb : |((⌊a * V + 1 / 2⌋ : Int) : ℚ) - a * V| ≤ 1 / 2 := by
    rw [abs_le]; constructor <;> linarith
  rw [he, abs_div, abs_of_pos hV, hr]
  gcongr

theorem snap_ceil_plus_half (a V : ℚ) (hV : 0 < V) :
    1 / (2 * V) ≤ ((⌈a * V + 1 / 2⌉ : Int) : ℚ) / V - a ∧
    ((⌈a * V + 1 / 2⌉ : Int) : ℚ) / V - a < 3 / (2 * V) := by
  have h1 := Int.le_ceil (a * V + 1 / 2)
  have h2 := Int.ceil_lt_add_one (a * V + 1 / 2)
  have he : ((⌈a * V + 1 / 2⌉ : Int) : ℚ) / V - a
      = (((⌈a * V + 1 / 2⌉ : Int) : ℚ) - a * V) / V := by
    field_simp
    ring
  have hr1 : 1 / (2 * V) = (1 / 2) / V := by field_simp
  have hr3 : 3 / (2 * V) = (3 / 2) / V := by field_simp
  have hlo : (1 / 2 : ℚ) ≤ ((⌈a * V + 1 / 2⌉ : Int) : ℚ) - a * V := by linarith
  have hhi : ((⌈a * V + 1 / 2⌉ : Int) : ℚ) - a * V < 3 / 2 := by linarith
  rw [he, hr1, hr3]
  constructor
  · gcongr
  · gcongr

theorem snap_ceil_minus_half (a V : ℚ) (hV : 0 < V) :
    -(1 / (2 * V)) ≤ ((⌈a * V + -(1 / 2)⌉ : Int) : ℚ) / V - a ∧
    ((⌈a * V + -(1 / 2)⌉ : Int) : ℚ) / V - a < 1 / (2 * V) := by
  have h1 := Int.le_ceil (a * V + -(1 / 2))
  have h2 := Int.ceil_lt_add_one (a * V + -(1 / 2))
  have he : ((⌈a * V + -(1 / 2)⌉ : Int) : ℚ) / V - a
      = (((⌈a * V + -(1 / 2)⌉ : Int) : ℚ) - a * V) / V := by
    field_simp
    ring
  have hr1 : 1 / (2 * V) = (1 / 2) / V := by field_simp
  have hr2 : -(1 / (2 * V)) = (-(1 / 2)) / V := by field_simp
  have hlo : (-(1 / 2) : ℚ) ≤ ((⌈a * V + -(1 / 2)⌉ : Int) : ℚ) - a * V := by linarith
  have hhi : ((⌈a * V + -(1 / 2)⌉ : Int) : ℚ) - a * V < 1 / 2 := by linarith
  rw [he, hr2, hr1]
  constructor
  · gcongr
  · gcongr

namespace GameEngine

theorem DrawPartialDecal_batch (e0 e : GameEngine) (W H pw ph : Int) (fs vs co : Bool)
    (hinv : e.vInvScreenSize = (e0.Construct W H pw ph fs vs co).2.vInvScreenSize)
    (ht : e.nTargetLayer < e.vLayers.length) (Vx Vy : Int) (hview : e.vViewSize = ⟨Vx, Vy⟩)
    (pos : vf2d) (decal : Decal) (source_pos source_size scale : vf2d) (tint : Pixel) :
    ∃ di, (e.DrawPartialDecal pos decal source_pos source_size scale tint).batch e.nTargetLayer
        = e.batch e.nTargetLayer ++ [di] ∧
      di.pos =
        [⟨((⌊(specNdc W H pos).x * Vx + 1 / 2⌋ : Int) : ℚ) / Vx,
          ((⌊(specNdc W H pos).y * Vy + 1 / 2⌋ : Int) : ℚ) / Vy⟩,
         ⟨((⌊(specNdc W H pos).x * Vx + 1 / 2⌋ : Int) : ℚ) / Vx,
          ((⌈(specNdc W H (pos.add (source_size.mul scale))).y * Vy + -(1 / 2)⌉ : Int) : ℚ) / Vy⟩,
         ⟨((⌈(specNdc W H (pos.add (source_size.mul scale))).x * Vx + 1 / 2⌉ : Int) : ℚ) / Vx,
          ((⌈(specNdc W H (pos.add (source_size.mul scale))).y * Vy + -(1 / 2)⌉ : Int) : ℚ) / Vy⟩,
         ⟨((⌈(specNdc W H (pos.add (source_size.mul scale))).x * Vx + 1 / 2⌉ : Int) : ℚ) / Vx,
          ((⌊(specNdc W H pos).y * Vy + 1 / 2⌋ : Int) : ℚ) / Vy⟩] := by
  have h : e.vInvScreenSize = ⟨1 / (W : ℚ), 1 / (H : ℚ)⟩ := by
    rw [hinv]; simp only [GameEngine.Construct]; split_ifs <;> rfl
  unfold GameEngine.DrawPartialDecal
  rw [batch_pushDecalInstance, if_pos ⟨rfl, ht⟩]
  refine ⟨_, rfl, ?_⟩
  have e1 : pos.x * (1 / (W : ℚ)) * 2 - 1 = (specNdc W H pos).x := by
    simp only [specNdc]; ring
  have e2 : -(pos.y * (1 / (H : ℚ)) * 2 - 1) = (specNdc W H pos).y := by
    simp only [specNdc]; ring
  have e3 : (pos.x + source_size.x * scale.x) * (1 / (W : ℚ)) * 2 - 1
      = (specNdc W H (pos.add (source_size.mul scale))).x := by
    simp only [specNdc, vf2d.add, vf2d.mul]; ring
  have e4 : -((pos.y + source_size.y * scale.y) * (1 / (H : ℚ)) * 2 - 1)
      = (specNdc W H (pos.add (source_size.mul scale))).y := by
    simp only [specNdc, vf2d.add, vf2d.mul]; ring
  simp only [h, hview, vf2d.mul, vf2d.add, vf2d.floor, vf2d.ceil, vf2d.div, e1, e2]
  simp only [vf2d.mul, vf2d.add] at e3 e4
  simp only [e3, e4]

end GameEngine

theorem viewEngine_vViewSize : viewEngine.vViewSize = ⟨100, 100⟩ := by
  norm_num [viewEngine, startedEngine, GameEngine.CreateLayer, GameEngine.alo_UpdateWindowSize,
    GameEngine.alo_UpdateViewport, GameEngine.Construct, truncToInt]

theorem viewEngine_vInvScreenSize :
    viewEngine.vInvScreenSize
      = (({} : GameEngine).Construct 100 100 1 1 false false false).2.vInvScreenSize := by
  simp only [viewEngine, startedEngine, GameEngine.CreateLayer, GameEngine.alo_UpdateWindowSize,
    GameEngine.alo_UpdateViewport]
  split_ifs <;> rfl

theorem viewEngine_target : viewEngine.nTargetLayer = 0 ∧ viewEngine.vLayers.length = 1 := by
  simp only [viewEngine, startedEngine, GameEngine.CreateLayer, GameEngine.alo_UpdateWindowSize,
    GameEngine.alo_UpdateViewport]
  split_ifs <;> exact ⟨rfl, rfl⟩

namespace GameEngine

/-- When `CreateGraphics` does not fail, `alo_PrepareEngine` on an engine without layers
leaves exactly layer 0, shown and dirty, selected as draw target. -/
theorem alo_PrepareEngine_creates_layer0 (e : GameEngine) (CreateGraphics : rcode)
    (fontTexId layerTexId : Int) (fontSprite : Sprite) (hcg : CreateGraphics ≠ rcode.FAIL)
    (he : e.vLayers = []) :
    ∃ l0, (e.alo_PrepareEngine CreateGraphics fontTexId layerTexId fontSprite).vLayers = [l0] ∧
      l0.bShow = true ∧ l0.bUpdate = true ∧
      (e.alo_PrepareEngine CreateGraphics fontTexId layerTexId fontSprite).nTargetLayer = 0 ∧
      (e.alo_PrepareEngine CreateGraphics fontTexId layerTexId fontSprite).pDrawTarget
        = DrawTarget.layer 0 := by
  unfold alo_PrepareEngine
  rw [if_neg hcg]
  simp [CreateLayer, alo_ConstructFontSheet, SetDrawTargetSprite, he, modifyAt]

theorem alo_PrepareEngine_fail (e : GameEngine) (fontTexId layerTexId : Int)
    (fontSprite : Sprite) :
    e.alo_PrepareEngine rcode.FAIL fontTexId layerTexId fontSprite = e := by
  unfold alo_PrepareEngine
  rw [if_pos rfl]

end GameEngine

theorem startedEngine_state : startedEngine.vLayers = [] ∧ startedEngine.bAtomActive = true := by
  simp only [startedEngine, GameEngine.alo_UpdateWindowSize, GameEngine.alo_UpdateViewport]
  split_ifs <;> first | exact ⟨rfl, rfl⟩ | exact ⟨rfl, trivial⟩

theorem mulF_one (p : Pixel) (hp : p.Valid) : p.mulF 1 = p := by
  have key : ∀ n : Nat, n < 256 → toUInt8 (min 255 (max 0 ((n : ℚ) * 1))) = n := by
    intro n hn
    have h0 : (0 : ℚ) ≤ (n : ℚ) := Nat.cast_nonneg n
    have hle : (n : ℚ) ≤ 255 := by exact_mod_cast Nat.lt_succ_iff.mp hn
    rw [mul_one, max_eq_right h0, min_eq_right hle]
    exact toUInt8_eq _ n hn le_rfl (by linarith)
  obtain ⟨hr, hg, hb, _⟩ := hp
  simp only [Pixel.mulF, key _ hr, key _ hg, key _ hb]

theorem mulF_zero (p : Pixel) : p.mulF 0 = ⟨0, 0, 0, p.a⟩ := by
  have key : toUInt8 (min 255 (max 0 (0 : ℚ))) = 0 := by
    rw [max_self, min_eq_right (by norm_num)]
    exact toUInt8_eq 0 0 (by norm_num) (by norm_num) (by norm_num)
  simp only [Pixel.mulF, mul_zero, key]

theorem add_black_left (p : Pixel) (a : Nat) (hp : p.Valid) :
    Pixel.add ⟨0, 0, 0, a⟩ p = ⟨p.r, p.g, p.b, a⟩ := by
  obtain ⟨hr, hg, hb, _⟩ := hp
  simp only [Pixel.add, Pixel.mk.injEq, and_true]
  refine ⟨?_, ?_, ?_⟩ <;> omega

theorem add_black_right (p : Pixel) (a : Nat) (hp : p.Valid) :
    Pixel.add p ⟨0, 0, 0, a⟩ = p := by
  obtain ⟨hr, hg, hb, _⟩ := hp
  cases p
  simp only [Pixel.add, Pixel.mk.injEq, and_true] at *
  refine ⟨?_, ?_, ?_⟩ <;> omega

theorem PixelLerp_at_one (p1 p2 : Pixel) (h2 : p2.Valid) : PixelLerp p1 p2 1 = p2 := by
  unfold PixelLerp
  rw [mulF_one p2 h2, sub_self, mulF_zero, add_black_right p2 _ h2]

theorem PixelLerp_at_zero (p1 p2 : Pixel) (h1 : p1.Valid) :
    PixelLerp p1 p2 0 = ⟨p1.r, p1.g, p1.b, p2.a⟩ := by
  unfold PixelLerp
  rw [sub_zero, mulF_one p1 h1, mulF_zero, add_black_left p1 _ h1]
theorem abs_tmod_bounds (a b : Int) (hb : 1 ≤ b) : 0 ≤ |a.tmod b| ∧ |a.tmod b| < b := by
  refine ⟨abs_nonneg _, ?_⟩
  rw [abs_tmod_eq]
  have h1 : 0 < b.natAbs := by omega
  have h2 := Nat.mod_lt a.natAbs h1
  omega

theorem index_in_bounds (w h a b : Int) (ha0 : 0 ≤ a) (ha : a < h) (hb0 : 0 ≤ b)
    (hb : b < w) : 0 ≤ a * w + b ∧ a * w + b < w * h := by
  constructor
  · nlinarith
  · nlinarith

theorem readData_in_bounds (s : Sprite) (i : Int) (hs : s.WellFormed) (h0 : 0 ≤ i)
    (h1 : i < s.width * s.height) :
    s.readData i = s.pColData[i.toNat]? ∧ (s.readData i).isSome := by
  obtain ⟨_, _, hlen⟩ := hs
  have hlt : i.toNat < s.pColData.length := by omega
  have hr : s.readData i = s.pColData[i.toNat]? := by
    simp [Sprite.readData, not_lt.mpr h0]
  refine ⟨hr, ?_⟩
  rw [hr]
  simp [hlt]

theorem fmod1_lt_one (t : ℚ) : fmod1 t < 1 := by
  unfold fmod1 truncToInt
  split_ifs with h
  · have := Int.lt_floor_add_one t
    linarith
  · have := Int.le_ceil t
    linarith

namespace Palette

theorem scan_isSome_iff (i : ℚ) (prev : Option (ℚ × Pixel)) (l : List (ℚ × Pixel)) :
    (scan i prev l).isSome ↔ ∃ e ∈ l, i ≤ e.1 := by
  induction l generalizing prev with
  | nil => simp [scan]
  | cons e rest ih =>
    unfold scan
    by_cases h : i > e.1
    · rw [if_pos h, ih]
      constructor
      · rintro ⟨x, hx, hix⟩
        exact ⟨x, List.mem_cons_of_mem _ hx, hix⟩
      · rintro ⟨x, hx, hix⟩
        rcases List.mem_cons.mp hx with rfl | hx
        · exact absurd hix (not_le.mpr h)
        · exact ⟨x, hx, hix⟩
    · rw [if_neg h]
      simp only [Option.isSome_some, true_iff]
      exact ⟨e, List.mem_cons_self _ _, not_lt.mp h⟩

theorem scan_stock_isSome (stock : PaletteStock) (hs : stock ≠ PaletteStock.Empty) (t : ℚ) :
    (scan (fmod1 t) none (ofStock stock).vColors).isSome := by
  rw [scan_isSome_iff]
  have h := (fmod1_lt_one t).le
  cases stock with
  | Empty => exact absurd rfl hs
  | Greyscale => exact ⟨(1, WHITE), by simp [ofStock], h⟩
  | ColdHot => exact ⟨(1, YELLOW), by simp [ofStock], h⟩
  | Spectrum => exact ⟨(6 / 6, VERY_DARK_BLUE), by simp [ofStock], by simpa using h⟩

theorem lowPalette_vColors : lowPalette.vColors = [(1 / 5, RED), (1 / 2, BLUE)] := by
  norm_num [lowPalette, SetColour, ofStock, clamp01, List.insertionSort, List.orderedInsert]

theorem replaceFirst_map_fst (i : ℚ) (col : Pixel) (l : List (ℚ × Pixel)) :
    (replaceFirst i col l).map Prod.fst = l.map Prod.fst := by
  induction l with
  | nil => rfl
  | cons e rest ih =>
    unfold replaceFirst
    split_ifs
    · rfl
    · simp only [List.map_cons, ih]

theorem replaceFirst_eq_map (i : ℚ) (col : Pixel) (l : List (ℚ × Pixel))
    (h : l.Pairwise (fun a b => a.1 < b.1)) :
    replaceFirst i col l = l.map (fun e => if e.1 = i then (e.1, col) else e) := by
  induction l with
  | nil => rfl
  | cons e rest ih =>
    obtain ⟨h1, h2⟩ := List.pairwise_cons.mp h
    unfold replaceFirst
    by_cases he : e.1 = i
    · rw [if_pos he, List.map_cons, if_pos he]
      congr 1
      symm
      conv_rhs => rw [← List.map_id rest]
      apply List.map_congr_left
      intro x hx
      have := h1 x hx
      rw [if_neg (by rw [← he]; exact ne_of_gt this)]
      rfl
    · rw [if_neg he, List.map_cons, if_neg he, ih h2]

theorem pairwise_fst_iff (l : List (ℚ × Pixel)) :
    l.Pairwise (fun a b => a.1 < b.1) ↔ (l.map Prod.fst).Pairwise (· < ·) := by
  rw [List.pairwise_map]

theorem clamp01_unit (d : ℚ) : 0 ≤ clamp01 d ∧ clamp01 d ≤ 1 := by
  unfold clamp01
  split_ifs with h1 h2
  · exact ⟨le_rfl, by norm_num⟩
  · exact ⟨by norm_num, le_rfl⟩
  · exact ⟨not_lt.mp h1, not_lt.mp h2⟩

theorem SetColour_sorted (p : Palette) (d : ℚ) (col : Pixel)
    (h : p.vColors.Pairwise (fun a b => a.1 < b.1)) :
    (p.SetColour d col).vColors.Pairwise (fun a b => a.1 < b.1) := by
  unfold SetColour
  simp only
  split_ifs with hany
  · rw [pairwise_fst_iff, replaceFirst_map_fst, ← pairwise_fst_iff]
    exact h
  · have hnot : ∀ e ∈ p.vColors, e.1 ≠ clamp01 d := by
      intro e he heq
      apply hany
      rw [List.any_eq_true]
      exact ⟨e, he, by simpa using heq⟩
    haveI : IsTotal (ℚ × Pixel) (fun p1 p2 => p1.1 ≤ p2.1) := ⟨fun a b => le_total a.1 b.1⟩
    haveI : IsTrans (ℚ × Pixel) (fun p1 p2 => p1.1 ≤ p2.1) :=
      ⟨fun a b c hab hbc => le_trans hab hbc⟩
    have hsorted := List.sorted_insertionSort (fun p1 p2 : ℚ × Pixel => p1.1 ≤ p2.1)
      (p.vColors ++ [(clamp01 d, col)])
    have hperm := List.perm_insertionSort (fun p1 p2 : ℚ × Pixel => p1.1 ≤ p2.1)
      (p.vColors ++ [(clamp01 d, col)])
    have hne : (p.vColors ++ [(clamp01 d, col)]).Pairwise (fun a b => a.1 ≠ b.1) := by
      rw [List.pairwise_append]
      refine ⟨h.imp (fun hab => ne_of_lt hab), List.pairwise_singleton _ _, ?_⟩
      intro a ha b hb
      rw [List.mem_singleton] at hb
      rw [hb]
      exact hnot a ha
    have hne2 : ((p.vColors ++ [(clamp01 d, col)]).insertionSort
        (fun p1 p2 => p1.1 ≤ p2.1)).Pairwise (fun a b => a.1 ≠ b.1) :=
      (hperm.pairwise_iff (fun hab => Ne.symm hab)).mpr hne
    exact (List.Pairwise.and hsorted hne2).imp (fun hab => lt_of_le_of_ne hab.1 hab.2)

theorem SetColour_unit (p : Palette) (d : ℚ) (col : Pixel)
    (h : ∀ e ∈ p.vColors, 0 ≤ e.1 ∧ e.1 ≤ 1) :
    ∀ e ∈ (p.SetColour d col).vColors, 0 ≤ e.1 ∧ e.1 ≤ 1 := by
  have hfst : ∀ l : List (ℚ × Pixel), (∀ e ∈ l, 0 ≤ e.1 ∧ e.1 ≤ 1) ↔
      ∀ x ∈ l.map Prod.fst, 0 ≤ x ∧ x ≤ 1 := by
    intro l
    simp
  unfold SetColour
  simp only
  split_ifs with hany
  · rw [hfst, replaceFirst_map_fst, ← hfst]
    exact h
  · intro e he
    have hperm := List.perm_insertionSort (fun p1 p2 : ℚ × Pixel => p1.1 ≤ p2.1)
      (p.vColors ++ [(clamp01 d, col)])
    rw [hperm.mem_iff, List.mem_append, List.mem_singleton] at he
    rcases he with he | rfl
    · exact h e he
    · exact clamp01_unit d

theorem ofStock_sorted_unit (stock : PaletteStock) :
    (ofStock stock).vColors.Pairwise (fun a b => a.1 < b.1) ∧
    ∀ e ∈ (ofStock stock).vColors, 0 ≤ e.1 ∧ e.1 ≤ 1 := by
  cases stock <;> constructor <;> norm_num [ofStock]

theorem SetColours_sorted_unit (p : Palette) (calls : List (ℚ × Pixel))
    (h1 : p.vColors.Pairwise (fun a b => a.1 < b.1))
    (h2 : ∀ e ∈ p.vColors, 0 ≤ e.1 ∧ e.1 ≤ 1) :
    (p.SetColours calls).vColors.Pairwise (fun a b => a.1 < b.1) ∧
    ∀ e ∈ (p.SetColours calls).vColors, 0 ≤ e.1 ∧ e.1 ≤ 1 := by
  induction calls generalizing p with
  | nil => exact ⟨h1, h2⟩
  | cons c rest ih =>
    exact ih (p.SetColour c.1 c.2) (SetColour_sorted p c.1 c.2 h1) (SetColour_unit p c.1 c.2 h2)

end Palette

namespace GameEngine

end GameEngine

theorem truncToInt_intCast (n : Int) : truncToInt (n : ℚ) = n := by
  unfold truncToInt
  split_ifs <;> simp

namespace QuickGUI

theorem CheckBox.DrawDecal_bChecked (c : CheckBox) (b : Bool) (m : Manager)
    (f : String → vi2d) :
    CheckBox.DrawDecal { c with bChecked := b } m f = c.DrawDecal m f := rfl

end QuickGUI

theorem vKeyboardMap_single_chars :
    ∀ key ∈ vKeyboardMap, key.2.1.length = 1 ∧ key.2.2.length = 1 := by
  decide

theorem strInsert_valid (s t : String) (pos : Int) (h0 : 0 ≤ pos)
    (h1 : pos ≤ (s.length : Int)) :
    ∃ r, strInsert s pos t = some r ∧ r.length = s.length + t.length := by
  refine ⟨_, by rw [strInsert, if_pos ⟨h0, h1⟩], ?_⟩
  have hp : pos.toNat ≤ s.data.length := by
    have : s.length = s.data.length := rfl
    omega
  simp only [String.length, List.length_append, List.length_take, List.length_drop]
  omega

theorem strErase_valid (s : String) (pos : Int) (h0 : 0 ≤ pos)
    (h1 : pos < (s.length : Int)) :
    ∃ r, strErase s pos = some r ∧ r.length + 1 = s.length := by
  refine ⟨_, by rw [strErase, if_pos ⟨h0, le_of_lt h1⟩], ?_⟩
  have hp : pos.toNat < s.data.length := by
    have : s.length = s.data.length := rfl
    omega
  simp only [String.length, List.length_append, List.length_take, List.length_drop]
  omega

namespace TextEntry

theorem typeKey_valid (GetKey : Key → HWButton) (st : TextEntry)
    (key : Key × String × String) (hk : key.2.1.length = 1 ∧ key.2.2.length = 1)
    (hc : st.CursorValid) (hh : st.HistoryValid) :
    ∃ st1, typeKey GetKey st key = some st1 ∧ st1.CursorValid ∧ st1.HistoryValid := by
  unfold typeKey
  by_cases hp : (GetKey key.1).bPressed = true
  · rw [if_pos hp]
    obtain ⟨r, hr, hlen⟩ := strInsert_valid st.sTextEntryString
      (if (GetKey Key.SHIFT).bHeld then key.2.2 else key.2.1) st.nTextEntryCursor hc.1 hc.2
    have ht : (if (GetKey Key.SHIFT).bHeld then key.2.2 else key.2.1).length = 1 := by
      split_ifs
      · exact hk.2
      · exact hk.1
    rw [hr]
    refine ⟨_, rfl, ?_, hh⟩
    obtain ⟨h0, h1⟩ := hc
    constructor
    · show 0 ≤ st.nTextEntryCursor + 1
      omega
    · show st.nTextEntryCursor + 1 ≤ (r.length : Int)
      omega
  · rw [if_neg hp]
    exact ⟨st, rfl, hc, hh⟩

theorem typeKeys_valid (GetKey : Key → HWButton) (keys : List (Key × String × String))
    (hk : ∀ key ∈ keys, key.2.1.length = 1 ∧ key.2.2.length = 1) (st : TextEntry)
    (hc : st.CursorValid) (hh : st.HistoryValid) :
    ∃ st1, keys.foldlM (typeKey GetKey) st = some st1 ∧ st1.CursorValid ∧ st1.HistoryValid := by
  induction keys generalizing st with
  | nil => exact ⟨st, rfl, hc, hh⟩
  | cons key rest ih =>
    obtain ⟨s1, h1, c1, v1⟩ :=
      typeKey_valid GetKey st key (hk key (List.mem_cons_self _ _)) hc hh
    obtain ⟨s2, h2, c2, v2⟩ :=
      ih (fun k hkm => hk k (List.mem_cons_of_mem _ hkm)) s1 c1 v1
    refine ⟨s2, ?_, c2, v2⟩
    rw [List.foldlM_cons, h1]
    exact h2

theorem keyLEFT_valid (GetKey : Key → HWButton) (st : TextEntry)
    (hc : st.CursorValid) (hh : st.HistoryValid) :
    (keyLEFT GetKey st).CursorValid ∧ (keyLEFT GetKey st).HistoryValid := by
  unfold keyLEFT
  split_ifs
  · obtain ⟨h0, h1⟩ := hc
    refine ⟨⟨?_, ?_⟩, hh⟩
    · show 0 ≤ max 0 (st.nTextEntryCursor - 1)
      exact le_max_left _ _
    · show max 0 (st.nTextEntryCursor - 1) ≤ (st.sTextEntryString.length : Int)
      omega
  · exact ⟨hc, hh⟩

theorem keyRIGHT_valid (GetKey : Key → HWButton) (st : TextEntry)
    (hc : st.CursorValid) (hh : st.HistoryValid) :
    (keyRIGHT GetKey st).CursorValid ∧ (keyRIGHT GetKey st).HistoryValid := by
  unfold keyRIGHT
  split_ifs
  · obtain ⟨h0, h1⟩ := hc
    refine ⟨⟨?_, ?_⟩, hh⟩
    · show 0 ≤ min (st.sTextEntryString.length : Int) (st.nTextEntryCursor + 1)
      omega
    · show min (st.sTextEntryString.length : Int) (st.nTextEntryCursor + 1)
        ≤ (st.sTextEntryString.length : Int)
      exact min_le_left _ _
  · exact ⟨hc, hh⟩

theorem keyBACK_valid (GetKey : Key → HWButton) (st : TextEntry)
    (hc : st.CursorValid) (hh : st.HistoryValid) :
    ∃ st1, keyBACK GetKey st = some st1 ∧ st1.CursorValid ∧ st1.HistoryValid := by
  unfold keyBACK
  split_ifs with hp
  · obtain ⟨h0, h1⟩ := hc
    obtain ⟨r, hr, hlen⟩ := strErase_valid st.sTextEntryString (st.nTextEntryCursor - 1)
      (by omega) (by omega)
    rw [hr]
    refine ⟨_, rfl, ⟨?_, ?_⟩, hh⟩
    · show 0 ≤ max 0 (st.nTextEntryCursor - 1)
      exact le_max_left _ _
    · show max 0 (st.nTextEntryCursor - 1) ≤ (r.length : Int)
      omega
  · exact ⟨st, rfl, hc, hh⟩

theorem keyDEL_valid (GetKey : Key → HWButton) (st : TextEntry)
    (hc : st.CursorValid) (hh : st.HistoryValid) :
    ∃ st1, keyDEL GetKey st = some st1 ∧ st1.CursorValid ∧ st1.HistoryValid := by
  unfold keyDEL
  split_ifs with hp
  · obtain ⟨h0, h1⟩ := hc
    obtain ⟨r, hr, hlen⟩ := strErase_valid st.sTextEntryString st.nTextEntryCursor
      hp.2.1 hp.2.2
    rw [hr]
    refine ⟨_, rfl, ⟨h0, ?_⟩, hh⟩
    show st.nTextEntryCursor ≤ (r.length : Int)
    have := hp.2.2
    omega
  · exact ⟨st, rfl, hc, hh⟩

theorem history_nonempty (st : TextEntry) (h : (!st.sCommandHistory.isEmpty) = true) :
    0 < st.sCommandHistory.length := by
  cases hl : st.sCommandHistory with
  | nil => simp [hl] at h
  | cons a as => simp

theorem keyUP_valid (GetKey : Key → HWButton) (st : TextEntry)
    (hc : st.CursorValid) (hh : st.HistoryValid) :
    ∃ st1, keyUP GetKey st = some st1 ∧ st1.CursorValid ∧ st1.HistoryValid := by
  unfold keyUP
  by_cases hp : (GetKey Key.UP).bPressed = true
  · rw [if_pos hp]
    by_cases hne : (!st.sCommandHistory.isEmpty) = true
    · rw [if_pos hne]
      have hpos := history_nonempty st hne
      have hit : (if st.sCommandHistoryIt ≠ 0 then st.sCommandHistoryIt - 1
          else st.sCommandHistoryIt) < st.sCommandHistory.length := by
        unfold HistoryValid at hh
        split_ifs <;> omega
      dsimp only
      rw [List.getElem?_eq_getElem hit]
      exact ⟨_, rfl, ⟨Int.natCast_nonneg _, le_rfl⟩, le_of_lt hit⟩
    · rw [if_neg hne]
      exact ⟨st, rfl, hc, hh⟩
  · rw [if_neg hp]
    exact ⟨st, rfl, hc, hh⟩

theorem keyDOWN_valid (GetKey : Key → HWButton) (st : TextEntry)
    (hc : st.CursorValid) (hh : st.HistoryValid) :
    ∃ st1, keyDOWN GetKey st = some st1 ∧ st1.CursorValid ∧ st1.HistoryValid := by
  unfold keyDOWN
  by_cases hp : (GetKey Key.DOWN).bPressed = true
  · rw [if_pos hp]
    by_cases hne : (!st.sCommandHistory.isEmpty) = true
    · rw [if_pos hne]
      by_cases hend : st.sCommandHistoryIt ≠ st.sCommandHistory.length
      · rw [if_pos hend]
        dsimp only
        by_cases hend2 : st.sCommandHistoryIt + 1 ≠ st.sCommandHistory.length
        · rw [if_pos hend2]
          have hit : st.sCommandHistoryIt + 1 < st.sCommandHistory.length := by
            unfold HistoryValid at hh
            omega
          rw [List.getElem?_eq_getElem hit]
          exact ⟨_, rfl, ⟨Int.natCast_nonneg _, le_rfl⟩, le_of_lt hit⟩
        · rw [if_neg hend2]
          refine ⟨_, rfl, ⟨le_rfl, Int.natCast_nonneg _⟩, ?_⟩
          show st.sCommandHistoryIt + 1 ≤ st.sCommandHistory.length
          unfold HistoryValid at hh
          omega
      · rw [if_neg hend]
        exact ⟨st, rfl, hc, hh⟩
    · rw [if_neg hne]
      exact ⟨st, rfl, hc, hh⟩
  · rw [if_neg hp]
    exact ⟨st, rfl, hc, hh⟩

theorem keyENTER_valid (GetKey : Key → HWButton) (OnConsoleCommand : String → Bool)
    (st : TextEntry) (hc : st.CursorValid) (hh : st.HistoryValid) :
    (keyENTER GetKey OnConsoleCommand st).CursorValid ∧
    (keyENTER GetKey OnConsoleCommand st).HistoryValid := by
  unfold keyENTER
  split_ifs with hp hcon hcmd
  · exact ⟨⟨le_rfl, Int.natCast_nonneg _⟩, le_rfl⟩
  · exact ⟨⟨le_rfl, Int.natCast_nonneg _⟩, hh⟩
  · exact ⟨hc, hh⟩
  · exact ⟨hc, hh⟩

theorem UpdateTextEntry_valid (GetKey : Key → HWButton) (OnConsoleCommand : String → Bool)
    (st : TextEntry) (hc : st.CursorValid) (hh : st.HistoryValid) :
    ∃ st1, UpdateTextEntry GetKey OnConsoleCommand st = some st1 ∧ st1.CursorValid ∧
      st1.HistoryValid := by
  obtain ⟨s1, e1, c1, v1⟩ := typeKeys_valid GetKey vKeyboardMap vKeyboardMap_single_chars st hc hh
  obtain ⟨c2, v2⟩ := keyLEFT_valid GetKey s1 c1 v1
  obtain ⟨c3, v3⟩ := keyRIGHT_valid GetKey _ c2 v2
  obtain ⟨s4, e4, c4, v4⟩ := keyBACK_valid GetKey _ c3 v3
  obtain ⟨s5, e5, c5, v5⟩ := keyDEL_valid GetKey s4 c4 v4
  obtain ⟨s6, e6, c6, v6⟩ := keyUP_valid GetKey s5 c5 v5
  obtain ⟨s7, e7, c7, v7⟩ := keyDOWN_valid GetKey s6 c6 v6
  obtain ⟨c8, v8⟩ := keyENTER_valid GetKey OnConsoleCommand s7 c7 v7
  refine ⟨_, ?_, c8, v8⟩
  unfold UpdateTextEntry
  simp only [e1, e4, e5, e6, e7, Option.some_bind]

end TextEntry

namespace GameEngine

end GameEngine

theorem rol_full : rol 0xFFFFFFFF = (0xFFFFFFFF, true) := by decide

theorem wrap32_eq (z : Int) (h0 : -2147483648 ≤ z) (h1 : z ≤ 2147483647) : wrap32 z = z := by
  unfold wrap32
  omega

theorem wrap32_range (z : Int) : -2147483648 ≤ wrap32 z ∧ wrap32 z ≤ 2147483647 := by
  unfold wrap32
  omega

theorem adjacent_step (x y y1 : Int) (h : y1 = y ∨ y1 = y + 1 ∨ y1 = y - 1) :
    adjacent ⟨x, y⟩ ⟨x + 1, y1⟩ := by
  unfold adjacent
  constructor
  · simp
  · show |y1 - y| ≤ 1
    rw [abs_le]
    rcases h with h | h | h <;> omega

theorem adjacent_step_y (x y x1 : Int) (h : x1 = x ∨ x1 = x + 1 ∨ x1 = x - 1) :
    adjacent ⟨x, y⟩ ⟨x1, y + 1⟩ := by
  unfold adjacent
  constructor
  · show |x1 - x| ≤ 1
    rw [abs_le]
    rcases h with h | h | h <;> omega
  · simp

theorem DrawLine_vertical_never_ends (x1 : Int) :
    ∀ (fuel : Nat) (y : Int) (pattern : Nat), y ≤ 2147483647 →
      DrawLine_vertical x1 2147483647 fuel y pattern = none := by
  intro fuel
  induction fuel with
  | zero =>
    intro y pattern _
    rfl
  | succ fuel ih =>
    intro y pattern hy
    rw [DrawLine_vertical, if_pos hy, ih _ _ (wrap32_range (y + 1)).2]
    rfl

theorem DrawLine_vertical_full (x1 y2 : Int) (hy2 : y2 ≤ 2147483646) :
    ∀ (n fuel : Nat) (y : Int), (y2 - y).toNat = n → y ≤ y2 → -2147483648 ≤ y →
      n + 1 ≤ fuel →
      ∃ l, DrawLine_vertical x1 y2 fuel (y + 1) 0xFFFFFFFF = some l ∧
        l.length = n ∧ List.Chain adjacent ⟨x1, y⟩ l ∧
        ((⟨x1, y⟩ : vi2d) :: l).getLast? = some ⟨x1, y2⟩ := by
  intro n
  induction n with
  | zero =>
    intro fuel y hn hy hlo hf
    obtain ⟨f, rfl⟩ : ∃ f, fuel = f + 1 := ⟨fuel - 1, by omega⟩
    have hy2e : y = y2 := by omega
    subst hy2e
    rw [DrawLine_vertical, if_neg (by omega)]
    exact ⟨[], rfl, rfl, List.Chain.nil, rfl⟩
  | succ n ih =>
    intro fuel y hn hy hlo hf
    obtain ⟨f, rfl⟩ : ∃ f, fuel = f + 1 := ⟨fuel - 1, by omega⟩
    have hlt : y + 1 ≤ y2 := by omega
    obtain ⟨l, h0, h1, h2, h3⟩ := ih f (y + 1) (by omega) hlt (by omega) (by omega)
    rw [DrawLine_vertical, if_pos hlt, rol_full, wrap32_eq (y + 1 + 1) (by omega) (by omega), h0]
    refine ⟨(⟨x1, y + 1⟩ : vi2d) :: l, rfl, by rw [List.length_cons, h1],
      List.Chain.cons (adjacent_step_y x1 y x1 (Or.inl rfl)) h2, ?_⟩
    rw [List.getLast?_cons_cons]
    exact h3

theorem DrawLine_horizontal_full (y1 x2 : Int) (hx2 : x2 ≤ 2147483646) :
    ∀ (n fuel : Nat) (x : Int), (x2 - x).toNat = n → x ≤ x2 → -2147483648 ≤ x →
      n + 1 ≤ fuel →
      ∃ l, DrawLine_horizontal y1 x2 fuel (x + 1) 0xFFFFFFFF = some l ∧
        l.length = n ∧ List.Chain adjacent ⟨x, y1⟩ l ∧
        ((⟨x, y1⟩ : vi2d) :: l).getLast? = some ⟨x2, y1⟩ := by
  intro n
  induction n with
  | zero =>
    intro fuel x hn hx hlo hf
    obtain ⟨f, rfl⟩ : ∃ f, fuel = f + 1 := ⟨fuel - 1, by omega⟩
    have hx2e : x = x2 := by omega
    subst hx2e
    rw [DrawLine_horizontal, if_neg (by omega)]
    exact ⟨[], rfl, rfl, List.Chain.nil, rfl⟩
  | succ n ih =>
    intro fuel x hn hx hlo hf
    obtain ⟨f, rfl⟩ : ∃ f, fuel = f + 1 := ⟨fuel - 1, by omega⟩
    have hlt : x + 1 ≤ x2 := by omega
    obtain ⟨l, h0, h1, h2, h3⟩ := ih f (x + 1) (by omega) hlt (by omega) (by omega)
    rw [DrawLine_horizontal, if_pos hlt, rol_full, wrap32_eq (x + 1 + 1) (by omega) (by omega),
      h0]
    refine ⟨(⟨x + 1, y1⟩ : vi2d) :: l, rfl, by rw [List.length_cons, h1],
      List.Chain.cons (adjacent_step x y1 y1 (Or.inl rfl)) h2, ?_⟩
    rw [List.getLast?_cons_cons]
    exact h3

theorem DrawLine_vertical_path (x1 ya yb : Int) (fuel : Nat) (h : ya ≤ yb)
    (hlo : -2147483648 ≤ ya) (hhi : yb ≤ 2147483646) (hf : yb - ya + 2 ≤ (fuel : Int)) :
    ∃ l, DrawLine_vertical x1 yb fuel ya 0xFFFFFFFF = some l ∧
      IsPixelPath l ⟨x1, ya⟩ ⟨x1, yb⟩ (yb - ya) := by
  obtain ⟨f, rfl⟩ : ∃ f, fuel = f + 1 := ⟨fuel - 1, by omega⟩
  obtain ⟨l, h0, a, b, c⟩ := DrawLine_vertical_full x1 yb hhi (yb - ya).toNat f ya rfl h hlo
    (by omega)
  rw [DrawLine_vertical, if_pos h, rol_full, wrap32_eq (ya + 1) (by omega) (by omega), h0]
  refine ⟨(⟨x1, ya⟩ : vi2d) :: l, rfl, ?_, rfl, c, b⟩
  rw [List.length_cons, a]
  push_cast
  omega

theorem DrawLine_horizontal_path (y1 xa xb : Int) (fuel : Nat) (h : xa ≤ xb)
    (hlo : -2147483648 ≤ xa) (hhi : xb ≤ 2147483646) (hf : xb - xa + 2 ≤ (fuel : Int)) :
    ∃ l, DrawLine_horizontal y1 xb fuel xa 0xFFFFFFFF = some l ∧
      IsPixelPath l ⟨xa, y1⟩ ⟨xb, y1⟩ (xb - xa) := by
  obtain ⟨f, rfl⟩ : ∃ f, fuel = f + 1 := ⟨fuel - 1, by omega⟩
  obtain ⟨l, h0, a, b, c⟩ := DrawLine_horizontal_full y1 xb hhi (xb - xa).toNat f xa rfl h hlo
    (by omega)
  rw [DrawLine_horizontal, if_pos h, rol_full, wrap32_eq (xa + 1) (by omega) (by omega), h0]
  refine ⟨(⟨xa, y1⟩ : vi2d) :: l, rfl, ?_, rfl, c, b⟩
  rw [List.length_cons, a]
  push_cast
  omega

theorem bresenham_minor_count (a b t : Int) (ha : 0 < a)
    (hlo : 2 * b - 2 * a ≤ 2 * b * (a + 1) - a * (2 * t + 1))
    (hhi : 2 * b * (a + 1) - a * (2 * t + 1) < 2 * b) : t = b := by
  have e : 2 * b * (a + 1) - a * (2 * t + 1) = 2 * b + a * (2 * b - 2 * t - 1) := by ring
  rw [e] at hlo hhi
  have hu1 : 2 * b - 2 * t - 1 < 0 := by
    by_contra h
    push_neg at h
    have := mul_nonneg ha.le h
    linarith
  have hu2 : 0 ≤ 2 * b - 2 * t - 1 + 2 := by
    by_contra h
    push_neg at h
    have := mul_neg_of_pos_of_neg ha h
    have e2 : a * (2 * b - 2 * t - 1 + 2) = a * (2 * b - 2 * t - 1) + 2 * a := by ring
    linarith
  omega

theorem bresenham_minor_count_steep (a b t : Int) (ha : 0 < a)
    (hlo : 2 * b - 2 * a < 2 * b * (a + 1) - a * (2 * t + 1))
    (hhi : 2 * b * (a + 1) - a * (2 * t + 1) ≤ 2 * b) : t = b := by
  have e : 2 * b * (a + 1) - a * (2 * t + 1) = 2 * b + a * (2 * b - 2 * t - 1) := by ring
  rw [e] at hlo hhi
  have hu1 : 2 * b - 2 * t - 1 ≤ 0 := by
    by_contra h
    push_neg at h
    have := mul_pos ha h
    linarith
  have hu2 : 0 < 2 * b - 2 * t - 1 + 2 := by
    by_contra h
    push_neg at h
    have := mul_nonpos_of_nonneg_of_nonpos ha.le h
    have e2 : a * (2 * b - 2 * t - 1 + 2) = a * (2 * b - 2 * t - 1) + 2 * a := by ring
    linarith
  omega

theorem bresenham_minor_step (a b m t : Int) (ha : 0 < a) (hb : 0 ≤ b) (hm : m ≤ a)
    (h : 0 < 2 * b * m - a * (2 * t + 1) + a) : t + 1 ≤ b := by
  have h1 : 2 * b * m ≤ 2 * b * a := mul_le_mul_of_nonneg_left hm (by linarith)
  have h2 : 0 < a * (2 * b - 2 * t) := by
    have e : a * (2 * b - 2 * t) = 2 * b * a - a * (2 * t + 1) + a := by ring
    rw [e]
    linarith
  have h3 : 0 < 2 * b - 2 * t := by
    by_contra hc
    push_neg at hc
    have := mul_nonpos_of_nonneg_of_nonpos ha.le hc
    linarith
  omega

theorem lineStep_cases (dx dy : Int) : lineStep dx dy = 1 ∨ lineStep dx dy = -1 := by
  unfold lineStep
  split_ifs
  · exact Or.inl rfl
  · exact Or.inr rfl

theorem minor_in_range (y0 s t d : Int) (hs : s = 1 ∨ s = -1) (h0 : 0 ≤ t) (ht : t ≤ d)
    (hy0 : -2147483648 ≤ y0 ∧ y0 ≤ 2147483647)
    (hyE : -2147483648 ≤ y0 + s * d ∧ y0 + s * d ≤ 2147483647) :
    -2147483648 ≤ y0 + s * t ∧ y0 + s * t ≤ 2147483647 := by
  rcases hs with rfl | rfl <;> constructor <;> omega

theorem DrawLine_shallow_full (dx dy dx1 dy1 xe x0 y0 : Int) (h0 : 0 ≤ dy1)
    (h1 : dy1 ≤ dx1) (hpos : 0 < dx1) (hbig : dx1 ≤ 1073741823) (hxe : xe = x0 + dx1)
    (hx0 : -2147483648 ≤ x0) (hxE : xe ≤ 2147483647)
    (hy0 : -2147483648 ≤ y0 ∧ y0 ≤ 2147483647)
    (hyE : -2147483648 ≤ y0 + lineStep dx dy * dy1 ∧ y0 + lineStep dx dy * dy1 ≤ 2147483647) :
    ∀ (n fuel : Nat) (x y px t : Int), (xe - x).toNat = n → x0 ≤ x → x ≤ xe →
      y = y0 + lineStep dx dy * t → 0 ≤ t → t ≤ dy1 →
      px = 2 * dy1 * (x - x0 + 1) - dx1 * (2 * t + 1) →
      2 * dy1 - 2 * dx1 ≤ px → px < 2 * dy1 → n + 1 ≤ fuel →
      ∃ l, DrawLine_shallow dx dy dx1 dy1 xe fuel x y px 0xFFFFFFFF = some l ∧
        l.length = n ∧ List.Chain adjacent ⟨x, y⟩ l ∧
        ∃ tf : Int,
          ((⟨x, y⟩ : vi2d) :: l).getLast? = some ⟨xe, y0 + lineStep dx dy * tf⟩ ∧
          2 * dy1 - 2 * dx1 ≤ 2 * dy1 * (xe - x0 + 1) - dx1 * (2 * tf + 1) ∧
          2 * dy1 * (xe - x0 + 1) - dx1 * (2 * tf + 1) < 2 * dy1 := by
  intro n
  induction n with
  | zero =>
    intro fuel x y px t hn hxl hx hy ht0 ht1 hpx hlo hhi hf
    obtain ⟨f, rfl⟩ : ∃ f, fuel = f + 1 := ⟨fuel - 1, by omega⟩
    have hxe2 : x = xe := by omega
    rw [DrawLine_shallow, if_neg (by omega)]
    refine ⟨[], rfl, rfl, List.Chain.nil, t, ?_, ?_, ?_⟩
    · rw [hy, hxe2]
      rfl
    · rw [← hxe2, ← hpx]
      exact hlo
    · rw [← hxe2, ← hpx]
      exact hhi
  | succ n ih =>
    intro fuel x y px t hn hxl hx hy ht0 ht1 hpx hlo hhi hf
    obtain ⟨f, rfl⟩ : ∃ f, fuel = f + 1 := ⟨fuel - 1, by omega⟩
    have hlt : x < xe := by omega
    have hs := lineStep_cases dx dy
    have hstep : (if (dx < 0 ∧ dy < 0) ∨ (dx > 0 ∧ dy > 0) then wrap32 (y + 1)
        else wrap32 (y - 1)) = wrap32 (y + lineStep dx dy) := by
      unfold lineStep
      split_ifs
      · rfl
      · rw [sub_eq_add_neg]
    have e1 : wrap32 (x + 1) = x + 1 := wrap32_eq _ (by omega) (by omega)
    have e2 : wrap32 (2 * dy1) = 2 * dy1 := wrap32_eq _ (by omega) (by omega)
    have e3 : wrap32 (dy1 - dx1) = dy1 - dx1 := wrap32_eq _ (by omega) (by omega)
    have e4 : wrap32 (2 * (dy1 - dx1)) = 2 * (dy1 - dx1) := wrap32_eq _ (by omega) (by omega)
    rw [DrawLine_shallow, if_pos hlt, rol_full]
    simp only [if_true, e1, e2, e3, e4, hstep]
    by_cases hneg : px < 0
    · have e5 : wrap32 (px + 2 * dy1) = px + 2 * dy1 := wrap32_eq _ (by omega) (by omega)
      simp only [if_pos hneg, e5]
      obtain ⟨l, k0, k1, k2, tf, k3, k4, k5⟩ := ih f (x + 1) y (px + 2 * dy1) t (by omega)
        (by omega) (by omega) hy ht0 ht1 (by rw [hpx]; ring) (by omega) (by omega) (by omega)
      rw [k0]
      refine ⟨(⟨x + 1, y⟩ : vi2d) :: l, rfl, by rw [List.length_cons, k1],
        List.Chain.cons (adjacent_step x y y (Or.inl rfl)) k2, tf, ?_, k4, k5⟩
      rw [List.getLast?_cons_cons]
      exact k3
    · have ht2 : t + 1 ≤ dy1 := by
        apply bresenham_minor_step dx1 dy1 (x - x0 + 1) t hpos h0 (by omega)
        rw [← hpx]
        omega
      have hy2 : y + lineStep dx dy = y0 + lineStep dx dy * (t + 1) := by
        rw [hy]
        ring
      have hr := minor_in_range y0 (lineStep dx dy) (t + 1) dy1 hs (by omega) ht2 hy0 hyE
      have e6 : wrap32 (y + lineStep dx dy) = y + lineStep dx dy := by
        rw [hy2]
        exact wrap32_eq _ hr.1 hr.2
      have e5 : wrap32 (px + 2 * (dy1 - dx1)) = px + 2 * (dy1 - dx1) :=
        wrap32_eq _ (by omega) (by omega)
      simp only [if_neg hneg, e5, e6]
      obtain ⟨l, k0, k1, k2, tf, k3, k4, k5⟩ := ih f (x + 1) (y + lineStep dx dy)
        (px + 2 * (dy1 - dx1)) (t + 1) (by omega) (by omega) (by omega) hy2 (by omega) ht2
        (by rw [hpx]; ring) (by omega) (by omega) (by omega)
      rw [k0]
      refine ⟨(⟨x + 1, y + lineStep dx dy⟩ : vi2d) :: l, rfl, by rw [List.length_cons, k1],
        List.Chain.cons (adjacent_step x y _ ?_) k2, tf, ?_, k4, k5⟩
      · rcases hs with hs | hs <;> rw [hs]
        · exact Or.inr (Or.inl rfl)
        · exact Or.inr (Or.inr rfl)
      · rw [List.getLast?_cons_cons]
        exact k3

theorem DrawLine_steep_full (dx dy dx1 dy1 ye x0 y0 : Int) (h0 : 0 ≤ dx1)
    (h1 : dx1 ≤ dy1) (hpos : 0 < dy1) (hbig : dy1 ≤ 1073741823) (hye : ye = y0 + dy1)
    (hy0 : -2147483648 ≤ y0) (hyE : ye ≤ 2147483647)
    (hx0 : -2147483648 ≤ x0 ∧ x0 ≤ 2147483647)
    (hxE : -2147483648 ≤ x0 + lineStep dx dy * dx1 ∧ x0 + lineStep dx dy * dx1 ≤ 2147483647) :
    ∀ (n fuel : Nat) (x y py t : Int), (ye - y).toNat = n → y0 ≤ y → y ≤ ye →
      x = x0 + lineStep dx dy * t → 0 ≤ t → t ≤ dx1 →
      py = 2 * dx1 * (y - y0 + 1) - dy1 * (2 * t + 1) →
      2 * dx1 - 2 * dy1 < py → py ≤ 2 * dx1 → n + 1 ≤ fuel →
      ∃ l, DrawLine_steep dx dy dx1 dy1 ye fuel x y py 0xFFFFFFFF = some l ∧
        l.length = n ∧ List.Chain adjacent ⟨x, y⟩ l ∧
        ∃ tf : Int,
          ((⟨x, y⟩ : vi2d) :: l).getLast? = some ⟨x0 + lineStep dx dy * tf, ye⟩ ∧
          2 * dx1 - 2 * dy1 < 2 * dx1 * (ye - y0 + 1) - dy1 * (2 * tf + 1) ∧
          2 * dx1 * (ye - y0 + 1) - dy1 * (2 * tf + 1) ≤ 2 * dx1 := by
  intro n
  induction n with
  | zero =>
    intro fuel x y py t hn hyl hy hx ht0 ht1 hpy hlo hhi hf
    obtain ⟨f, rfl⟩ : ∃ f, fuel = f + 1 := ⟨fuel - 1, by omega⟩
    have hye2 : y = ye := by omega
    rw [DrawLine_steep, if_neg (by omega)]
    refine ⟨[], rfl, rfl, List.Chain.nil, t, ?_, ?_, ?_⟩
    · rw [hx, hye2]
      rfl
    · rw [← hye2, ← hpy]
      exact hlo
    · rw [← hye2, ← hpy]
      exact hhi
  | succ n ih =>
    intro fuel x y py t hn hyl hy hx ht0 ht1 hpy hlo hhi hf
    obtain ⟨f, rfl⟩ : ∃ f, fuel = f + 1 := ⟨fuel - 1, by omega⟩
    have hlt : y < ye := by omega
    have hs := lineStep_cases dx dy
    have hstep : (if (dx < 0 ∧ dy < 0) ∨ (dx > 0 ∧ dy > 0) then wrap32 (x + 1)
        else wrap32 (x - 1)) = wrap32 (x + lineStep dx dy) := by
      unfold lineStep
      split_ifs
      · rfl
      · rw [sub_eq_add_neg]
    have e1 : wrap32 (y + 1) = y + 1 := wrap32_eq _ (by omega) (by omega)
    have e2 : wrap32 (2 * dx1) = 2 * dx1 := wrap32_eq _ (by omega) (by omega)
    have e3 : wrap32 (dx1 - dy1) = dx1 - dy1 := wrap32_eq _ (by omega) (by omega)
    have e4 : wrap32 (2 * (dx1 - dy1)) = 2 * (dx1 - dy1) := wrap32_eq _ (by omega) (by omega)
    rw [DrawLine_steep, if_pos hlt, rol_full]
    simp only [if_true, e1, e2, e3, e4, hstep]
    by_cases hneg : py ≤ 0
    · have e5 : wrap32 (py + 2 * dx1) = py + 2 * dx1 := wrap32_eq _ (by omega) (by omega)
      simp only [if_pos hneg, e5]
      obtain ⟨l, k0, k1, k2, tf, k3, k4, k5⟩ := ih f x (y + 1) (py + 2 * dx1) t (by omega)
        (by omega) (by omega) hx ht0 ht1 (by rw [hpy]; ring) (by omega) (by omega) (by omega)
      rw [k0]
      refine ⟨(⟨x, y + 1⟩ : vi2d) :: l, rfl, by rw [List.length_cons, k1],
        List.Chain.cons (adjacent_step_y x y x (Or.inl rfl)) k2, tf, ?_, k4, k5⟩
      rw [List.getLast?_cons_cons]
      exact k3
    · have ht2 : t + 1 ≤ dx1 := by
        apply bresenham_minor_step dy1 dx1 (y - y0 + 1) t hpos h0 (by omega)
        rw [← hpy]
        omega
      have hx2 : x + lineStep dx dy = x0 + lineStep dx dy * (t + 1) := by
        rw [hx]
        ring
      have hr := minor_in_range x0 (lineStep dx dy) (t + 1) dx1 hs (by omega) ht2 hx0 hxE
      have e6 : wrap32 (x + lineStep dx dy) = x + lineStep dx dy := by
        rw [hx2]
        exact wrap32_eq _ hr.1 hr.2
      have e5 : wrap32 (py + 2 * (dx1 - dy1)) = py + 2 * (dx1 - dy1) :=
        wrap32_eq _ (by omega) (by omega)
      simp only [if_neg hneg, e5, e6]
      obtain ⟨l, k0, k1, k2, tf, k3, k4, k5⟩ := ih f (x + lineStep dx dy) (y + 1)
        (py + 2 * (dx1 - dy1)) (t + 1) (by omega) (by omega) (by omega) hx2 (by omega) ht2
        (by rw [hpy]; ring) (by omega) (by omega) (by omega)
      rw [k0]
      refine ⟨(⟨x + lineStep dx dy, y + 1⟩ : vi2d) :: l, rfl, by rw [List.length_cons, k1],
        List.Chain.cons (adjacent_step_y x y _ ?_) k2, tf, ?_, k4, k5⟩
      · rcases hs with hs | hs <;> rw [hs]
        · exact Or.inr (Or.inl rfl)
        · exact Or.inr (Or.inr rfl)
      · rw [List.getLast?_cons_cons]
        exact k3

theorem DrawLine_shallow_path (dx dy dx1 dy1 xa ya : Int) (fuel : Nat) (h0 : 0 ≤ dy1)
    (h1 : dy1 ≤ dx1) (hpos : 0 < dx1) (hbig : dx1 ≤ 1073741823)
    (hxa : -2147483648 ≤ xa) (hxe : xa + dx1 ≤ 2147483647)
    (hya : -2147483648 ≤ ya ∧ ya ≤ 2147483647)
    (hye : -2147483648 ≤ ya + lineStep dx dy * dy1 ∧ ya + lineStep dx dy * dy1 ≤ 2147483647)
    (hf : dx1 + 1 ≤ (fuel : Int)) :
    ∃ l, DrawLine_shallow dx dy dx1 dy1 (xa + dx1) fuel xa ya (2 * dy1 - dx1) 0xFFFFFFFF
        = some l ∧
      IsPixelPath ((⟨xa, ya⟩ : vi2d) :: l) ⟨xa, ya⟩
        ⟨xa + dx1, ya + lineStep dx dy * dy1⟩ dx1 := by
  obtain ⟨l, hl, a, b, tf, c, d1, d2⟩ := DrawLine_shallow_full dx dy dx1 dy1 (xa + dx1) xa ya
    h0 h1 hpos hbig rfl hxa hxe hya hye (xa + dx1 - xa).toNat fuel xa ya (2 * dy1 - dx1) 0 rfl
    le_rfl (by omega) (by ring) le_rfl h0 (by ring) (by omega) (by omega) (by omega)
  have e : xa + dx1 - xa + 1 = dx1 + 1 := by ring
  rw [e] at d1 d2
  have htf := bresenham_minor_count dx1 dy1 tf hpos d1 d2
  rw [htf] at c
  refine ⟨l, hl, ?_, rfl, c, b⟩
  rw [List.length_cons, a]
  push_cast
  omega

theorem DrawLine_steep_path (dx dy dx1 dy1 xa ya : Int) (fuel : Nat) (h0 : 0 ≤ dx1)
    (h1 : dx1 ≤ dy1) (hpos : 0 < dy1) (hbig : dy1 ≤ 1073741823)
    (hya : -2147483648 ≤ ya) (hye : ya + dy1 ≤ 2147483647)
    (hxa : -2147483648 ≤ xa ∧ xa ≤ 2147483647)
    (hxe : -2147483648 ≤ xa + lineStep dx dy * dx1 ∧ xa + lineStep dx dy * dx1 ≤ 2147483647)
    (hf : dy1 + 1 ≤ (fuel : Int)) :
    ∃ l, DrawLine_steep dx dy dx1 dy1 (ya + dy1) fuel xa ya (2 * dx1 - dy1) 0xFFFFFFFF
        = some l ∧
      IsPixelPath ((⟨xa, ya⟩ : vi2d) :: l) ⟨xa, ya⟩
        ⟨xa + lineStep dx dy * dx1, ya + dy1⟩ dy1 := by
  obtain ⟨l, hl, a, b, tf, c, d1, d2⟩ := DrawLine_steep_full dx dy dx1 dy1 (ya + dy1) xa ya
    h0 h1 hpos hbig rfl hya hye hxa hxe (ya + dy1 - ya).toNat fuel xa ya (2 * dx1 - dy1) 0 rfl
    le_rfl (by omega) (by ring) le_rfl h0 (by ring) (by omega) (by omega) (by omega)
  have e : ya + dy1 - ya + 1 = dy1 + 1 := by ring
  rw [e] at d1 d2
  have htf := bresenham_minor_count_steep dy1 dx1 tf hpos d1 d2
  rw [htf] at c
  refine ⟨l, hl, ?_, rfl, c, b⟩
  rw [List.length_cons, a]
  push_cast
  omega

theorem DrawLine_full_path (fuel : Nat) (x1 y1 x2 y2 : Int) (hr : lineInRange x1 y1 x2 y2)
    (hf : max |x2 - x1| |y2 - y1| + 2 ≤ (fuel : Int)) :
    ∃ l, DrawLine fuel x1 y1 x2 y2 0xFFFFFFFF = some l ∧
      (IsPixelPath l ⟨x1, y1⟩ ⟨x2, y2⟩ (max |x2 - x1| |y2 - y1|) ∨
       IsPixelPath l ⟨x2, y2⟩ ⟨x1, y1⟩ (max |x2 - x1| |y2 - y1|)) := by
  obtain ⟨⟨hx1a, hx1b⟩, ⟨hy1a, hy1b⟩, ⟨hx2a, hx2b⟩, ⟨hy2a, hy2b⟩, hdxb, hdyb⟩ := hr
  have hax := abs_cases (x2 - x1)
  have hay := abs_cases (y2 - y1)
  obtain ⟨dx1, hdx1⟩ : ∃ a, |x2 - x1| = a := ⟨_, rfl⟩
  obtain ⟨dy1, hdy1⟩ : ∃ a, |y2 - y1| = a := ⟨_, rfl⟩
  rw [hdx1] at hax hdxb hf
  rw [hdy1] at hay hdyb hf
  rw [hdx1, hdy1]
  have ew1 : wrap32 (x2 - x1) = x2 - x1 := wrap32_eq _ (by omega) (by omega)
  have ew2 : wrap32 (y2 - y1) = y2 - y1 := wrap32_eq _ (by omega) (by omega)
  have ew3 : wrap32 dx1 = dx1 := wrap32_eq _ (by omega) (by omega)
  have ew4 : wrap32 dy1 = dy1 := wrap32_eq _ (by omega) (by omega)
  have ew5 : wrap32 (2 * dx1) = 2 * dx1 := wrap32_eq _ (by omega) (by omega)
  have ew6 : wrap32 (2 * dy1) = 2 * dy1 := wrap32_eq _ (by omega) (by omega)
  have ew7 : wrap32 (2 * dy1 - dx1) = 2 * dy1 - dx1 := wrap32_eq _ (by omega) (by omega)
  have ew8 : wrap32 (2 * dx1 - dy1) = 2 * dx1 - dy1 := wrap32_eq _ (by omega) (by omega)
  unfold DrawLine
  simp only [ew1, ew2, hdx1, hdy1, ew3, ew4, ew5, ew6, ew7, ew8, rol_full, if_true]
  by_cases hdx : x2 - x1 = 0
  · rw [if_pos hdx]
    have hx : x2 = x1 := by omega
    subst hx
    have hm : max dx1 dy1 = dy1 := by omega
    rw [hm]
    rw [hm] at hf
    by_cases hy : y2 < y1
    · rw [if_pos hy]
      have e : dy1 = y1 - y2 := by omega
      rw [e]
      obtain ⟨l, hl, hp⟩ := DrawLine_vertical_path x2 y2 y1 fuel (le_of_lt hy) hy2a hy1b
        (by omega)
      exact ⟨l, hl, Or.inr hp⟩
    · rw [if_neg hy]
      have e : dy1 = y2 - y1 := by omega
      rw [e]
      obtain ⟨l, hl, hp⟩ := DrawLine_vertical_path x2 y1 y2 fuel (not_lt.mp hy) hy1a hy2b
        (by omega)
      exact ⟨l, hl, Or.inl hp⟩
  · rw [if_neg hdx]
    by_cases hdy : y2 - y1 = 0
    · rw [if_pos hdy]
      have hy : y2 = y1 := by omega
      subst hy
      have hm : max dx1 dy1 = dx1 := by omega
      rw [hm]
      rw [hm] at hf
      by_cases hx : x2 < x1
      · rw [if_pos hx]
        have e : dx1 = x1 - x2 := by omega
        rw [e]
        obtain ⟨l, hl, hp⟩ := DrawLine_horizontal_path y2 x2 x1 fuel (le_of_lt hx) hx2a hx1b
          (by omega)
        exact ⟨l, hl, Or.inr hp⟩
      · rw [if_neg hx]
        have e : dx1 = x2 - x1 := by omega
        rw [e]
        obtain ⟨l, hl, hp⟩ := DrawLine_horizontal_path y2 x1 x2 fuel (not_lt.mp hx) hx1a hx2b
          (by omega)
        exact ⟨l, hl, Or.inl hp⟩
    · rw [if_neg hdy]
      by_cases hsh : dy1 ≤ dx1
      · rw [if_pos hsh]
        have hm : max dx1 dy1 = dx1 := by omega
        rw [hm]
        rw [hm] at hf
        by_cases hge : x2 - x1 ≥ 0
        · simp only [if_pos hge]
          have e1 : x1 + dx1 = x2 := by omega
          have e2 : y1 + lineStep (x2 - x1) (y2 - y1) * dy1 = y2 := by
            unfold lineStep
            split_ifs <;> omega
          obtain ⟨l, hl, hp⟩ := DrawLine_shallow_path (x2 - x1) (y2 - y1) dx1 dy1 x1 y1 fuel
            (by omega) hsh (by omega) hdxb hx1a (by omega) ⟨hy1a, by omega⟩
            (by rw [e2]; exact ⟨hy2a, by omega⟩) (by omega)
          rw [e1] at hl hp
          rw [e2] at hp
          rw [hl]
          exact ⟨_, rfl, Or.inl hp⟩
        · simp only [if_neg hge]
          have e1 : x2 + dx1 = x1 := by omega
          have e2 : y2 + lineStep (x2 - x1) (y2 - y1) * dy1 = y1 := by
            unfold lineStep
            split_ifs <;> omega
          obtain ⟨l, hl, hp⟩ := DrawLine_shallow_path (x2 - x1) (y2 - y1) dx1 dy1 x2 y2 fuel
            (by omega) hsh (by omega) hdxb hx2a (by omega) ⟨hy2a, by omega⟩
            (by rw [e2]; exact ⟨hy1a, by omega⟩) (by omega)
          rw [e1] at hl hp
          rw [e2] at hp
          rw [hl]
          exact ⟨_, rfl, Or.inr hp⟩
      · rw [if_neg hsh]
        have hm : max dx1 dy1 = dy1 := by omega
        rw [hm]
        rw [hm] at hf
        by_cases hge : y2 - y1 ≥ 0
        · simp only [if_pos hge]
          have e1 : y1 + dy1 = y2 := by omega
          have e2 : x1 + lineStep (x2 - x1) (y2 - y1) * dx1 = x2 := by
            unfold lineStep
            split_ifs <;> omega
          obtain ⟨l, hl, hp⟩ := DrawLine_steep_path (x2 - x1) (y2 - y1) dx1 dy1 x1 y1 fuel
            (by omega) (by omega) (by omega) hdyb hy1a (by omega) ⟨hx1a, by omega⟩
            (by rw [e2]; exact ⟨hx2a, by omega⟩) (by omega)
          rw [e1] at hl hp
          rw [e2] at hp
          rw [hl]
          exact ⟨_, rfl, Or.inl hp⟩
        · simp only [if_neg hge]
          have e1 : y2 + dy1 = y1 := by omega
          have e2 : x2 + lineStep (x2 - x1) (y2 - y1) * dx1 = x1 := by
            unfold lineStep
            split_ifs <;> omega
          obtain ⟨l, hl, hp⟩ := DrawLine_steep_path (x2 - x1) (y2 - y1) dx1 dy1 x2 y2 fuel
            (by omega) (by omega) (by omega) hdyb hy2a (by omega) ⟨hx2a, by omega⟩
            (by rw [e2]; exact ⟨hx1a, by omega⟩) (by omega)
          rw [e1] at hl hp
          rw [e2] at hp
          rw [hl]
          exact ⟨_, rfl, Or.inr hp⟩

/-! ## The claims -/

/-- C1: with the screen size `(W, H)`, `W, H > 0`, set by `Construct`, every vertex
`(x, y)` handed to `DrawPolygonDecal` or `DrawExplicitDecal` is stored in the one
appended `DecalInstance` as `((x / W) * 2 - 1, -((y / H) * 2 - 1))`, in exact arithmetic. -/
theorem decal_vertex_stored_as_ndc (e0 e : GameEngine) (W H pw ph : Int) (fs vs co : Bool)
    (hW : 0 < W) (hH : 0 < H)
    (hinv : e.vInvScreenSize = (e0.Construct W H pw ph fs vs co).2.vInvScreenSize)
    (ht : e.nTargetLayer < e.vLayers.length)
    (decal : Option Decal) (pos uv : List vf2d) (col : List Pixel) (tint : Pixel)
    (elements : Nat) (hel : elements ≤ pos.length) :
    (∃ di, (e.DrawPolygonDecal decal pos uv tint).batch e.nTargetLayer
          = e.batch e.nTargetLayer ++ [di]
        ∧ di.pos = pos.map (specNdc (W : ℚ) (H : ℚ))) ∧
    (∃ di, (e.DrawExplicitDecal decal pos uv col elements).batch e.nTargetLayer
          = e.batch e.nTargetLayer ++ [di]
        ∧ di.pos = (pos.take elements).map (specNdc (W : ℚ) (H : ℚ))) := by
  have _hWH : (0 : Int) < W ∧ (0 : Int) < H := ⟨hW, hH⟩
  have hfun : (fun p => e.toClip p) = specNdc (W : ℚ) (H : ℚ) :=
    funext (toClip_eq_specNdc e0 e W H pw ph fs vs co hinv)
  constructor
  · unfold GameEngine.DrawPolygonDecal
    rw [GameEngine.batch_pushDecalInstance, if_pos ⟨rfl, ht⟩]
    refine ⟨_, rfl, ?_⟩
    · show (List.range pos.length).map (fun i => e.toClip (pos.getD i vf2d.zero)) = _
      rw [map_range_getD (fun p => e.toClip p) vf2d.zero pos pos.length (le_refl _),
        List.take_length, hfun]
  · unfold GameEngine.DrawExplicitDecal
    rw [GameEngine.batch_pushDecalInstance, if_pos ⟨rfl, ht⟩]
    refine ⟨_, rfl, ?_⟩
    · show (List.range elements).map (fun i => e.toClip (pos.getD i vf2d.zero)) = _
      rw [map_range_getD (fun p => e.toClip p) vf2d.zero pos elements hel, hfun]

/-- Worked example of C1 on a 1920x1080 screen: `(0,0)`, `(1920,1080)`, `(960,540)` are
stored as `(-1,1)`, `(1,-1)`, `(0,0)`. -/
theorem decal_vertex_stored_as_ndc_witness :
    ∃ di, (hdEngine.DrawPolygonDecal none [⟨0, 0⟩, ⟨1920, 1080⟩, ⟨960, 540⟩] [] RED).batch 0
        = hdEngine.batch 0 ++ [di]
      ∧ di.pos = [⟨-1, 1⟩, ⟨1, -1⟩, ⟨0, 0⟩] := by
  obtain ⟨di, h1, h2⟩ :=
    (decal_vertex_stored_as_ndc ({} : GameEngine) hdEngine 1920 1080 1 1 false false false
      (by decide) (by decide) rfl (by decide) none [⟨0, 0⟩, ⟨1920, 1080⟩, ⟨960, 540⟩] [] []
      RED 3 (by decide)).1
  refine ⟨di, h1, ?_⟩
  rw [h2]
  norm_num [specNdc]

/-- C2: for a screen size `W, H > 0` set by `Construct`, the inverse transform
`x = (ndc.x + 1) / 2 * W`, `y = (1 - ndc.y) / 2 * H` applied after the draw calls' forward
transform gives back `(x, y)`, and the forward transform is injective. -/
theorem screen_to_clip_round_trip (e0 : GameEngine) (W H pw ph : Int) (fs vs co : Bool)
    (hW : 0 < W) (hH : 0 < H) :
    (∀ p : vf2d,
      specNdcInverse (W : ℚ) (H : ℚ) ((e0.Construct W H pw ph fs vs co).2.toClip p) = p) ∧
    Function.Injective (e0.Construct W H pw ph fs vs co).2.toClip := by
  have hW0 : (W : ℚ) ≠ 0 := by exact_mod_cast hW.ne'
  have hH0 : (H : ℚ) ≠ 0 := by exact_mod_cast hH.ne'
  have hrt : ∀ p : vf2d,
      specNdcInverse (W : ℚ) (H : ℚ) ((e0.Construct W H pw ph fs vs co).2.toClip p) = p := by
    intro p
    rw [toClip_eq_specNdc e0 _ W H pw ph fs vs co rfl p]
    unfold specNdcInverse specNdc
    cases p with
    | mk x y =>
      simp only [vf2d.mk.injEq]
      constructor <;> field_simp <;> ring
  refine ⟨hrt, ?_⟩
  intro p q hpq
  rw [← hrt p, ← hrt q, hpq]

/-- Worked example of C2 on a 1920x1080 screen at the pixel `(480, 270)`. -/
theorem screen_to_clip_round_trip_witness :
    specNdcInverse 1920 1080
      ((({} : GameEngine).Construct 1920 1080 1 1 false false false).2.toClip ⟨480, 270⟩)
      = ⟨480, 270⟩ :=
  (screen_to_clip_round_trip ({} : GameEngine) 1920 1080 1 1 false false false
    (by decide) (by decide)).1 ⟨480, 270⟩

/-- C3 as stated fails in two ways. On a hidden target layer the instance queued by a
draw call is never handed to `DrawDecal` by the compositing pass. And a draw call need
not queue an instance: a warped decal with collinear corners queues none. -/
theorem hidden_layer_batch_never_submitted :
    (hiddenDrawnEngine.batch hiddenDrawnEngine.nTargetLayer).length = 1 ∧
    submitted (GameEngine.alo_CoreUpdate_display hiddenDrawnEngine).renderer = [] ∧
    (smallEngine.drawAll exampleFloatLib
      [DrawCall.DrawWarpedDecal none [⟨0, 0⟩, ⟨1, 1⟩, ⟨2, 2⟩, ⟨3, 3⟩] RED]).batch
        smallEngine.nTargetLayer = [] := by
  refine ⟨by decide, by decide, ?_⟩
  have h : GameEngine.warpRd [⟨0, 0⟩, ⟨1, 1⟩, ⟨2, 2⟩, ⟨3, 3⟩] = 0 := by
    norm_num [GameEngine.warpRd, vf2d.zero]
  have hd : smallEngine.drawAll exampleFloatLib
      [DrawCall.DrawWarpedDecal none [⟨0, 0⟩, ⟨1, 1⟩, ⟨2, 2⟩, ⟨3, 3⟩] RED] = smallEngine := by
    simp [GameEngine.drawAll, GameEngine.draw, GameEngine.DrawWarpedDecal, h]
  rw [hd]
  decide

/-- C3, amended: each decal draw call appends at most one instance to the end of the
target layer's batch (exactly one unless it is a warped call with `rd == 0`, which
appends none), leaving earlier entries and every other layer's batch untouched, so after
the first `k` calls the batch is the old batch followed by the instances of those calls
in call order; and when the target layer is shown at the layer loop (layer 0, or
`bShow` set) and has no custom render function, the compositing pass hands the whole
batch to `DrawDecal` contiguously in that stored order. -/
theorem decal_batch_fifo (fl : FloatLib) (e : GameEngine) (cs : List DrawCall)
    (ht : e.nTargetLayer < e.vLayers.length) :
    ∃ news : List (List DecalInstance),
      List.Forall₂ (fun c n => n.length = (if c.dropped = true then 0 else 1)) cs news ∧
      (∀ k, (e.drawAll fl (cs.take k)).batch e.nTargetLayer
          = e.batch e.nTargetLayer ++ (news.take k).flatten) ∧
      (e.drawAll fl cs).batch e.nTargetLayer = e.batch e.nTargetLayer ++ news.flatten ∧
      (∀ t, t ≠ e.nTargetLayer → (e.drawAll fl cs).batch t = e.batch t) ∧
      (((e.nTargetLayer = 0 ∨ e.layerShown e.nTargetLayer = true)
          ∧ e.layerHooked e.nTargetLayer = false) →
        ∃ tr pre post,
          (GameEngine.alo_CoreUpdate_display (e.drawAll fl cs)).renderer
            = (e.drawAll fl cs).renderer ++ tr ∧
          submitted tr = pre ++ (e.drawAll fl cs).batch e.nTargetLayer ++ post) := by
  obtain ⟨news, hall, hk⟩ := GameEngine.drawAll_appends fl cs e
  have hlen : news.length = cs.length := (List.Forall₂.length_eq hall).symm
  have hfull := hk cs.length
  rw [List.take_length, ← hlen, List.take_length] at hfull
  have hbk : ∀ k, (e.drawAll fl (cs.take k)).batch e.nTargetLayer
      = e.batch e.nTargetLayer ++ (news.take k).flatten := by
    intro k
    rw [hk k, GameEngine.batch_append_new, if_pos ⟨rfl, ht⟩]
  have hb : (e.drawAll fl cs).batch e.nTargetLayer = e.batch e.nTargetLayer ++ news.flatten := by
    rw [hfull, GameEngine.batch_append_new, if_pos ⟨rfl, ht⟩]
  refine ⟨news, hall, hbk, hb, ?_, ?_⟩
  · intro t hne
    rw [hfull, GameEngine.batch_append_new, if_neg (fun h => hne h.1)]
  · intro hvis
    obtain ⟨tr, htr, hsub⟩ := GameEngine.display_renderer (e.drawAll fl cs)
    have hlayers : (e.drawAll fl cs).vLayers.length = e.vLayers.length := by
      rw [hfull]; simp [modifyAt_length]
    have ht2 : e.nTargetLayer < (GameEngine.alo_CoreUpdate_prepare (e.drawAll fl cs)).vLayers.length := by
      rw [GameEngine.prepare_layers, modifyAt_length, hlayers]; exact ht
    have hget : (GameEngine.alo_CoreUpdate_prepare (e.drawAll fl cs)).vLayers[e.nTargetLayer]?
        = some ((GameEngine.alo_CoreUpdate_prepare (e.drawAll fl cs)).vLayers[e.nTargetLayer]) := by
      simp [ht2]
    obtain ⟨pre, post, hinf⟩ := flatten_reverse_infix _ _ _ hget
    refine ⟨tr, pre, post, htr, ?_⟩
    rw [hsub, hinf]
    congr 2
    -- the layer at the loop start is shown, unhooked and carries the batch
    have hshown : (GameEngine.alo_CoreUpdate_prepare (e.drawAll fl cs)).layerShown e.nTargetLayer
        = true := by
      rw [GameEngine.prepare_layerShown _ _ (by rw [hlayers]; exact ht)]
      rcases hvis.1 with h0 | hs
      · simp [h0]
      · have : (e.drawAll fl cs).layerShown e.nTargetLayer = e.layerShown e.nTargetLayer := by
          rw [hfull]
          unfold GameEngine.layerShown
          simp only [modifyAt_getElem?, if_true]
          cases e.vLayers[e.nTargetLayer]? <;> rfl
        rw [this, hs]; simp
    have hhook : (GameEngine.alo_CoreUpdate_prepare (e.drawAll fl cs)).layerHooked e.nTargetLayer
        = false := by
      rw [GameEngine.prepare_layerHooked]
      have : (e.drawAll fl cs).layerHooked e.nTargetLayer = e.layerHooked e.nTargetLayer := by
        rw [hfull]
        unfold GameEngine.layerHooked
        simp only [modifyAt_getElem?, if_true]
        cases e.vLayers[e.nTargetLayer]? <;> rfl
      rw [this, hvis.2]
    have hbatch := GameEngine.prepare_batch (e.drawAll fl cs) e.nTargetLayer
    unfold GameEngine.layerShown at hshown
    unfold GameEngine.layerHooked at hhook
    unfold GameEngine.batch at hbatch
    rw [hget] at hshown hhook hbatch
    simp only at hshown hhook hbatch
    unfold GameEngine.batch
    rw [← hbatch]
    unfold layerSubmits
    rw [if_pos]
    refine ⟨hshown, ?_⟩
    cases hf : ((GameEngine.alo_CoreUpdate_prepare (e.drawAll fl cs)).vLayers[e.nTargetLayer]).funcHook with
    | none => rfl
    | some x => rw [hf] at hhook; simp at hhook

/-- Worked example of C3 amended: three calls on layer 0 of the 100x100 engine, the last
one a degenerate warp; the batch grows by the instances of the first two, in order. -/
theorem decal_batch_fifo_witness :
    ∃ news : List (List DecalInstance),
      List.Forall₂ (fun c n => n.length = (if c.dropped = true then 0 else 1))
        exampleCalls news ∧
      (smallEngine.drawAll exampleFloatLib exampleCalls).batch smallEngine.nTargetLayer
        = smallEngine.batch smallEngine.nTargetLayer ++ news.flatten ∧
      ∃ tr pre post,
        (GameEngine.alo_CoreUpdate_display (smallEngine.drawAll exampleFloatLib exampleCalls)).renderer
          = (smallEngine.drawAll exampleFloatLib exampleCalls).renderer ++ tr ∧
        submitted tr
          = pre ++ (smallEngine.drawAll exampleFloatLib exampleCalls).batch smallEngine.nTargetLayer
              ++ post := by
  obtain ⟨news, h1, _, h3, _, h5⟩ :=
    decal_batch_fifo exampleFloatLib smallEngine exampleCalls (by decide)
  exact ⟨news, h1, h3, h5 (by decide)⟩

/-- C4 as stated fails: a hidden layer keeps its batch through a compositing pass. After
`FillRectDecal` on the hidden layer 1, one pass leaves that layer's batch non-empty. -/
theorem compositing_leaves_hidden_batch :
    ¬ (∀ layer, (GameEngine.alo_CoreUpdate_display hiddenDrawnEngine).batch layer = []) := by
  intro h
  have h1 := h 1
  rw [GameEngine.display_batch] at h1
  revert h1
  decide

/-- C4, amended: after one compositing pass the batch of every layer that the loop
treats as shown (layer 0, forced visible, or a layer with `bShow` set) and that has no
custom render function is empty; the batch of any other layer is exactly as before;
and the instances handed to `DrawDecal` in the pass are the cleared batches, each
instance once. -/
theorem compositing_clears_shown_batches (e : GameEngine) (i : Nat)
    (hi : i < e.vLayers.length) :
    (((i = 0 ∨ e.layerShown i = true) ∧ e.layerHooked i = false) →
      (GameEngine.alo_CoreUpdate_display e).batch i = []) ∧
    (¬ ((i = 0 ∨ e.layerShown i = true) ∧ e.layerHooked i = false) →
      (GameEngine.alo_CoreUpdate_display e).batch i = e.batch i) ∧
    (∃ tr, (GameEngine.alo_CoreUpdate_display e).renderer = e.renderer ++ tr ∧
      submitted tr
        = ((GameEngine.alo_CoreUpdate_prepare e).vLayers.reverse.map layerSubmits).flatten) := by
  have hb := GameEngine.display_batch e i
  rw [GameEngine.prepare_layerShown e i hi, GameEngine.prepare_layerHooked,
    GameEngine.prepare_batch] at hb
  refine ⟨?_, ?_, GameEngine.display_renderer e⟩
  · intro h
    rw [hb, if_pos]
    refine ⟨?_, h.2⟩
    rcases h.1 with h0 | hs
    · simp [h0]
    · simp [hs]
  · intro h
    rw [hb, if_neg]
    intro hc
    apply h
    refine ⟨?_, hc.2⟩
    have := hc.1
    simp only [Bool.or_eq_true, decide_eq_true_eq] at this
    exact this

/-- Worked example of C4 amended: with one instance queued on layer 0 and one on the
hidden layer 1, a pass empties the batch of layer 0 and leaves that of layer 1. -/
theorem compositing_clears_shown_batches_witness :
    bothDrawnEngine.batch 0 ≠ [] ∧
    (GameEngine.alo_CoreUpdate_display bothDrawnEngine).batch 0 = [] ∧
    (GameEngine.alo_CoreUpdate_display bothDrawnEngine).batch 1 = bothDrawnEngine.batch 1 :=
  ⟨by decide,
   (compositing_clears_shown_batches bothDrawnEngine 0 (by decide)).1 (by decide),
   (compositing_clears_shown_batches bothDrawnEngine 1 (by decide)).2.1 (by decide)⟩

/-- C5: whatever calls the user made before (among them `EnableLayer(0, false)` and
`SetDrawTarget(0, false)`), when the layer loop of `alo_CoreUpdate` starts layer 0 has
both `bShow` and `bUpdate` set. -/
theorem layer0_shown_and_dirty_at_loop_start (fl : FloatLib) (e : GameEngine)
    (calls : List UserCall) (h : e.vLayers ≠ []) :
    ∃ l0, (GameEngine.alo_CoreUpdate_prepare (e.callAll fl calls)).vLayers[0]? = some l0
      ∧ l0.bShow = true ∧ l0.bUpdate = true := by
  have hlen : 0 < (e.callAll fl calls).vLayers.length :=
    lt_of_lt_of_le (List.length_pos.mpr h) (GameEngine.callAll_layers_length fl calls e)
  rw [GameEngine.prepare_layers, modifyAt_getElem?]
  have hs : (e.callAll fl calls).vLayers[0]? = some (e.callAll fl calls).vLayers[0] := by
    simp [hlen]
  rw [hs]
  exact ⟨_, rfl, rfl, rfl⟩

/-- Worked example of C5: after `EnableLayer(0, false)` and `SetDrawTarget(0, false)` both
flags of layer 0 are false, and they are true again when the layer loop starts. -/
theorem layer0_shown_and_dirty_at_loop_start_witness :
    ((smallEngine.callAll exampleFloatLib
        [UserCall.EnableLayer 0 false, UserCall.SetDrawTarget 0 false]).vLayers[0]?).map
        (fun l => (l.bShow, l.bUpdate)) = some (false, false) ∧
    ∃ l0, (GameEngine.alo_CoreUpdate_prepare (smallEngine.callAll exampleFloatLib
        [UserCall.EnableLayer 0 false, UserCall.SetDrawTarget 0 false])).vLayers[0]? = some l0
      ∧ l0.bShow = true ∧ l0.bUpdate = true :=
  ⟨by decide, layer0_shown_and_dirty_at_loop_start exampleFloatLib smallEngine
    [UserCall.EnableLayer 0 false, UserCall.SetDrawTarget 0 false] (by decide)⟩

/-- C6: `FillRectDecal(pos, size, col)` appends exactly one `DecalInstance` to the target
layer's batch, with 4 vertices, a null texture handle and the four tints equal to `col`;
no other layer's batch changes. -/
theorem FillRectDecal_appends_one_flat_quad (e : GameEngine) (pos size : vf2d) (col : Pixel)
    (ht : e.nTargetLayer < e.vLayers.length) :
    (∃ di, (e.FillRectDecal pos size col).batch e.nTargetLayer = e.batch e.nTargetLayer ++ [di]
      ∧ di.points = 4 ∧ di.pos.length = 4 ∧ di.uv.length = 4 ∧ di.w.length = 4
      ∧ di.decal = none ∧ di.tint = [col, col, col, col]) ∧
    (∀ t, t ≠ e.nTargetLayer → (e.FillRectDecal pos size col).batch t = e.batch t) := by
  constructor
  · unfold GameEngine.FillRectDecal GameEngine.DrawExplicitDecal
    rw [GameEngine.batch_pushDecalInstance, if_pos ⟨rfl, ht⟩]
    exact ⟨_, rfl, rfl, rfl, rfl, rfl, rfl, rfl⟩
  · intro t hne
    unfold GameEngine.FillRectDecal GameEngine.DrawExplicitDecal
    rw [GameEngine.batch_pushDecalInstance, if_neg (fun h => hne h.1)]

/-- Worked example of C6: `FillRectDecal((10,10),(20,20),RED)` on a 100x100 screen leaves
exactly one instance in the batch of layer 0. -/
theorem FillRectDecal_appends_one_flat_quad_witness :
    ∃ di, (smallEngine.FillRectDecal ⟨10, 10⟩ ⟨20, 20⟩ RED).batch 0 = [di]
      ∧ di.points = 4 ∧ di.pos.length = 4 ∧ di.decal = none ∧ di.tint = [RED, RED, RED, RED] := by
  obtain ⟨di, h1, h2, h3, _, _, h4, h5⟩ :=
    (FillRectDecal_appends_one_flat_quad smallEngine ⟨10, 10⟩ ⟨20, 20⟩ RED (by decide)).1
  exact ⟨di, h1, h2, h3, h4, h5⟩

/-- C7: when the diagonal determinant `rd = (p2 - p0) x (p3 - p1)` of the four corners is
zero, `DrawWarpedDecal` and `DrawPartialWarpedDecal` emit nothing: the engine, and with it
every layer's batch and the backend trace, is exactly as before. -/
theorem warped_decal_degenerate_dropped (fl : FloatLib) (e : GameEngine)
    (decal : Option Decal) (pdecal : Decal) (p0 p1 p2 p3 source_pos source_size : vf2d)
    (tint : Pixel) (hrd : (p2.sub p0).cross (p3.sub p1) = 0) :
    GameEngine.DrawWarpedDecal fl e decal [p0, p1, p2, p3] tint = e ∧
    GameEngine.DrawPartialWarpedDecal fl e pdecal [p0, p1, p2, p3] source_pos source_size tint
      = e := by
  have h : GameEngine.warpRd [p0, p1, p2, p3] = 0 := by
    have h1 : GameEngine.warpRd [p0, p1, p2, p3]
        = (p2.x - p0.x) * (p3.y - p1.y) - (p3.x - p1.x) * (p2.y - p0.y) := rfl
    rw [h1]
    simp only [vf2d.cross, vf2d.sub] at hrd
    linarith
  constructor
  · unfold GameEngine.DrawWarpedDecal
    simp [h]
  · unfold GameEngine.DrawPartialWarpedDecal
    simp [h]

/-- Worked example of C7: four corners on one line are dropped by both warped calls. -/
theorem warped_decal_degenerate_dropped_witness :
    GameEngine.DrawWarpedDecal exampleFloatLib smallEngine none
        [⟨0, 0⟩, ⟨1, 1⟩, ⟨2, 2⟩, ⟨3, 3⟩] RED = smallEngine ∧
    GameEngine.DrawPartialWarpedDecal exampleFloatLib smallEngine {}
        [⟨0, 0⟩, ⟨1, 1⟩, ⟨2, 2⟩, ⟨3, 3⟩] ⟨0, 0⟩ ⟨1, 1⟩ RED = smallEngine :=
  warped_decal_degenerate_dropped exampleFloatLib smallEngine none {} ⟨0, 0⟩ ⟨1, 1⟩ ⟨2, 2⟩
    ⟨3, 3⟩ ⟨0, 0⟩ ⟨1, 1⟩ RED (by norm_num [vf2d.cross, vf2d.sub])

/-- C8: in the default `NORMAL` sample mode, `GetPixel(x, y)` outside
`[0,width) x [0,height)` returns `Pixel(0,0,0,0)`, whose alpha is 0; inside it returns the
stored pixel at index `y * width + x`, which exists in a buffer of `width * height`
pixels. -/
theorem GetPixel_normal_mode (s : Sprite) (x y : Int)
    (hmode : s.modeSample = SpriteMode.NORMAL) :
    (¬ (0 ≤ x ∧ x < s.width ∧ 0 ≤ y ∧ y < s.height) →
      s.GetPixel x y = some ⟨0, 0, 0, 0⟩ ∧ ∀ p, s.GetPixel x y = some p → p.a = 0) ∧
    ((0 ≤ x ∧ x < s.width ∧ 0 ≤ y ∧ y < s.height) →
      0 ≤ y * s.width + x ∧
      s.GetPixel x y = s.pColData[(y * s.width + x).toNat]? ∧
      (s.WellFormed → ∃ p, s.GetPixel x y = some p)) := by
  constructor
  · intro h
    have hg : s.GetPixel x y = some ⟨0, 0, 0, 0⟩ := by
      simp only [Sprite.GetPixel, hmode, if_true]
      rw [if_neg]
      simpa using h
    refine ⟨hg, ?_⟩
    intro p hp
    rw [hg] at hp
    cases hp
    rfl
  · intro h
    have hidx : 0 ≤ y * s.width + x := by nlinarith [h.1, h.2.1, h.2.2.1]
    have hget : s.GetPixel x y = s.pColData[(y * s.width + x).toNat]? := by
      simp only [Sprite.GetPixel, hmode, if_true]
      rw [if_pos (by simpa using h)]
      simp [Sprite.readData, not_lt.mpr hidx]
    refine ⟨hidx, hget, ?_⟩
    intro hwf
    obtain ⟨_, _, hlen⟩ := hwf
    have hlt : (y * s.width + x).toNat < s.pColData.length := by
      have : y * s.width + x < s.width * s.height := by
        nlinarith [h.1, h.2.1, h.2.2.1, h.2.2.2]
      omega
    exact ⟨s.pColData[(y * s.width + x).toNat], by rw [hget]; simp [hlt]⟩

/-- Worked example of C8 on a 2x2 sprite: `(2, 0)` is outside and reads as transparent,
`(1, 1)` is inside and reads the pixel stored at index 3. -/
theorem GetPixel_normal_mode_witness :
    quadSprite.GetPixel 2 0 = some ⟨0, 0, 0, 0⟩ ∧
    quadSprite.GetPixel 1 1 = quadSprite.pColData[3]? := by
  have h := GetPixel_normal_mode quadSprite 2 0 rfl
  have k := GetPixel_normal_mode quadSprite 1 1 rfl
  exact ⟨(h.1 (by decide)).1, (k.2 (by decide)).2.1⟩

/-- C9: `SetPixel(x, y, p)` returns false exactly when `(x, y)` lies outside
`[0,width) x [0,height)`, and then the sprite (pixels, width, height) is unchanged. -/
theorem SetPixel_out_of_bounds (s : Sprite) (x y : Int) (p : Pixel) :
    ((s.SetPixel x y p).1 = false ↔ ¬ (0 ≤ x ∧ x < s.width ∧ 0 ≤ y ∧ y < s.height)) ∧
    ((s.SetPixel x y p).1 = false → (s.SetPixel x y p).2 = s) := by
  unfold Sprite.SetPixel
  by_cases h : x ≥ 0 ∧ x < s.width ∧ y ≥ 0 ∧ y < s.height
  · rw [if_pos h]
    simp only [ge_iff_le] at h
    simp [h]
  · rw [if_neg h]
    simp only [ge_iff_le] at h
    simp [h]

/-- Worked example of C9: writing at `(5, 0)` on the 2x2 sprite fails and changes nothing. -/
theorem SetPixel_out_of_bounds_witness :
    (quadSprite.SetPixel 5 0 RED).1 = false ∧ (quadSprite.SetPixel 5 0 RED).2 = quadSprite :=
  ⟨(SetPixel_out_of_bounds quadSprite 5 0 RED).1.mpr (by decide),
   (SetPixel_out_of_bounds quadSprite 5 0 RED).2
     ((SetPixel_out_of_bounds quadSprite 5 0 RED).1.mpr (by decide))⟩

/-- C10, at the input where the code departs from it: on a 3x1 sprite in `PERIODIC` mode
`GetPixel(-1, 0)` reads the pixel at index 1 while `GetPixel(-1 + width, 0)` reads the
pixel at index 2, so the two differ. -/
theorem GetPixel_periodic_negative_not_periodic :
    stripSprite.GetPixel (-1) 0 = some ⟨20, 0, 0, 255⟩ ∧
    stripSprite.GetPixel (-1 + stripSprite.width) 0 = some ⟨30, 0, 0, 255⟩ ∧
    stripSprite.GetPixel (-1 + stripSprite.width) 0 ≠ stripSprite.GetPixel (-1) 0 := by
  decide

/-- C11 as stated fails at `t = 1`: `std::fmod(1.0, 1.0)` is 0, so `Sample(1)` returns the
colour of the first control point; on `Stock::Greyscale` it returns `BLACK`, not `WHITE`. -/
theorem palette_sample_one_is_first_colour :
    (Palette.ofStock PaletteStock.Greyscale).Sample 1 = some BLACK ∧
    (Palette.ofStock PaletteStock.Greyscale).Sample 1 ≠ some WHITE := by
  have h : (Palette.ofStock PaletteStock.Greyscale).Sample 1 = some BLACK :=
    Palette.Sample_two_point_at_or_below_zero BLACK WHITE 1 (by rw [fmod1_one])
  refine ⟨h, ?_⟩
  rw [h]
  decide

/-- C11, amended: a palette holding exactly the control points `(0, C0)` and `(1, C1)`
(as built by `SetColour` from the empty palette in either order, or `Stock::Greyscale`)
returns `C0` from `Sample(0)`; `Sample(1)` wraps to location 0 and returns `C0` as well;
strictly between 0 and 1 it returns `PixelLerp(C0, C1, t)`. -/
theorem palette_two_point_endpoints (C0 C1 : Pixel) :
    (⟨[(0, C0), (1, C1)]⟩ : Palette).Sample 0 = some C0 ∧
    (⟨[(0, C0), (1, C1)]⟩ : Palette).Sample 1 = some C0 ∧
    (∀ t : ℚ, 0 < t → t < 1 →
      (⟨[(0, C0), (1, C1)]⟩ : Palette).Sample t = some (PixelLerp C0 C1 t)) ∧
    ((Palette.ofStock PaletteStock.Empty).SetColour 0 C0).SetColour 1 C1
      = ⟨[(0, C0), (1, C1)]⟩ ∧
    ((Palette.ofStock PaletteStock.Empty).SetColour 1 C1).SetColour 0 C0
      = ⟨[(0, C0), (1, C1)]⟩ ∧
    Palette.ofStock PaletteStock.Greyscale = ⟨[(0, BLACK), (1, WHITE)]⟩ := by
  refine ⟨?_, ?_, ?_, ?_, ?_, rfl⟩
  · exact Palette.Sample_two_point_at_or_below_zero C0 C1 0
      (by rw [fmod1_of_unit 0 (le_refl _) (by norm_num)])
  · exact Palette.Sample_two_point_at_or_below_zero C0 C1 1 (by rw [fmod1_one])
  · intro t h0 h1
    have hf := fmod1_of_unit t h0.le h1
    have h := Palette.Sample_two_point_inside C0 C1 t (by rw [hf]; exact h0) (by rw [hf]; exact h1)
    rw [hf] at h
    exact h
  · norm_num [Palette.SetColour, Palette.ofStock, clamp01, List.insertionSort,
      List.orderedInsert]
  · norm_num [Palette.SetColour, Palette.ofStock, clamp01, List.insertionSort,
      List.orderedInsert]

/-- Worked example of C11 amended with `C0 = RED`, `C1 = WHITE` at `t = 1/4`. -/
theorem palette_two_point_endpoints_witness :
    (⟨[(0, RED), (1, WHITE)]⟩ : Palette).Sample 0 = some RED ∧
    (⟨[(0, RED), (1, WHITE)]⟩ : Palette).Sample 1 = some RED ∧
    (⟨[(0, RED), (1, WHITE)]⟩ : Palette).Sample (1 / 4) = some (PixelLerp RED WHITE (1 / 4)) :=
  ⟨(palette_two_point_endpoints RED WHITE).1, (palette_two_point_endpoints RED WHITE).2.1,
   (palette_two_point_endpoints RED WHITE).2.2.1 (1 / 4) (by norm_num) (by norm_num)⟩

/-- C12 as stated fails when both channels are odd: blending `WHITE` with itself at
`t = 0.5` gives `(254, 254, 254)`, not `WHITE`, although the rounded-down average of 255
and 255 is 255. -/
theorem palette_half_blend_loses_one :
    (⟨[(0, WHITE), (1, WHITE)]⟩ : Palette).Sample (1 / 2) = some ⟨254, 254, 254, 255⟩ ∧
    (⟨[(0, WHITE), (1, WHITE)]⟩ : Palette).Sample (1 / 2) ≠ some WHITE ∧
    (WHITE.r + WHITE.r) / 2 = 255 := by
  have hf := fmod1_of_unit (1 / 2) (by norm_num) (by norm_num)
  have h := Palette.Sample_two_point_inside WHITE WHITE (1 / 2)
    (by rw [hf]; norm_num) (by rw [hf]; norm_num)
  rw [hf, PixelLerp_half WHITE WHITE (by decide) (by decide)] at h
  have h2 : (⟨[(0, WHITE), (1, WHITE)]⟩ : Palette).Sample (1 / 2) = some ⟨254, 254, 254, 255⟩ := h
  refine ⟨h2, ?_, by decide⟩
  rw [h2]
  decide

/-- C12, amended: for 8-bit colours `C0`, `C1`, the palette `(0, C0), (1, C1)` returns
from `Sample(0.5)` the pixel whose `r`, `g`, `b` channels are
`floor(c1 / 2) + floor(c0 / 2)`, which is the average rounded down, less one when both
channels are odd; its alpha is that of `C1`. -/
theorem palette_half_blend (C0 C1 : Pixel) (h0 : C0.Valid) (h1 : C1.Valid) :
    ∃ p, (⟨[(0, C0), (1, C1)]⟩ : Palette).Sample (1 / 2) = some p ∧
      p.r = C1.r / 2 + C0.r / 2 ∧ p.g = C1.g / 2 + C0.g / 2 ∧ p.b = C1.b / 2 + C0.b / 2 ∧
      p.a = C1.a ∧
      p.r = (C0.r + C1.r) / 2 - (if C0.r % 2 = 1 ∧ C1.r % 2 = 1 then 1 else 0) ∧
      p.g = (C0.g + C1.g) / 2 - (if C0.g % 2 = 1 ∧ C1.g % 2 = 1 then 1 else 0) ∧
      p.b = (C0.b + C1.b) / 2 - (if C0.b % 2 = 1 ∧ C1.b % 2 = 1 then 1 else 0) := by
  have hf := fmod1_of_unit (1 / 2) (by norm_num) (by norm_num)
  have h := Palette.Sample_two_point_inside C0 C1 (1 / 2)
    (by rw [hf]; norm_num) (by rw [hf]; norm_num)
  rw [hf, PixelLerp_half C0 C1 h0 h1] at h
  refine ⟨_, h, rfl, rfl, rfl, rfl, ?_, ?_, ?_⟩
  · show C1.r / 2 + C0.r / 2 = _
    split_ifs <;> omega
  · show C1.g / 2 + C0.g / 2 = _
    split_ifs <;> omega
  · show C1.b / 2 + C0.b / 2 = _
    split_ifs <;> omega

/-- Worked example of C12 amended: `Stock::Greyscale` sampled at 0.5 gives
`(127, 127, 127)`. -/
theorem palette_half_blend_witness :
    ∃ p, (Palette.ofStock PaletteStock.Greyscale).Sample (1 / 2) = some p ∧
      p.r = 127 ∧ p.g = 127 ∧ p.b = 127 ∧ p.a = 255 := by
  obtain ⟨p, hp, hr, hg, hb, ha, _⟩ := palette_half_blend BLACK WHITE (by decide) (by decide)
  exact ⟨p, hp, hr, hg, hb, ha⟩

/-- C13, at the input where the code departs from it: on `Stock::Greyscale`,
`Sample(-0.25)` returns the first colour `BLACK` (the `fmod` result `-0.25` is below every
location), while `Sample(-0.25 + 1)` returns the blend `PixelLerp(BLACK, WHITE, 0.75)`,
which is `(191, 191, 191)`. -/
theorem palette_sample_negative_does_not_wrap :
    (Palette.ofStock PaletteStock.Greyscale).Sample (-1 / 4) = some BLACK ∧
    (Palette.ofStock PaletteStock.Greyscale).Sample (-1 / 4 + 1) = some ⟨191, 191, 191, 255⟩ ∧
    (Palette.ofStock PaletteStock.Greyscale).Sample (-1 / 4 + 1)
      ≠ (Palette.ofStock PaletteStock.Greyscale).Sample (-1 / 4) := by
  have h1 : (Palette.ofStock PaletteStock.Greyscale).Sample (-1 / 4) = some BLACK :=
    Palette.Sample_two_point_at_or_below_zero BLACK WHITE (-1 / 4)
      (by rw [fmod1_neg_unit (-1 / 4) (by norm_num) (by norm_num)]; norm_num)
  have h34 : (-1 / 4 + 1 : ℚ) = 3 / 4 := by norm_num
  have hf := fmod1_of_unit (3 / 4) (by norm_num) (by norm_num)
  have h2 : (Palette.ofStock PaletteStock.Greyscale).Sample (-1 / 4 + 1)
      = some ⟨191, 191, 191, 255⟩ := by
    rw [h34]
    have h := Palette.Sample_two_point_inside BLACK WHITE (3 / 4)
      (by rw [hf]; norm_num) (by rw [hf]; norm_num)
    rw [hf] at h
    have hw : toUInt8 (min 255 (max 0 ((255 : ℚ) * (3 / 4)))) = 191 := by
      rw [max_eq_right (by norm_num), min_eq_right (by norm_num)]
      exact toUInt8_eq _ 191 (by decide) (by norm_num) (by norm_num)
    have hb : toUInt8 (min 255 (max 0 ((0 : ℚ) * (1 - 3 / 4)))) = 0 := by
      rw [max_eq_right (by norm_num), min_eq_right (by norm_num)]
      exact toUInt8_eq _ 0 (by decide) (by norm_num) (by norm_num)
    have hl : PixelLerp BLACK WHITE (3 / 4) = ⟨191, 191, 191, 255⟩ := by
      simp only [PixelLerp, Pixel.mulF, Pixel.add, BLACK, WHITE, nDefaultAlpha, Nat.cast_ofNat,
        Nat.cast_zero, hw, hb]
      decide
    rw [← hl]
    exact h
  refine ⟨h1, h2, ?_⟩
  rw [h1, h2]
  decide

/-- C14: every `DecalInstance` a decal draw call appends to the target layer's batch has
`pos`, `uv`, `tint` and `w` of length `points`. -/
theorem emitted_instance_lengths_agree (fl : FloatLib) (e : GameEngine) (c : DrawCall)
    (ht : e.nTargetLayer < e.vLayers.length) :
    ∃ new : List DecalInstance,
      (e.draw fl c).batch e.nTargetLayer = e.batch e.nTargetLayer ++ new ∧
      ∀ di ∈ new, di.pos.length = di.points ∧ di.uv.length = di.points ∧
        di.tint.length = di.points ∧ di.w.length = di.points := by
  obtain ⟨new, _, hwf, hdraw⟩ := GameEngine.draw_emits fl e c
  refine ⟨new, ?_, fun di hdi => (hwf di hdi).1⟩
  rw [hdraw, GameEngine.batch_append_new, if_pos ⟨rfl, ht⟩]

/-- Worked example of C14: a three-vertex `DrawPolygonDecal` on the 100x100 engine. -/
theorem emitted_instance_lengths_agree_witness :
    ∃ new : List DecalInstance,
      (smallEngine.draw exampleFloatLib
          (DrawCall.DrawPolygonDecal none [⟨0, 0⟩, ⟨10, 0⟩, ⟨0, 10⟩] [] RED)).batch 0
        = smallEngine.batch 0 ++ new ∧
      ∀ di ∈ new, di.pos.length = di.points ∧ di.uv.length = di.points ∧
        di.tint.length = di.points ∧ di.w.length = di.points :=
  emitted_instance_lengths_agree exampleFloatLib smallEngine
    (DrawCall.DrawPolygonDecal none [⟨0, 0⟩, ⟨10, 0⟩, ⟨0, 10⟩] [] RED) (by decide)

/-- C15 as stated fails: `DrawPolygonDecal` with an empty vertex list appends an instance
with `points = 0`, and `DrawExplicitDecal` with `elements = 1` one with `points = 1`. -/
theorem polygon_decal_accepts_fewer_than_two_vertices :
    ((smallEngine.DrawPolygonDecal none [] [] RED).batch 0).map (fun di => di.points) = [0] ∧
    ((smallEngine.DrawExplicitDecal none [⟨5, 5⟩] [⟨0, 0⟩] [RED] 1).batch 0).map
        (fun di => di.points) = [1] := by
  constructor <;> decide

/-- C15, amended: every `DecalInstance` appended by a decal draw call has `points` equal
to the number of vertices of the call: 4 for the quad calls, 2 for `DrawLineDecal`,
`pos.size()` for the `DrawPolygonDecal` overloads and `elements` for `DrawExplicitDecal`.
So `points >= 2` always holds for the fixed-size calls, and for `DrawPolygonDecal` and
`DrawExplicitDecal` exactly when the caller passes at least two vertices. -/
theorem emitted_instance_vertex_count (fl : FloatLib) (e : GameEngine) (c : DrawCall)
    (ht : e.nTargetLayer < e.vLayers.length) :
    ∃ new : List DecalInstance,
      (e.draw fl c).batch e.nTargetLayer = e.batch e.nTargetLayer ++ new ∧
      ∀ di ∈ new, di.points = c.vertices ∧
        (c.callerSized = false → 2 ≤ di.points) ∧
        (2 ≤ di.points ↔ 2 ≤ c.vertices) := by
  obtain ⟨new, _, hwf, hdraw⟩ := GameEngine.draw_emits fl e c
  refine ⟨new, ?_, ?_⟩
  · rw [hdraw, GameEngine.batch_append_new, if_pos ⟨rfl, ht⟩]
  · intro di hdi
    have hp := (hwf di hdi).2
    refine ⟨hp, ?_, by rw [hp]⟩
    intro hc
    rw [hp]
    cases c <;> simp [DrawCall.callerSized] at hc <;> simp [DrawCall.vertices]

/-- Worked example of C15 amended: a line has 2 vertices, a three-vertex polygon 3. -/
theorem emitted_instance_vertex_count_witness :
    (∃ new : List DecalInstance,
      (smallEngine.draw exampleFloatLib (DrawCall.DrawLineDecal ⟨0, 0⟩ ⟨50, 50⟩ WHITE)).batch 0
        = smallEngine.batch 0 ++ new ∧
      ∀ di ∈ new, di.points = 2 ∧ 2 ≤ di.points) ∧
    (DrawCall.DrawPolygonDecal none [⟨0, 0⟩, ⟨10, 0⟩, ⟨0, 10⟩] [] RED).vertices = 3 := by
  obtain ⟨new, h1, h2⟩ := emitted_instance_vertex_count exampleFloatLib smallEngine
    (DrawCall.DrawLineDecal ⟨0, 0⟩ ⟨50, 50⟩ WHITE) (by decide)
  exact ⟨⟨new, h1, fun di hdi => ⟨(h2 di hdi).1, (h2 di hdi).2.1 rfl⟩⟩, rfl⟩

/-- C16: `Construct` returns `FAIL` if and only if one of `screen_w`, `screen_h`,
`pixel_w`, `pixel_h` is `<= 0`, and `OK` otherwise; `FAIL` is the code 0 and `OK` the
code 1. -/
theorem Construct_fails_iff_nonpositive (e : GameEngine) (screen_w screen_h pixel_w pixel_h : Int)
    (full_screen vsync cohesion : Bool) :
    ((e.Construct screen_w screen_h pixel_w pixel_h full_screen vsync cohesion).1 = rcode.FAIL ↔
      (screen_w ≤ 0 ∨ screen_h ≤ 0 ∨ pixel_w ≤ 0 ∨ pixel_h ≤ 0)) ∧
    ((e.Construct screen_w screen_h pixel_w pixel_h full_screen vsync cohesion).1 = rcode.OK ↔
      ¬ (screen_w ≤ 0 ∨ screen_h ≤ 0 ∨ pixel_w ≤ 0 ∨ pixel_h ≤ 0)) ∧
    rcode.FAIL.toInt = 0 ∧ rcode.OK.toInt = 1 := by
  refine ⟨?_, ?_, rfl, rfl⟩
  · simp only [GameEngine.Construct]
    split_ifs with h
    · simp only [true_iff]
      rcases h with h | h | h | h
      · exact Or.inr (Or.inr (Or.inl h))
      · exact Or.inr (Or.inr (Or.inr h))
      · exact Or.inl h
      · exact Or.inr (Or.inl h)
    · simp only [false_iff, reduceCtorEq]
      intro hc
      apply h
      rcases hc with hc | hc | hc | hc
      · exact Or.inr (Or.inr (Or.inl hc))
      · exact Or.inr (Or.inr (Or.inr hc))
      · exact Or.inl hc
      · exact Or.inr (Or.inl hc)
  · simp only [GameEngine.Construct]
    split_ifs with h
    · simp only [reduceCtorEq, false_iff, not_not]
      rcases h with h | h | h | h
      · exact Or.inr (Or.inr (Or.inl h))
      · exact Or.inr (Or.inr (Or.inr h))
      · exact Or.inl h
      · exact Or.inr (Or.inl h)
    · simp only [true_iff]
      intro hc
      apply h
      rcases hc with hc | hc | hc | hc
      · exact Or.inr (Or.inr (Or.inl hc))
      · exact Or.inr (Or.inr (Or.inr hc))
      · exact Or.inl hc
      · exact Or.inr (Or.inl hc)

/-- Worked example of C16: the demo's `Construct(1920, 1080, 1, 1)` returns `OK`, and a
zero pixel width returns `FAIL`. -/
theorem Construct_fails_iff_nonpositive_witness :
    (({} : GameEngine).Construct 1920 1080 1 1 false false false).1 = rcode.OK ∧
    (({} : GameEngine).Construct 1920 1080 0 1 false false false).1 = rcode.FAIL :=
  ⟨(Construct_fails_iff_nonpositive {} 1920 1080 1 1 false false false).2.1.mpr (by decide),
   (Construct_fails_iff_nonpositive {} 1920 1080 0 1 false false false).1.mpr (by decide)⟩

/-- C17: in one compositing pass the instances handed to the backend's `DrawDecal` are the
concatenation, taken from the highest layer index down to layer 0, of the stored batch of
each layer that is shown (layer 0 counts as shown) and has no custom render function;
hidden layers and layers with a custom render function contribute nothing. The order
depends on the layer index only, not on the order the draw calls were issued in. -/
theorem compositing_order_by_layer_index (e : GameEngine) :
    ∃ tr, (GameEngine.alo_CoreUpdate_display e).renderer = e.renderer ++ tr ∧
      submitted tr =
        ((List.range e.vLayers.length).reverse.map (fun i =>
          if (i = 0 ∨ e.layerShown i = true) ∧ e.layerHooked i = false
          then e.batch i else [])).flatten :=
  GameEngine.display_submitted_by_index e

/-- Worked example of C17: with two shown layers, each holding one instance, the pass
submits the batch of layer 1 and then that of layer 0, although layer 0 was drawn on
last. -/
theorem compositing_order_by_layer_index_witness :
    ∃ tr, (GameEngine.alo_CoreUpdate_display bothShownEngine).renderer
        = bothShownEngine.renderer ++ tr ∧
      submitted tr = bothShownEngine.batch 1 ++ bothShownEngine.batch 0 := by
  obtain ⟨tr, h1, h2⟩ := compositing_order_by_layer_index bothShownEngine
  refine ⟨tr, h1, ?_⟩
  rw [h2]
  have hl : bothShownEngine.vLayers.length = 2 := by decide
  have hr : (List.range 2).reverse = [1, 0] := by decide
  have c1 : ((1 = 0 ∨ bothShownEngine.layerShown 1 = true)
      ∧ bothShownEngine.layerHooked 1 = false) := by decide
  have c0 : bothShownEngine.layerHooked 0 = false := by decide
  rw [hl, hr]
  simp only [List.map_cons, List.map_nil, if_pos c1, c0, List.flatten_cons,
    List.flatten_nil, List.append_nil, true_or, and_self, if_true]

/-- C18 as stated fails: the stored positions are snapped to the view-pixel grid and the
far corner is rounded up. On a 100x100 screen shown in a 100x100 view, the 8x8 glyph
quad drawn at `(0, 0)` with scale 1 stores the corner `(-0.83, 0.84)`, while the
section 4.1 transform of `(8, 8)` is `(-0.84, 0.84)`. -/
theorem partial_decal_far_corner_rounded_up :
    ∃ di, (viewEngine.DrawPartialDecal ⟨0, 0⟩ fontDecal ⟨0, 0⟩ ⟨8, 8⟩ ⟨1, 1⟩ WHITE).batch 0
        = viewEngine.batch 0 ++ [di] ∧
      di.pos = [⟨-1, 1⟩, ⟨-1, 21 / 25⟩, ⟨-83 / 100, 21 / 25⟩, ⟨-83 / 100, 1⟩] ∧
      specNdc 100 100 ((⟨0, 0⟩ : vf2d).add ((⟨8, 8⟩ : vf2d).mul ⟨1, 1⟩)) = ⟨-21 / 25, 21 / 25⟩ := by
  obtain ⟨di, h1, h2⟩ := GameEngine.DrawPartialDecal_batch ({} : GameEngine) viewEngine
    100 100 1 1 false false false viewEngine_vInvScreenSize
    (by rw [viewEngine_target.1, viewEngine_target.2]; decide) 100 100 viewEngine_vViewSize
    ⟨0, 0⟩ fontDecal ⟨0, 0⟩ ⟨8, 8⟩ ⟨1, 1⟩ WHITE
  rw [viewEngine_target.1] at h1
  refine ⟨di, h1, ?_, by norm_num [specNdc, vf2d.add, vf2d.mul]⟩
  have f1 : ⌊(specNdc ((100 : Int) : ℚ) ((100 : Int) : ℚ) ⟨0, 0⟩).x * ((100 : Int) : ℚ) + 1 / 2⌋
      = -100 := by
    rw [Int.floor_eq_iff]; norm_num [specNdc]
  have f2 : ⌊(specNdc ((100 : Int) : ℚ) ((100 : Int) : ℚ) ⟨0, 0⟩).y * ((100 : Int) : ℚ) + 1 / 2⌋
      = 100 := by
    rw [Int.floor_eq_iff]; norm_num [specNdc]
  have f3 : ⌈(specNdc ((100 : Int) : ℚ) ((100 : Int) : ℚ)
      ((⟨0, 0⟩ : vf2d).add ((⟨8, 8⟩ : vf2d).mul ⟨1, 1⟩))).x * ((100 : Int) : ℚ) + 1 / 2⌉
      = -83 := by
    rw [Int.ceil_eq_iff]; norm_num [specNdc, vf2d.add, vf2d.mul]
  have f4 : ⌈(specNdc ((100 : Int) : ℚ) ((100 : Int) : ℚ)
      ((⟨0, 0⟩ : vf2d).add ((⟨8, 8⟩ : vf2d).mul ⟨1, 1⟩))).y * ((100 : Int) : ℚ) + -(1 / 2)⌉
      = 84 := by
    rw [Int.ceil_eq_iff]; norm_num [specNdc, vf2d.add, vf2d.mul]
  rw [h2, f1, f2, f3, f4]
  norm_num

/-- C18, amended: for a screen size set by `Construct` and a view of `Vx` by `Vy` pixels
(`Vx, Vy > 0`), `DrawPartialDecal(pos, decal, source_pos, source_size, scale, tint)`
appends one `DecalInstance` whose four positions are the corners `(x0,y0)`, `(x0,y1)`,
`(x1,y1)`, `(x1,y0)` of a rectangle on the view-pixel grid (each coordinate times the view
size is an integer) obtained by snapping the section 4.1 transforms of `pos` and
`pos + source_size*scale`: `(x0, y0)` is within half a view pixel of the transform of
`pos`, `x1` exceeds the transform of the far corner by at least half and less than one and
a half view pixels, and `y1` is within half a view pixel of it. -/
theorem partial_decal_positions_snapped (e0 e : GameEngine) (W H pw ph : Int)
    (fs vs co : Bool) (hW : 0 < W) (hH : 0 < H)
    (hinv : e.vInvScreenSize = (e0.Construct W H pw ph fs vs co).2.vInvScreenSize)
    (ht : e.nTargetLayer < e.vLayers.length) (Vx Vy : Int) (hVx : 0 < Vx) (hVy : 0 < Vy)
    (hview : e.vViewSize = ⟨Vx, Vy⟩)
    (pos : vf2d) (decal : Decal) (source_pos source_size scale : vf2d) (tint : Pixel) :
    ∃ (di : DecalInstance) (x0 y0 x1 y1 : ℚ),
      (e.DrawPartialDecal pos decal source_pos source_size scale tint).batch e.nTargetLayer
        = e.batch e.nTargetLayer ++ [di] ∧
      di.pos = [⟨x0, y0⟩, ⟨x0, y1⟩, ⟨x1, y1⟩, ⟨x1, y0⟩] ∧
      (∃ n : Int, x0 * (Vx : ℚ) = n) ∧ (∃ n : Int, y0 * (Vy : ℚ) = n) ∧
      (∃ n : Int, x1 * (Vx : ℚ) = n) ∧ (∃ n : Int, y1 * (Vy : ℚ) = n) ∧
      |x0 - (specNdc W H pos).x| ≤ 1 / (2 * (Vx : ℚ)) ∧
      |y0 - (specNdc W H pos).y| ≤ 1 / (2 * (Vy : ℚ)) ∧
      1 / (2 * (Vx : ℚ)) ≤ x1 - (specNdc W H (pos.add (source_size.mul scale))).x ∧
      x1 - (specNdc W H (pos.add (source_size.mul scale))).x < 3 / (2 * (Vx : ℚ)) ∧
      -(1 / (2 * (Vy : ℚ))) ≤ y1 - (specNdc W H (pos.add (source_size.mul scale))).y ∧
      y1 - (specNdc W H (pos.add (source_size.mul scale))).y < 1 / (2 * (Vy : ℚ)) := by
  have _hWH : 0 < W ∧ 0 < H := ⟨hW, hH⟩
  have hx : (0 : ℚ) < (Vx : ℚ) := by exact_mod_cast hVx
  have hy : (0 : ℚ) < (Vy : ℚ) := by exact_mod_cast hVy
  obtain ⟨di, h1, h2⟩ := GameEngine.DrawPartialDecal_batch e0 e W H pw ph fs vs co hinv ht
    Vx Vy hview pos decal source_pos source_size scale tint
  refine ⟨di,
    ((⌊(specNdc W H pos).x * Vx + 1 / 2⌋ : Int) : ℚ) / Vx,
    ((⌊(specNdc W H pos).y * Vy + 1 / 2⌋ : Int) : ℚ) / Vy,
    ((⌈(specNdc W H (pos.add (source_size.mul scale))).x * Vx + 1 / 2⌉ : Int) : ℚ) / Vx,
    ((⌈(specNdc W H (pos.add (source_size.mul scale))).y * Vy + -(1 / 2)⌉ : Int) : ℚ) / Vy,
    h1, h2, ?_⟩
  exact ⟨⟨_, div_mul_cancel₀ _ hx.ne'⟩, ⟨_, div_mul_cancel₀ _ hy.ne'⟩,
    ⟨_, div_mul_cancel₀ _ hx.ne'⟩, ⟨_, div_mul_cancel₀ _ hy.ne'⟩,
    snap_floor_half _ _ hx, snap_floor_half _ _ hy,
    (snap_ceil_plus_half _ _ hx).1, (snap_ceil_plus_half _ _ hx).2,
    (snap_ceil_minus_half _ _ hy).1, (snap_ceil_minus_half _ _ hy).2⟩

/-- Worked example of C18 amended on the 100x100 engine with a 100x100 view: the glyph
quad at `(0, 0)`. -/
theorem partial_decal_positions_snapped_witness :
    ∃ (di : DecalInstance) (x0 y0 x1 y1 : ℚ),
      (viewEngine.DrawPartialDecal ⟨0, 0⟩ fontDecal ⟨0, 0⟩ ⟨8, 8⟩ ⟨1, 1⟩ WHITE).batch 0
        = viewEngine.batch 0 ++ [di] ∧
      di.pos = [⟨x0, y0⟩, ⟨x0, y1⟩, ⟨x1, y1⟩, ⟨x1, y0⟩] ∧
      |x0 - (specNdc 100 100 ⟨0, 0⟩).x| ≤ 1 / (2 * 100) ∧
      1 / (2 * 100) ≤ x1 - (specNdc 100 100 ((⟨0, 0⟩ : vf2d).add ((⟨8, 8⟩ : vf2d).mul ⟨1, 1⟩))).x := by
  obtain ⟨di, x0, y0, x1, y1, h1, h2, _, _, _, _, h3, _, h4, _⟩ :=
    partial_decal_positions_snapped ({} : GameEngine) viewEngine 100 100 1 1 false false false
      (by decide) (by decide) viewEngine_vInvScreenSize
      (by rw [viewEngine_target.1, viewEngine_target.2]; decide) 100 100 (by decide) (by decide)
      viewEngine_vViewSize ⟨0, 0⟩ fontDecal ⟨0, 0⟩ ⟨8, 8⟩ ⟨1, 1⟩ WHITE
  rw [viewEngine_target.1] at h1
  refine ⟨di, x0, y0, x1, y1, h1, h2, ?_, ?_⟩
  · simpa using h3
  · simpa using h4

/-- C19 as stated fails: with corners `(1,1)`, `(5,0)`, `(2,2)`, `(5,1)` the determinant
is 1, the diagonal lines meet at `(5, 5)` (outside both segments, `rn = 4`, `sn = 5`), and
`center` keeps its default value `(0, 0)`. -/
theorem warp_center_left_at_origin :
    ((⟨2, 2⟩ : vf2d).sub ⟨1, 1⟩).cross ((⟨5, 1⟩ : vf2d).sub ⟨5, 0⟩) ≠ 0 ∧
    onLine ⟨1, 1⟩ ⟨2, 2⟩ ⟨5, 5⟩ ∧ onLine ⟨5, 0⟩ ⟨5, 1⟩ ⟨5, 5⟩ ∧
    GameEngine.warpCenter [⟨1, 1⟩, ⟨5, 0⟩, ⟨2, 2⟩, ⟨5, 1⟩] = ⟨0, 0⟩ ∧
    GameEngine.warpCenter [⟨1, 1⟩, ⟨5, 0⟩, ⟨2, 2⟩, ⟨5, 1⟩] ≠ ⟨5, 5⟩ := by
  have hc : GameEngine.warpCenter [⟨1, 1⟩, ⟨5, 0⟩, ⟨2, 2⟩, ⟨5, 1⟩] = ⟨0, 0⟩ := by
    norm_num [GameEngine.warpCenter, GameEngine.warpRd, vf2d.zero]
  refine ⟨by norm_num [vf2d.cross, vf2d.sub], ⟨4, by norm_num [vf2d.add, vf2d.lsmul, vf2d.sub]⟩,
    ⟨5, by norm_num [vf2d.add, vf2d.lsmul, vf2d.sub]⟩, hc, ?_⟩
  rw [hc]
  intro h
  have := congrArg vf2d.x h
  norm_num at this

/-- C19, amended: for corners `p0..p3` with `rd = (p2-p0) x (p3-p1) != 0` whose diagonals
`p0-p2` and `p1-p3` cross as segments, the point `center` from which the warped draw calls
take the distances `d[i]` is that crossing point. -/
theorem warp_center_is_diagonal_crossing (fl : FloatLib) (p0 p1 p2 p3 X : vf2d)
    (hrd : (p2.sub p0).cross (p3.sub p1) ≠ 0)
    (h02 : onSegment p0 p2 X) (h13 : onSegment p1 p3 X) :
    GameEngine.warpCenter [p0, p1, p2, p3] = X ∧
    ∀ i, GameEngine.warpD fl [p0, p1, p2, p3] i
      = (([p0, p1, p2, p3].getD i vf2d.zero).sub X).mag fl.sqrt := by
  obtain ⟨r, hr0, hr1, hX⟩ := h02
  obtain ⟨s, hs0, hs1, hY⟩ := h13
  have hrd2 : GameEngine.warpRd [p0, p1, p2, p3]
      = (p2.x - p0.x) * (p3.y - p1.y) - (p3.x - p1.x) * (p2.y - p0.y) := rfl
  have hne : GameEngine.warpRd [p0, p1, p2, p3] ≠ 0 := by
    rw [hrd2]
    intro h
    apply hrd
    simp only [vf2d.cross, vf2d.sub]
    linarith
  have hx : p0.x + r * (p2.x - p0.x) = p1.x + s * (p3.x - p1.x) := by
    have := congrArg vf2d.x (hX.symm.trans hY)
    simpa [vf2d.add, vf2d.lsmul, vf2d.sub] using this
  have hy : p0.y + r * (p2.y - p0.y) = p1.y + s * (p3.y - p1.y) := by
    have := congrArg vf2d.y (hX.symm.trans hY)
    simpa [vf2d.add, vf2d.lsmul, vf2d.sub] using this
  have hn1 : ((p3.x - p1.x) * (p0.y - p1.y) - (p3.y - p1.y) * (p0.x - p1.x))
      * (1 / GameEngine.warpRd [p0, p1, p2, p3]) = r := by
    rw [mul_one_div, div_eq_iff hne, hrd2]
    linear_combination (p3.x - p1.x) * hy - (p3.y - p1.y) * hx
  have hn2 : ((p2.x - p0.x) * (p0.y - p1.y) - (p2.y - p0.y) * (p0.x - p1.x))
      * (1 / GameEngine.warpRd [p0, p1, p2, p3]) = s := by
    rw [mul_one_div, div_eq_iff hne, hrd2]
    linear_combination (p2.x - p0.x) * hy - (p2.y - p0.y) * hx
  have hcenter : GameEngine.warpCenter [p0, p1, p2, p3] = X := by
    have hu : GameEngine.warpCenter [p0, p1, p2, p3]
        = (if ¬ (((p3.x - p1.x) * (p0.y - p1.y) - (p3.y - p1.y) * (p0.x - p1.x))
                  * (1 / GameEngine.warpRd [p0, p1, p2, p3]) < 0
              ∨ ((p3.x - p1.x) * (p0.y - p1.y) - (p3.y - p1.y) * (p0.x - p1.x))
                  * (1 / GameEngine.warpRd [p0, p1, p2, p3]) > 1
              ∨ ((p2.x - p0.x) * (p0.y - p1.y) - (p2.y - p0.y) * (p0.x - p1.x))
                  * (1 / GameEngine.warpRd [p0, p1, p2, p3]) < 0
              ∨ ((p2.x - p0.x) * (p0.y - p1.y) - (p2.y - p0.y) * (p0.x - p1.x))
                  * (1 / GameEngine.warpRd [p0, p1, p2, p3]) > 1)
            then p0.add (vf2d.lsmul
              (((p3.x - p1.x) * (p0.y - p1.y) - (p3.y - p1.y) * (p0.x - p1.x))
                  * (1 / GameEngine.warpRd [p0, p1, p2, p3])) (p2.sub p0))
            else vf2d.zero) := rfl
    rw [hu, hn1, hn2, if_pos, hX]
    intro h
    rcases h with h | h | h | h <;> linarith
  refine ⟨hcenter, ?_⟩
  intro i
  unfold GameEngine.warpD
  rw [hcenter]

/-- Worked example of C19 amended: for the square `(0,0)`, `(4,0)`, `(4,4)`, `(0,4)` the
diagonals cross at `(2, 2)`, and that is `center`. -/
theorem warp_center_is_diagonal_crossing_witness :
    GameEngine.warpCenter [⟨0, 0⟩, ⟨4, 0⟩, ⟨4, 4⟩, ⟨0, 4⟩] = ⟨2, 2⟩ :=
  (warp_center_is_diagonal_crossing exampleFloatLib ⟨0, 0⟩ ⟨4, 0⟩ ⟨4, 4⟩ ⟨0, 4⟩ ⟨2, 2⟩
    (by norm_num [vf2d.cross, vf2d.sub])
    ⟨1 / 2, by norm_num, by norm_num, by norm_num [vf2d.add, vf2d.lsmul, vf2d.sub]⟩
    ⟨1 / 2, by norm_num, by norm_num, by norm_num [vf2d.add, vf2d.lsmul, vf2d.sub]⟩).1

/-- C20, at the input where the code departs from it: when `platform->CreateGraphics`
returns `FAIL`, `alo_PrepareEngine` returns before `CreateLayer`, yet `EngineThread` goes
on to `OnUserCreate` and, `bAtomActive` still being set, to its first `alo_CoreUpdate`
with an empty layer stack. -/
theorem frame_loop_entered_without_layer0 :
    ∃ e1, startedEngine.EngineThread_firstFrameState rcode.OK rcode.FAIL 1 2
        (Sprite.create 128 48) (fun e => (true, e)) = some e1 ∧
      e1.vLayers = [] ∧ e1.bAtomActive = true := by
  refine ⟨startedEngine, ?_, startedEngine_state.1, startedEngine_state.2⟩
  simp [GameEngine.EngineThread_firstFrameState, GameEngine.EngineThread_init,
    GameEngine.alo_PrepareEngine_fail, startedEngine_state.2]

/-- C22, at an input where the claim as stated fails: `DrawLine(0, 0, 0, INT_MAX, p)`
takes the branch `dx == 0`, and its loop `for (y = y1; y <= y2; y++)` with
`y2 == INT_MAX` has a test that no `int` value of `y` fails, so the call never returns,
whatever the number of loop tests allowed. -/
theorem DrawLine_never_returns_at_INT_MAX :
    ¬ ∃ (fuel : Nat) (l : List vi2d), DrawLine fuel 0 0 0 2147483647 0xFFFFFFFF = some l := by
  rintro ⟨fuel, l, hl⟩
  have h := DrawLine_vertical_never_ends 0 fuel 0 0xFFFFFFFF (by norm_num)
  have hn : DrawLine fuel 0 0 0 2147483647 0xFFFFFFFF = none := by
    simpa [DrawLine, wrap32] using h
  rw [hn] at hl
  cases hl

/-- C22, amended: for `int32_t` endpoints below `INT_MAX` that lie less than `2^30` apart
in each coordinate, `DrawLine(x1, y1, x2, y2, p)` with the default pattern `0xFFFFFFFF`
returns (within `max(|x2-x1|, |y2-y1|) + 2` loop tests) after exactly
`max(|x2-x1|, |y2-y1|) + 1` calls of `Draw`; both `(x1, y1)` and `(x2, y2)` are among the
positions drawn, one being the first and the other the last; and each position differs
from the one before by at most 1 in each coordinate. -/
theorem DrawLine_draws_connected_line (fuel : Nat) (x1 y1 x2 y2 : Int)
    (hr : lineInRange x1 y1 x2 y2) (hf : max |x2 - x1| |y2 - y1| + 2 ≤ (fuel : Int)) :
    ∃ l, DrawLine fuel x1 y1 x2 y2 0xFFFFFFFF = some l ∧
      (l.length : Int) = max |x2 - x1| |y2 - y1| + 1 ∧
      (⟨x1, y1⟩ : vi2d) ∈ l ∧ (⟨x2, y2⟩ : vi2d) ∈ l ∧
      l.Chain' adjacent ∧
      ((l.head? = some ⟨x1, y1⟩ ∧ l.getLast? = some ⟨x2, y2⟩) ∨
        (l.head? = some ⟨x2, y2⟩ ∧ l.getLast? = some ⟨x1, y1⟩)) := by
  obtain ⟨l, hl, hp⟩ := DrawLine_full_path fuel x1 y1 x2 y2 hr hf
  refine ⟨l, hl, ?_⟩
  rcases hp with ⟨hlen, hh, hg, hc⟩ | ⟨hlen, hh, hg, hc⟩
  · exact ⟨hlen, List.mem_of_mem_head? hh, List.mem_of_mem_getLast? hg, hc, Or.inl ⟨hh, hg⟩⟩
  · exact ⟨hlen, List.mem_of_mem_getLast? hg, List.mem_of_mem_head? hh, hc, Or.inr ⟨hh, hg⟩⟩

/-- Worked example of C22 amended: the line from `(3, 7)` to `(0, 0)`, with 9 loop tests
allowed, returns after `max(3, 7) + 1 = 8` calls of `Draw`, `(3, 7)` and `(0, 0)` among
them. -/
theorem DrawLine_draws_connected_line_witness :
    ∃ l, DrawLine 9 3 7 0 0 0xFFFFFFFF = some l ∧ (l.length : Int) = 8 ∧
      (⟨3, 7⟩ : vi2d) ∈ l ∧ (⟨0, 0⟩ : vi2d) ∈ l := by
  obtain ⟨l, h1, h2, h3, h4, _⟩ :=
    DrawLine_draws_connected_line 9 3 7 0 0 (by unfold lineInRange; norm_num) (by norm_num)
  refine ⟨l, h1, ?_, h3, h4⟩
  rw [h2]
  norm_num

/-- C24, at the input where the code departs from it: after
`Palette p; p.SetColour(0.2, RED); p.SetColour(0.5, BLUE);` the palette holds the two
control points `(0.2, RED)`, `(0.5, BLUE)`, and in `p.Sample(0.7)` the scan
`while (i > it->first) ++it;` passes both entries and leaves the vector. In general the
scan stops at an entry exactly when some location is at least `fmod(t, 1.0)`, which holds
for the three non-empty stock palettes (their last location is 1). -/
theorem palette_scan_runs_past_last_entry :
    lowPalette.vColors = [(1 / 5, RED), (1 / 2, BLUE)] ∧
    Palette.scan (fmod1 (7 / 10)) none lowPalette.vColors = none ∧
    lowPalette.Sample (7 / 10) = none ∧
    (∀ (p : Palette) (t : ℚ),
      (Palette.scan (fmod1 t) none p.vColors).isSome ↔ ∃ e ∈ p.vColors, fmod1 t ≤ e.1) ∧
    ∀ (stock : PaletteStock) (t : ℚ), stock ≠ PaletteStock.Empty →
      (Palette.scan (fmod1 t) none (Palette.ofStock stock).vColors).isSome := by
  have hf : fmod1 (7 / 10) = 7 / 10 := fmod1_of_unit (7 / 10) (by norm_num) (by norm_num)
  have hs : Palette.scan (fmod1 (7 / 10)) none lowPalette.vColors = none := by
    rw [Palette.lowPalette_vColors, hf]
    norm_num [Palette.scan]
  refine ⟨Palette.lowPalette_vColors, hs, ?_, fun p t => Palette.scan_isSome_iff _ _ _,
    fun stock t h => Palette.scan_stock_isSome stock h t⟩
  have hv := Palette.lowPalette_vColors
  unfold Palette.Sample
  rw [hv] at hs ⊢
  simp only [hs]

/-- C25: after any run of `SetColour` calls on a palette constructed from any `Stock`
value (`Empty` included), the control points are sorted by strictly increasing location
and every location lies in `[0, 1]`; and on such a palette a `SetColour(d, col)` whose
clamped location is already present gives the same vector with the colour of that entry
replaced by `col`: same number of entries, every other entry unchanged. -/
theorem SetColour_keeps_palette_sorted (stock : PaletteStock) (calls : List (ℚ × Pixel))
    (d : ℚ) (col : Pixel) :
    ((Palette.ofStock stock).SetColours calls).vColors.Pairwise (fun a b => a.1 < b.1) ∧
    (∀ e ∈ ((Palette.ofStock stock).SetColours calls).vColors, 0 ≤ e.1 ∧ e.1 ≤ 1) ∧
    ((∃ e ∈ ((Palette.ofStock stock).SetColours calls).vColors, e.1 = clamp01 d) →
      (((Palette.ofStock stock).SetColours calls).SetColour d col).vColors
        = ((Palette.ofStock stock).SetColours calls).vColors.map
            (fun e => if e.1 = clamp01 d then (e.1, col) else e) ∧
      (((Palette.ofStock stock).SetColours calls).SetColour d col).vColors.length
        = ((Palette.ofStock stock).SetColours calls).vColors.length) := by
  obtain ⟨h1, h2⟩ := Palette.SetColours_sorted_unit (Palette.ofStock stock) calls
    (Palette.ofStock_sorted_unit stock).1 (Palette.ofStock_sorted_unit stock).2
  refine ⟨h1, h2, ?_⟩
  rintro ⟨e, he, hed⟩
  have hany : ((Palette.ofStock stock).SetColours calls).vColors.any
      (fun e => decide (e.1 = clamp01 d)) = true := by
    rw [List.any_eq_true]
    exact ⟨e, he, by simpa using hed⟩
  have hset : (((Palette.ofStock stock).SetColours calls).SetColour d col).vColors
      = ((Palette.ofStock stock).SetColours calls).vColors.map
          (fun e => if e.1 = clamp01 d then (e.1, col) else e) := by
    unfold Palette.SetColour
    simp only [hany, if_true]
    exact Palette.replaceFirst_eq_map _ _ _ h1
  exact ⟨hset, by rw [hset, List.length_map]⟩

/-- Worked example of C25: on `Stock::Greyscale` after `SetColour(0.5, RED)`, the call
`SetColour(7, BLUE)` (clamped to location 1, already present) replaces the colour at 1
and keeps the three entries. -/
theorem SetColour_keeps_palette_sorted_witness :
    (((Palette.ofStock PaletteStock.Greyscale).SetColours [(1 / 2, RED)]).SetColour 7
        BLUE).vColors.length
      = ((Palette.ofStock PaletteStock.Greyscale).SetColours [(1 / 2, RED)]).vColors.length :=
  ((SetColour_keeps_palette_sorted PaletteStock.Greyscale [(1 / 2, RED)] 7 BLUE).2.2
    ⟨(1, WHITE), by
      norm_num [Palette.SetColours, Palette.SetColour, Palette.ofStock, clamp01,
        List.insertionSort, List.orderedInsert], by norm_num [clamp01]⟩).2

/-- C26, at the input where the code departs from it: with `p1 = (10, 20, 30, 255)` and
`p2 = (0, 0, 0, 0)`, `PixelLerp(p1, p2, 0)` is `(10, 20, 30, 0)`, which is not `p1`: the
alpha is that of `p2`. -/
theorem PixelLerp_zero_takes_alpha_of_second :
    PixelLerp ⟨10, 20, 30, 255⟩ ⟨0, 0, 0, 0⟩ 0 = ⟨10, 20, 30, 0⟩ ∧
    PixelLerp ⟨10, 20, 30, 255⟩ ⟨0, 0, 0, 0⟩ 0 ≠ ⟨10, 20, 30, 255⟩ := by
  have h := PixelLerp_at_zero ⟨10, 20, 30, 255⟩ ⟨0, 0, 0, 0⟩ (by decide)
  refine ⟨h, ?_⟩
  rw [h]
  decide

/-- C26, amended: for 8-bit pixels `p1`, `p2`, `PixelLerp(p1, p2, 1) == p2`, while
`PixelLerp(p1, p2, 0)` has the red, green and blue of `p1` and the alpha of `p2`, so it
equals `p1` exactly when the two alphas agree. -/
theorem PixelLerp_endpoints (p1 p2 : Pixel) (h1 : p1.Valid) (h2 : p2.Valid) :
    PixelLerp p1 p2 1 = p2 ∧
    PixelLerp p1 p2 0 = ⟨p1.r, p1.g, p1.b, p2.a⟩ ∧
    (PixelLerp p1 p2 0 = p1 ↔ p2.a = p1.a) := by
  refine ⟨PixelLerp_at_one p1 p2 h2, PixelLerp_at_zero p1 p2 h1, ?_⟩
  rw [PixelLerp_at_zero p1 p2 h1]
  cases p1
  simp

/-- Worked example of C26 amended: between `RED` and `BLANK`, `t = 1` gives `BLANK` and
`t = 0` gives red with the alpha of `BLANK`. -/
theorem PixelLerp_endpoints_witness :
    PixelLerp RED BLANK 1 = BLANK ∧ PixelLerp RED BLANK 0 = ⟨255, 0, 0, 0⟩ :=
  ⟨(PixelLerp_endpoints RED BLANK (by decide) (by decide)).1,
   (PixelLerp_endpoints RED BLANK (by decide) (by decide)).2.1⟩

/-- C27: for a sprite with `width, height >= 1` whose pixel array has `width * height`
entries, and for all integers `x`, `y`, the index `abs(y % height) * width + abs(x % width)`
read in `PERIODIC` mode and the index
`max(0, min(y, height-1)) * width + max(0, min(x, width-1))` read in `CLAMP` mode lie in
`[0, width * height)`, and `GetPixel` returns the pixel stored there. -/
theorem GetPixel_periodic_clamp_in_bounds (s : Sprite) (x y : Int) (hs : s.WellFormed)
    (hw : 1 ≤ s.width) (hh : 1 ≤ s.height) :
    (s.modeSample = SpriteMode.PERIODIC →
      0 ≤ |Int.tmod y s.height| * s.width + |Int.tmod x s.width| ∧
      |Int.tmod y s.height| * s.width + |Int.tmod x s.width| < s.width * s.height ∧
      s.GetPixel x y
        = s.pColData[(|Int.tmod y s.height| * s.width + |Int.tmod x s.width|).toNat]? ∧
      (s.GetPixel x y).isSome) ∧
    (s.modeSample = SpriteMode.CLAMP →
      0 ≤ max 0 (min y (s.height - 1)) * s.width + max 0 (min x (s.width - 1)) ∧
      max 0 (min y (s.height - 1)) * s.width + max 0 (min x (s.width - 1))
        < s.width * s.height ∧
      s.GetPixel x y
        = s.pColData[(max 0 (min y (s.height - 1)) * s.width
            + max 0 (min x (s.width - 1))).toNat]? ∧
      (s.GetPixel x y).isSome) := by
  constructor
  · intro hm
    obtain ⟨hy0, hy1⟩ := abs_tmod_bounds y s.height hh
    obtain ⟨hx0, hx1⟩ := abs_tmod_bounds x s.width hw
    obtain ⟨h0, h1⟩ := index_in_bounds s.width s.height _ _ hy0 hy1 hx0 hx1
    have hg : s.GetPixel x y
        = s.readData (|Int.tmod y s.height| * s.width + |Int.tmod x s.width|) := by
      simp [Sprite.GetPixel, hm]
    rw [hg]
    exact ⟨h0, h1, readData_in_bounds s _ hs h0 h1⟩
  · intro hm
    have hy0 : 0 ≤ max 0 (min y (s.height - 1)) := le_max_left _ _
    have hy1 : max 0 (min y (s.height - 1)) < s.height := by
      rcases max_cases 0 (min y (s.height - 1)) with h | h <;>
        rcases min_cases y (s.height - 1) with k | k <;> omega
    have hx0 : 0 ≤ max 0 (min x (s.width - 1)) := le_max_left _ _
    have hx1 : max 0 (min x (s.width - 1)) < s.width := by
      rcases max_cases 0 (min x (s.width - 1)) with h | h <;>
        rcases min_cases x (s.width - 1) with k | k <;> omega
    obtain ⟨h0, h1⟩ := index_in_bounds s.width s.height _ _ hy0 hy1 hx0 hx1
    have hg : s.GetPixel x y
        = s.readData (max 0 (min y (s.height - 1)) * s.width
            + max 0 (min x (s.width - 1))) := by
      simp [Sprite.GetPixel, hm]
    rw [hg]
    exact ⟨h0, h1, readData_in_bounds s _ hs h0 h1⟩

/-- Worked example of C27 on the 3x1 strip in `PERIODIC` mode: `GetPixel(-7, 5)` reads
index `abs(5 % 1) * 3 + abs(-7 % 3) = 1`, inside the three stored pixels. -/
theorem GetPixel_periodic_clamp_in_bounds_witness :
    (stripSprite.SetSampleMode SpriteMode.PERIODIC).GetPixel (-7) 5
      = stripSprite.pColData[1]? ∧
    ((stripSprite.SetSampleMode SpriteMode.CLAMP).GetPixel (-7) 5).isSome :=
  ⟨((GetPixel_periodic_clamp_in_bounds (stripSprite.SetSampleMode SpriteMode.PERIODIC)
      (-7) 5 ⟨by decide, by decide, by decide⟩ (by decide) (by decide)).1 rfl).2.2.1,
   ((GetPixel_periodic_clamp_in_bounds (stripSprite.SetSampleMode SpriteMode.CLAMP)
      (-7) 5 ⟨by decide, by decide, by decide⟩ (by decide) (by decide)).2 rfl).2.2.2⟩

/-- C28, at the input where the code departs from it: for the demo's visible check box
"Show Gears" with `bChecked == false`, `CheckBox::Draw` makes no call for the inner
rectangle, yet `CheckBox::DrawDecal` calls `FillRectDecal(vPos + (2,2), vSize - (4,4),
colBorder)` all the same: `DrawDecal` never reads `bChecked`, so for every check box its
calls are the same with the box checked or not. -/
theorem CheckBox_DrawDecal_draws_mark_unchecked (m : QuickGUI.Manager) (f : String → vi2d) :
    (QuickGUI.showGears false).bVisible = true ∧
    (QuickGUI.showGears false).bChecked = false ∧
    QuickGUI.GuiCall.DrawRect ⟨1812, 82⟩ ⟨85, 11⟩ m.colBorder
      ∈ (QuickGUI.showGears true).Draw m f ∧
    QuickGUI.GuiCall.DrawRect ⟨1812, 82⟩ ⟨85, 11⟩ m.colBorder
      ∉ (QuickGUI.showGears false).Draw m f ∧
    QuickGUI.GuiCall.FillRectDecal ⟨1812, 82⟩ ⟨86, 12⟩ m.colBorder
      ∈ (QuickGUI.showGears false).DrawDecal m f ∧
    (QuickGUI.showGears false).DrawDecal m f = (QuickGUI.showGears true).DrawDecal m f ∧
    ∀ (c : QuickGUI.CheckBox) (b : Bool),
      QuickGUI.CheckBox.DrawDecal { c with bChecked := b } m f = c.DrawDecal m f := by
  have t1 : truncToInt (1810 + 2 : ℚ) = 1812 := by
    have := truncToInt_intCast 1812
    norm_num at this ⊢
    exact this
  have t2 : truncToInt (80 + 2 : ℚ) = 82 := by
    have := truncToInt_intCast 82
    norm_num at this ⊢
    exact this
  have t3 : truncToInt (90 - 5 : ℚ) = 85 := by
    have := truncToInt_intCast 85
    norm_num at this ⊢
    exact this
  have t4 : truncToInt (16 - 5 : ℚ) = 11 := by
    have := truncToInt_intCast 11
    norm_num at this ⊢
    exact this
  have t5 : truncToInt (1810 : ℚ) = 1810 := by
    have := truncToInt_intCast 1810
    norm_num at this ⊢
    exact this
  refine ⟨rfl, rfl, ?_, ?_, ?_, rfl, fun c b => rfl⟩
  · simp [QuickGUI.CheckBox.Draw, QuickGUI.showGears, vf2d.toVi2d, vi2d.toVf2d, vf2d.add,
      vf2d.sub, t1, t2, t3, t4]
  · simp [QuickGUI.CheckBox.Draw, QuickGUI.Button.Draw, QuickGUI.showGears, vf2d.toVi2d,
      vf2d.add, vf2d.sub, t5]
  · simp [QuickGUI.CheckBox.DrawDecal, QuickGUI.showGears, vf2d.add, vf2d.sub]
    norm_num

/-- C29: `TextEntryEnable(true, s)` leaves `0 <= nTextEntryCursor <= size` of the text (and
does not touch the command history); and from every state with the cursor inside the
text and the history iterator inside the history (as it is initially and after every
step), `UpdateTextEntry` runs through for any set of keys pressed in the frame, shift held
or not, console shown or not and whatever `OnConsoleCommand` returns: no `insert` or
`erase` is out of range, and afterwards the cursor is again inside the text and the
iterator inside the history. -/
theorem text_entry_cursor_stays_inside (st : TextEntry) (s : String)
    (GetKey : Key → HWButton) (OnConsoleCommand : String → Bool) :
    (st.TextEntryEnable true s).CursorValid ∧
    ((st.TextEntryEnable true s).HistoryValid ↔ st.HistoryValid) ∧
    ({} : TextEntry).CursorValid ∧ ({} : TextEntry).HistoryValid ∧
    (st.CursorValid → st.HistoryValid →
      ∃ st1, st.UpdateTextEntry GetKey OnConsoleCommand = some st1 ∧
        0 ≤ st1.nTextEntryCursor ∧
        st1.nTextEntryCursor ≤ (st1.sTextEntryString.length : Int) ∧
        st1.HistoryValid) := by
  refine ⟨⟨Int.natCast_nonneg _, le_rfl⟩, Iff.rfl, ⟨le_rfl, le_rfl⟩, Nat.le_refl _, ?_⟩
  intro hc hh
  obtain ⟨st1, h1, c1, v1⟩ := TextEntry.UpdateTextEntry_valid GetKey OnConsoleCommand st hc hh
  exact ⟨st1, h1, c1.1, c1.2, v1⟩

/-- Worked example of C29: with the text "ab" entered (cursor 2) and the keys `C`, `LEFT`,
`BACK` and `DEL` all pressed in one frame, `UpdateTextEntry` runs through and leaves the
cursor inside the text. -/
theorem text_entry_cursor_stays_inside_witness :
    ∃ st1, (({} : TextEntry).TextEntryEnable true "ab").UpdateTextEntry
        (keysPressed [Key.C, Key.LEFT, Key.BACK, Key.DEL] false) (fun _ => true) = some st1 ∧
      0 ≤ st1.nTextEntryCursor ∧
      st1.nTextEntryCursor ≤ (st1.sTextEntryString.length : Int) ∧
      st1.HistoryValid :=
  (text_entry_cursor_stays_inside (({} : TextEntry).TextEntryEnable true "ab") "ab"
    (keysPressed [Key.C, Key.LEFT, Key.BACK, Key.DEL] false) (fun _ => true)).2.2.2.2
    ⟨by decide, by decide⟩ (Nat.le_refl 0)

/-- C30: with a target layer that exists, the overload
`DrawPolygonDecal(decal, pos, depth, uv, tint)` appends to the target layer's batch
exactly one `DecalInstance`, the very one `DrawPolygonDecal(decal, pos, uv, tint)`
appends, for every `depth`: its `w` has one entry per vertex, each equal to 1, whatever
the depth values, its `points` is `pos.size()` and its tints are all `tint`; no other
layer's batch changes, and the two calls leave the engine in the same state. -/
theorem DrawPolygonDecal_depth_ignored (e : GameEngine) (decal : Option Decal)
    (pos uv : List vf2d) (depth : List ℚ) (tint : Pixel)
    (ht : e.nTargetLayer < e.vLayers.length) :
    e.DrawPolygonDecalDepth decal pos depth uv tint = e.DrawPolygonDecal decal pos uv tint ∧
    (∃ di, (e.DrawPolygonDecalDepth decal pos depth uv tint).batch e.nTargetLayer
          = e.batch e.nTargetLayer ++ [di] ∧
      (e.DrawPolygonDecal decal pos uv tint).batch e.nTargetLayer
          = e.batch e.nTargetLayer ++ [di] ∧
      di.w = List.replicate pos.length 1 ∧ di.points = pos.length ∧ di.decal = decal ∧
      di.pos = (List.range pos.length).map (fun i => e.toClip (pos.getD i vf2d.zero)) ∧
      di.uv = (List.range pos.length).map (fun i => uv.getD i vf2d.zero) ∧
      di.tint = List.replicate pos.length tint) ∧
    (∀ t, t ≠ e.nTargetLayer →
      (e.DrawPolygonDecalDepth decal pos depth uv tint).batch t = e.batch t) := by
  refine ⟨rfl, ?_, ?_⟩
  · unfold GameEngine.DrawPolygonDecal GameEngine.DrawPolygonDecalDepth
    rw [GameEngine.batch_pushDecalInstance, if_pos ⟨rfl, ht⟩]
    refine ⟨_, rfl, rfl, ?_, rfl, rfl, rfl, rfl, ?_⟩
    · simp only [List.map_const', List.length_range]
    · simp only [List.map_const', List.length_range]
  · intro t hne
    unfold GameEngine.DrawPolygonDecalDepth
    rw [GameEngine.batch_pushDecalInstance, if_neg (fun h => hne h.1)]

/-- Worked example of C30 on the 100x100 engine: a triangle drawn with depths `5, 6, 7`
leaves one instance in the batch of layer 0, with `w = (1, 1, 1)`. -/
theorem DrawPolygonDecal_depth_ignored_witness :
    ∃ di, (smallEngine.DrawPolygonDecalDepth none [⟨0, 0⟩, ⟨10, 0⟩, ⟨0, 10⟩] [5, 6, 7]
        [⟨0, 0⟩, ⟨1, 0⟩, ⟨0, 1⟩] RED).batch 0 = [di] ∧ di.w = [1, 1, 1] := by
  obtain ⟨di, h1, _, h3, _⟩ :=
    (DrawPolygonDecal_depth_ignored smallEngine none [⟨0, 0⟩, ⟨10, 0⟩, ⟨0, 10⟩]
      [⟨0, 0⟩, ⟨1, 0⟩, ⟨0, 1⟩] [5, 6, 7] RED (by decide)).2.1
  exact ⟨di, h1, h3⟩

end alo
